import Mathlib

/-!
# Sheet-backed record store client

A shallow embedding of `src/api/googleSheetsService.js`, of the handlers, id generators
and filtered lists of the CRUD pages (`src/pages/*/*.jsx`) and of `processDashboardData`
of the dashboard.

Modelling conventions.

* JavaScript values that reach the code are values of `JsVal`: the JSON values of a
  response body plus `undefined`.  Numbers among them are integers; the numbers the pages
  compute with are values of `JsNumber`.
* A decoded record is the list of own properties of the object literal that
  `getRangeData` fills, in insertion order.  Of the prototype chain the part that the
  code can reach is modelled: the setter of `__proto__` while a row is decoded, and the
  properties of `Object.prototype` that the grouping objects of the dashboard inherit.
* The browser is a `World`: the stored access token, the answers the network will give
  to the next requests, the log of the requests sent so far and the messages shown with
  `alert`.  `console.error` is not modelled.
* Operations that can throw return `Except JsError _` together with the world they leave.
-/

/-- The JavaScript values handled by the client. -/
inductive JsVal where
  | undefined
  | null
  | bool (b : Bool)
  | num (n : Int)
  | str (s : String)
  | arr (items : List JsVal)
  | obj (fields : List (String × JsVal))

deriving instance DecidableEq for Except

/-- An exception: `error m` is `new Error(m)`, `typeError m` is raised by the runtime. -/
inductive JsError where
  | error (message : String)
  | typeError (message : String)
  deriving DecidableEq, Repr

/-- The `message` property of an exception. -/
def JsError.message : JsError → String
  | .error m => m
  | .typeError m => m

namespace JsVal

mutual
/-- Equality of values is decidable. -/
def decEq : (a b : JsVal) → Decidable (a = b)
  | undefined, undefined => isTrue rfl
  | null, null => isTrue rfl
  | bool a, bool b => if h : a = b then isTrue (by rw [h]) else isFalse (by intro e; cases e; exact h rfl)
  | num a, num b => if h : a = b then isTrue (by rw [h]) else isFalse (by intro e; cases e; exact h rfl)
  | str a, str b => if h : a = b then isTrue (by rw [h]) else isFalse (by intro e; cases e; exact h rfl)
  | arr a, arr b =>
    match decEqList a b with
    | isTrue h => isTrue (by rw [h])
    | isFalse h => isFalse (by intro e; cases e; exact h rfl)
  | obj a, obj b =>
    match decEqFields a b with
    | isTrue h => isTrue (by rw [h])
    | isFalse h => isFalse (by intro e; cases e; exact h rfl)
  | undefined, null => isFalse (by intro e; cases e)
  | undefined, bool _ => isFalse (by intro e; cases e)
  | undefined, num _ => isFalse (by intro e; cases e)
  | undefined, str _ => isFalse (by intro e; cases e)
  | undefined, arr _ => isFalse (by intro e; cases e)
  | undefined, obj _ => isFalse (by intro e; cases e)
  | null, undefined => isFalse (by intro e; cases e)
  | null, bool _ => isFalse (by intro e; cases e)
  | null, num _ => isFalse (by intro e; cases e)
  | null, str _ => isFalse (by intro e; cases e)
  | null, arr _ => isFalse (by intro e; cases e)
  | null, obj _ => isFalse (by intro e; cases e)
  | bool _, undefined => isFalse (by intro e; cases e)
  | bool _, null => isFalse (by intro e; cases e)
  | bool _, num _ => isFalse (by intro e; cases e)
  | bool _, str _ => isFalse (by intro e; cases e)
  | bool _, arr _ => isFalse (by intro e; cases e)
  | bool _, obj _ => isFalse (by intro e; cases e)
  | num _, undefined => isFalse (by intro e; cases e)
  | num _, null => isFalse (by intro e; cases e)
  | num _, bool _ => isFalse (by intro e; cases e)
  | num _, str _ => isFalse (by intro e; cases e)
  | num _, arr _ => isFalse (by intro e; cases e)
  | num _, obj _ => isFalse (by intro e; cases e)
  | str _, undefined => isFalse (by intro e; cases e)
  | str _, null => isFalse (by intro e; cases e)
  | str _, bool _ => isFalse (by intro e; cases e)
  | str _, num _ => isFalse (by intro e; cases e)
  | str _, arr _ => isFalse (by intro e; cases e)
  | str _, obj _ => isFalse (by intro e; cases e)
  | arr _, undefined => isFalse (by intro e; cases e)
  | arr _, null => isFalse (by intro e; cases e)
  | arr _, bool _ => isFalse (by intro e; cases e)
  | arr _, num _ => isFalse (by intro e; cases e)
  | arr _, str _ => isFalse (by intro e; cases e)
  | arr _, obj _ => isFalse (by intro e; cases e)
  | obj _, undefined => isFalse (by intro e; cases e)
  | obj _, null => isFalse (by intro e; cases e)
  | obj _, bool _ => isFalse (by intro e; cases e)
  | obj _, num _ => isFalse (by intro e; cases e)
  | obj _, str _ => isFalse (by intro e; cases e)
  | obj _, arr _ => isFalse (by intro e; cases e)
termination_by structural a => a
/-- Equality of lists of values is decidable. -/
def decEqList : (a b : List JsVal) → Decidable (a = b)
  | [], [] => isTrue rfl
  | [], _ :: _ => isFalse (by intro e; cases e)
  | _ :: _, [] => isFalse (by intro e; cases e)
  | x :: xs, y :: ys =>
    match decEq x y, decEqList xs ys with
    | isTrue h1, isTrue h2 => isTrue (by rw [h1, h2])
    | isFalse h, _ => isFalse (by intro e; cases e; exact h rfl)
    | _, isFalse h => isFalse (by intro e; cases e; exact h rfl)
termination_by structural a => a
/-- Equality of field lists is decidable. -/
def decEqFields : (a b : List (String × JsVal)) → Decidable (a = b)
  | [], [] => isTrue rfl
  | [], _ :: _ => isFalse (by intro e; cases e)
  | _ :: _, [] => isFalse (by intro e; cases e)
  | (k, x) :: xs, (l, y) :: ys =>
    if hk : k = l then
      match decEq x y, decEqFields xs ys with
      | isTrue h1, isTrue h2 => isTrue (by rw [hk, h1, h2])
      | isFalse h, _ => isFalse (by intro e; cases e; exact h rfl)
      | _, isFalse h => isFalse (by intro e; cases e; exact h rfl)
    else isFalse (by intro e; cases e; exact hk rfl)
termination_by structural a => a
end
instance : DecidableEq JsVal := decEq

mutual
/-- The conversion `String(v)`, also used for template literals and property keys. -/
def toJsString : JsVal → String
  | undefined => "undefined"
  | null => "null"
  | bool b => if b then "true" else "false"
  | num n => toString n
  | str s => s
  | arr items => joinItems items
  | obj _ => "[object Object]"
termination_by structural v => v
/-- The text of `items.join(",")`: `null` and `undefined` items are rendered empty. -/
def joinItems : List JsVal → String
  | [] => ""
  | undefined :: rest => joinRest rest
  | null :: rest => joinRest rest
  | v :: rest => toJsString v ++ joinRest rest
termination_by structural vs => vs
/-- The items after the first one, each preceded by a comma. -/
def joinRest : List JsVal → String
  | [] => ""
  | undefined :: rest => "," ++ joinRest rest
  | null :: rest => "," ++ joinRest rest
  | v :: rest => "," ++ toJsString v ++ joinRest rest
termination_by structural vs => vs
end

/-- The conversion to boolean used by `!v`, `v || w` and `if (v)`. -/
def truthy : JsVal → Bool
  | undefined => false
  | null => false
  | bool b => b
  | num n => n != 0
  | str s => s != ""
  | arr _ => true
  | obj _ => true

/-- The comparison `a === b` on values that are not shared references: primitives compare
by value, and two arrays or objects are distinct. -/
def strictEq : JsVal → JsVal → Bool
  | undefined, undefined => true
  | null, null => true
  | bool a, bool b => a == b
  | num a, num b => a == b
  | str a, str b => a == b
  | _, _ => false

/-- Own property lookup in a field list. -/
def lookupField : List (String × JsVal) → String → JsVal
  | [], _ => undefined
  | (k, v) :: rest, name => if k = name then v else lookupField rest name

/-- The property read `v.name` for the names the service reads (`values`, `error`,
`message`, `sheets`, `properties`, `title`, `sheetId`): it throws on `undefined` and `null`, reads an own property of an object, and
finds nothing usable on a primitive or an array. -/
def getField (v : JsVal) (name : String) : Except JsError JsVal :=
  match v with
  | undefined => .error (.typeError ("Cannot read properties of undefined (reading " ++ name ++ ")"))
  | null => .error (.typeError ("Cannot read properties of null (reading " ++ name ++ ")"))
  | obj fields => .ok (lookupField fields name)
  | _ => .ok undefined

/-- The element read `v[i]` for a numeric index `i`; the characters of a string are taken
to be its code points. -/
def index (v : JsVal) (i : Nat) : Except JsError JsVal :=
  match v with
  | undefined => .error (.typeError ("Cannot read properties of undefined (reading " ++ toString i ++ ")"))
  | null => .error (.typeError ("Cannot read properties of null (reading " ++ toString i ++ ")"))
  | arr items => .ok (items.getD i undefined)
  | str s => .ok ((s.toList.get? i).elim undefined (fun c => str (String.singleton c)))
  | obj fields => .ok (lookupField fields (toString i))
  | _ => .ok undefined

/-- The array destructuring `const [first, ...rest] = v`: `v` has to be iterable, which
among these values only arrays and strings are. -/
def destructureFirstRest (v : JsVal) : Except JsError (JsVal × List JsVal) :=
  match v with
  | arr [] => .ok (undefined, [])
  | arr (first :: rest) => .ok (first, rest)
  | str s =>
    match s.toList with
    | [] => .ok (undefined, [])
    | c :: cs => .ok (str (String.singleton c), cs.map (fun d => str (String.singleton d)))
  | _ => .error (.typeError (toJsString v ++ " is not iterable"))

end JsVal

/-- A decoded record: the own properties of the object, in insertion order. -/
abbrev Record := List (String × JsVal)

/-- The write of the own property `key` of a record: the property is replaced where it
stands, or added after the others. -/
def Record.set : Record → String → JsVal → Record
  | [], key, value => [(key, value)]
  | (k, v) :: rest, key, value =>
    if k = key then (k, value) :: rest else (k, v) :: Record.set rest key value

/-- The read `record[key]` of an own property; `undefined` when the record has no such
property, which is the value of the read unless the name is found on the prototype. -/
def Record.get (r : Record) (key : String) : JsVal := JsVal.lookupField r key

/-- An HTTP request as the service builds it. -/
structure Request where
  method : String
  url : String
  authorization : String
  contentType : Option String
  body : JsVal

/-- An HTTP response: the `ok` flag and the outcome of `response.json()`. -/
structure Response where
  ok : Bool
  json : Except JsError JsVal

/-- The browser environment of one run. -/
structure World where
  spreadsheetId : String
  token : JsVal
  pending : List (Except JsError Response)
  sent : List Request
  alerts : List String

/-- The call `fetch(url, options)`: the request is logged and the next pending answer is
delivered; with nothing pending the request is rejected as a network failure. -/
def fetch (req : Request) (w : World) : Except JsError Response × World :=
  match w.pending with
  | [] => (.error (.typeError "Failed to fetch"), { w with sent := w.sent ++ [req] })
  | answer :: rest => (answer, { w with pending := rest, sent := w.sent ++ [req] })

/-- The call `alert(message)`. -/
def alert (message : String) (w : World) : World :=
  { w with alerts := w.alerts ++ [message] }

/-- The stored access token, `sessionStorage.getItem(...)`. -/
def getAccessToken (w : World) : JsVal := w.token

/-- The exception thrown in the `!response.ok` branch of every operation. -/
def apiError (response : Response) : JsError :=
  match response.json with
  | .error e => e
  | .ok errorData =>
    match errorData.getField "error" with
    | .error e => e
    | .ok err =>
      match err.getField "message" with
      | .error e => e
      | .ok m => .error ("Google Sheets API error: " ++ m.toJsString)

/-- The prototype of the object `rowData` while `getRangeData` fills it: at first
`Object.prototype`, later possibly `null` or an array or object of the response body. -/
inductive RowProto where
  | objectPrototype
  | null
  | value (v : JsVal)

/-- An assignment to the name `__proto__` reaches the setter of `Object.prototype` through
this prototype: it does not when the prototype is `null`, or is an object of the response
body that has a property `__proto__` of its own. -/
def RowProto.hasSetter : RowProto → Bool
  | .objectPrototype => true
  | .null => false
  | .value (.obj fields) => !(fields.any (fun f => f.1 == "__proto__"))
  | .value _ => true

/-- The prototype after the setter of `__proto__` was called with `cell`: an array, an
object or `null` becomes the prototype, any other value is ignored. -/
def RowProto.assigned (proto : RowProto) : JsVal → RowProto
  | .null => .null
  | .arr items => .value (.arr items)
  | .obj fields => .value (.obj fields)
  | _ => proto

/-- The assignment `rowData[key] = cell` calls the setter of `__proto__` instead of
writing a property of `rowData`. -/
def decodeRow.callsSetter (key : String) (proto : RowProto) (rowData : Record) : Bool :=
  key == "__proto__" && !(rowData.any (fun f => f.1 == "__proto__")) && proto.hasSetter

/-- The body of the `rows.map` callback of `getRangeData`: `headers.forEach` assigns
`rowData[header] = row[index]` for each header in turn to the object `rowData = {}`.  The
assignment writes an own property of `rowData`, except for the name `__proto__`, which as
a rule is no property of `rowData` but an accessor of `Object.prototype`.  The record
returned holds the own properties of `rowData`. -/
def decodeRow (headers : JsVal) (row : JsVal) : Except JsError Record :=
  match headers with
  | .arr hs => go hs 0 .objectPrototype []
  | .undefined => .error (.typeError "Cannot read properties of undefined (reading forEach)")
  | .null => .error (.typeError "Cannot read properties of null (reading forEach)")
  | _ => .error (.typeError "headers.forEach is not a function")
where
  /-- The `forEach` loop from position `i` on, `rowData` being the own properties of the
  object built so far and `proto` its prototype. -/
  go : List JsVal → Nat → RowProto → Record → Except JsError Record
    | [], _, _, rowData => .ok rowData
    | header :: rest, i, proto, rowData =>
      match row.index i with
      | .error e => .error e
      | .ok cell =>
        if decodeRow.callsSetter header.toJsString proto rowData then
          go rest (i + 1) (proto.assigned cell) rowData
        else go rest (i + 1) proto (rowData.set header.toJsString cell)

/-- The call `rows.map(row => ...)` of `getRangeData`; the first throwing row aborts it. -/
def decodeRows (headers : JsVal) : List JsVal → Except JsError (List Record)
  | [] => .ok []
  | row :: rest =>
    match decodeRow headers row with
    | .error e => .error e
    | .ok rowData =>
      match decodeRows headers rest with
      | .error e => .error e
      | .ok more => .ok (rowData :: more)

/-- Lines 26 to 40 of `getRangeData`: the parsed body is split into the header row and the
data rows, and each data row becomes a record. -/
def decodeBody (data : JsVal) : Except JsError (List Record) :=
  match data.getField "values" with
  | .error e => .error e
  | .ok values =>
    match values.destructureFirstRest with
    | .error e => .error e
    | .ok (headers, rows) =>
      if rows.length = 0 then .ok [] else decodeRows headers rows

/-- The operation `getRangeData(rangeName)`. -/
def getRangeData (rangeName : String) (w : World) : Except JsError (List Record) × World :=
  let token := getAccessToken w
  let req : Request :=
    { method := "GET"
      url := "https://sheets.googleapis.com/v4/spreadsheets/" ++ w.spreadsheetId
        ++ "/values/" ++ rangeName
      authorization := "Bearer " ++ token.toJsString
      contentType := none
      body := .undefined }
  match fetch req w with
  | (.error e, w1) => (.error e, w1)
  | (.ok response, w1) =>
    if !response.ok then (.error (apiError response), w1)
    else
      match response.json with
      | .error e => (.error e, w1)
      | .ok data => (decodeBody data, w1)

namespace JsVal

mutual
/-- The value a receiver parses out of `JSON.stringify(v)`: inside an array `undefined`
becomes `null`, and a property whose value is `undefined` is left out. -/
def toJSON : JsVal → JsVal
  | arr items => arr (toJSONItems items)
  | obj fields => obj (toJSONFields fields)
  | v => v
termination_by structural v => v
/-- The serialised items of an array. -/
def toJSONItems : List JsVal → List JsVal
  | [] => []
  | undefined :: rest => null :: toJSONItems rest
  | v :: rest => toJSON v :: toJSONItems rest
termination_by structural vs => vs
/-- The serialised properties of an object. -/
def toJSONFields : List (String × JsVal) → List (String × JsVal)
  | [] => []
  | (_, undefined) :: rest => toJSONFields rest
  | (k, v) :: rest => (k, toJSON v) :: toJSONFields rest
termination_by structural fs => fs
end

end JsVal

/-- The operation `appendRow(rangeName, values)`. -/
def appendRow (rangeName : String) (values : List JsVal) (w : World) :
    Except JsError JsVal × World :=
  let token := getAccessToken w
  let req : Request :=
    { method := "POST"
      url := "https://sheets.googleapis.com/v4/spreadsheets/" ++ w.spreadsheetId
        ++ "/values/" ++ rangeName ++ ":append?valueInputOption=USER_ENTERED"
      authorization := "Bearer " ++ token.toJsString
      contentType := some "application/json"
      body := JsVal.toJSON (.obj [("values", .arr [.arr values])]) }
  match fetch req w with
  | (.error e, w1) => (.error e, w1)
  | (.ok response, w1) =>
    if !response.ok then (.error (apiError response), w1)
    else
      match response.json with
      | .error e => (.error e, w1)
      | .ok result => (.ok result, w1)

/-- The operation `updateRow(range, values)`. -/
def updateRow (range : String) (values : List JsVal) (w : World) :
    Except JsError JsVal × World :=
  let token := getAccessToken w
  let req : Request :=
    { method := "PUT"
      url := "https://sheets.googleapis.com/v4/spreadsheets/" ++ w.spreadsheetId
        ++ "/values/" ++ range ++ "?valueInputOption=USER_ENTERED"
      authorization := "Bearer " ++ token.toJsString
      contentType := some "application/json"
      body := JsVal.toJSON (.obj [("values", .arr [.arr values])]) }
  match fetch req w with
  | (.error e, w1) => (.error e, w1)
  | (.ok response, w1) =>
    if !response.ok then (.error (apiError response), w1)
    else
      match response.json with
      | .error e => (.error e, w1)
      | .ok result => (.ok result, w1)

/-- The call `sheets.find(s => s.properties.title === sheetName)` of `getSheetId`. -/
def getSheetId.find (sheetName : String) : List JsVal → Except JsError JsVal
  | [] => .ok .undefined
  | s :: rest =>
    match s.getField "properties" with
    | .error e => .error e
    | .ok properties =>
      match properties.getField "title" with
      | .error e => .error e
      | .ok title =>
        if title.strictEq (.str sheetName) then .ok s else getSheetId.find sheetName rest

/-- The helper `getSheetId(sheetName)`. -/
def getSheetId (sheetName : String) (w : World) : Except JsError JsVal × World :=
  let token := getAccessToken w
  let req : Request :=
    { method := "GET"
      url := "https://sheets.googleapis.com/v4/spreadsheets/" ++ w.spreadsheetId
        ++ "?fields=sheets.properties"
      authorization := "Bearer " ++ token.toJsString
      contentType := none
      body := .undefined }
  match fetch req w with
  | (.error e, w1) => (.error e, w1)
  | (.ok response, w1) =>
    if !response.ok then (.error (.error "Could not fetch sheet metadata"), w1)
    else
      match response.json with
      | .error e => (.error e, w1)
      | .ok spreadsheet =>
        match spreadsheet.getField "sheets" with
        | .error e => (.error e, w1)
        | .ok (.arr sheets) =>
          match getSheetId.find sheetName sheets with
          | .error e => (.error e, w1)
          | .ok sheet =>
            if !sheet.truthy then
              (.error (.error ("Sheet with name \"" ++ sheetName ++ "\" not found.")), w1)
            else
              match sheet.getField "properties" with
              | .error e => (.error e, w1)
              | .ok properties => (properties.getField "sheetId", w1)
        | .ok .undefined =>
          (.error (.typeError "Cannot read properties of undefined (reading find)"), w1)
        | .ok .null =>
          (.error (.typeError "Cannot read properties of null (reading find)"), w1)
        | .ok _ => (.error (.typeError "spreadsheet.sheets.find is not a function"), w1)

/-- The object literal that `deleteRow` passes to `JSON.stringify`. -/
def deleteRow.body (sheetId : JsVal) (rowIndex : Int) : JsVal :=
  .obj [("requests", .arr [
    .obj [("deleteDimension", .obj [("range", .obj [
      ("sheetId", sheetId),
      ("dimension", .str "ROWS"),
      ("startIndex", .num (rowIndex - 1)),
      ("endIndex", .num rowIndex)])])]])]

/-- The operation `deleteRow(sheetName, rowIndex)`: the sheet id is resolved while the
request body is being built, so the metadata request precedes the batch update. -/
def deleteRow (sheetName : String) (rowIndex : Int) (w : World) :
    Except JsError JsVal × World :=
  let token := getAccessToken w
  match getSheetId sheetName w with
  | (.error e, w1) => (.error e, w1)
  | (.ok sheetId, w1) =>
    let req : Request :=
      { method := "POST"
        url := "https://sheets.googleapis.com/v4/spreadsheets/" ++ w.spreadsheetId
          ++ ":batchUpdate"
        authorization := "Bearer " ++ token.toJsString
        contentType := some "application/json"
        body := JsVal.toJSON (deleteRow.body sheetId rowIndex) }
    match fetch req w1 with
    | (.error e, w2) => (.error e, w2)
    | (.ok response, w2) =>
      if !response.ok then (.error (apiError response), w2)
      else
        match response.json with
        | .error e => (.error e, w2)
        | .ok result => (.ok result, w2)

/-- The array method `xs.findIndex(p)`: the position of the first element satisfying `p`,
or `-1`. -/
def findIndex {α : Type} (p : α → Bool) (xs : List α) : Int :=
  go xs 0
where
  /-- The scan from position `k` on. -/
  go : List α → Nat → Int
    | [], _ => -1
    | x :: rest, k => if p x then (k : Int) else go rest (k + 1)

/-- The array method `xs.find(p)`: the first element satisfying `p`, if any. -/
def find {α : Type} (p : α → Bool) : List α → Option α
  | [] => none
  | x :: rest => if p x then some x else find p rest

/-- The helper `findRowIndex` of `Customers.jsx`. -/
def Customers.findRowIndex (data : List Record) (customerId : JsVal) : Int :=
  findIndex (fun row => (row.get "Customer ID").strictEq customerId) data + 2

/-- The helper `findRowIndex` of `Suppliers.jsx`. -/
def Suppliers.findRowIndex (data : List Record) (supplierId : JsVal) : Int :=
  findIndex (fun row => (row.get "Supplier ID").strictEq supplierId) data + 2

/-- The helper `findRowIndex` of `Users.jsx`. -/
def Users.findRowIndex (data : List Record) (userId : JsVal) : Int :=
  findIndex (fun row => (row.get "UserID").strictEq userId) data + 2

/-- The helper `findRowIndex` of `Payments.jsx`. -/
def Payments.findRowIndex (data : List Record) (trxId : JsVal) : Int :=
  findIndex (fun row => (row.get "Trx ID").strictEq trxId) data + 2

/-- The helper `findRowIndex` of `Receipts.jsx`. -/
def Receipts.findRowIndex (data : List Record) (trxId : JsVal) : Int :=
  findIndex (fun row => (row.get "Trx ID").strictEq trxId) data + 2

/-! ## The backing sheet

The remote store is not part of the repository.  For the round-trip properties it is
modelled as one sheet: a list of rows from the top, the header row first. -/

/-- A sheet: its rows from the top, header row included. -/
abbrev Grid := List (List JsVal)

/-- The successful answer to a read of the whole sheet. -/
def Grid.response (g : Grid) : Response :=
  { ok := true, json := .ok (.obj [("values", .arr (g.map JsVal.arr))]) }

/-- The dimension delete on rows: the rows at the 0-based positions in
`[startIndex, endIndex)` are removed and the rows below move up. -/
def Grid.deleteRows (g : Grid) (startIndex endIndex : Int) : Grid :=
  go g 0
where
  /-- The rows from position `k` on. -/
  go : Grid → Nat → Grid
    | [], _ => []
    | row :: rest, k =>
      if startIndex ≤ (k : Int) ∧ (k : Int) < endIndex then go rest (k + 1)
      else row :: go rest (k + 1)

/-- The effect of one request of a batch update on the sheet. -/
def Grid.applyRequest (g : Grid) (request : JsVal) : Grid :=
  match request.getField "deleteDimension" with
  | .ok deleteDimension =>
    match deleteDimension.getField "range" with
    | .ok range =>
      match range.getField "dimension", range.getField "startIndex",
        range.getField "endIndex" with
      | .ok (.str "ROWS"), .ok (.num startIndex), .ok (.num endIndex) =>
        g.deleteRows startIndex endIndex
      | _, _, _ => g
    | .error _ => g
  | .error _ => g

/-- The effect of a batch update with the given request body on the sheet. -/
def Grid.batchUpdate (g : Grid) (body : JsVal) : Grid :=
  match body.getField "requests" with
  | .ok (.arr requests) => requests.foldl Grid.applyRequest g
  | _ => g

/-- The rows carried by the `values` of an append or update body. -/
def bodyRows (body : JsVal) : List (List JsVal) :=
  match body.getField "values" with
  | .ok (.arr rows) =>
    rows.filterMap (fun row => match row with | .arr cells => some cells | _ => none)
  | _ => []

/-- The effect of an append with the given request body: the rows sent are added after
all existing rows. -/
def Grid.append (g : Grid) (body : JsVal) : Grid := g ++ bodyRows body

/-! ## The CRUD pages

A handler runs on the state its closure captured and returns the state after all its
`set...` calls, with the world it leaves.  `window.confirm` answers with the given flag.
`refreshData` of the data context, `parseFloat` and `formatDateForSheet(new Date())` are
not part of these files and are taken as parameters. -/

/-- A JavaScript number as far as the comparisons of the pages need it. -/
inductive JsNumber where
  | nan
  | negInfinity
  | finite (q : ℚ)
  | posInfinity

/-- The comparison `a > b` on numbers. -/
def JsNumber.gt : JsNumber → JsNumber → Bool
  | .nan, _ => false
  | _, .nan => false
  | .posInfinity, .posInfinity => false
  | .posInfinity, _ => true
  | _, .posInfinity => false
  | .negInfinity, _ => false
  | .finite _, .negInfinity => true
  | .finite a, .finite b => decide (b < a)

/-- The expression `v || w`. -/
def JsVal.or (v w : JsVal) : JsVal := if v.truthy then v else w

namespace Customers

/-- The constant `CUSTOMERS_SHEET_NAME`. -/
def CUSTOMERS_SHEET_NAME : String := "Customers"

/-- The constant `CUSTOMERS_RANGE`. -/
def CUSTOMERS_RANGE : String := "RANGECUSTOMERS"

/-- The component state of `Customers`. -/
structure State where
  customers : List Record
  loading : Bool
  error : Option String
  isModalOpen : Bool
  editingCustomer : Option Record
  formData : Record
  filterColumn : String
  searchTerm : String

/-- The function `fetchCustomers`. -/
def fetchCustomers (s : State) (w : World) : State × World :=
  let s1 := { s with loading := true, error := none }
  match getRangeData CUSTOMERS_RANGE w with
  | (.ok data, w1) => ({ s1 with customers := data, loading := false }, w1)
  | (.error err, w1) => ({ s1 with error := some err.message, loading := false }, w1)

/-- The function `handleCloseModal`. -/
def handleCloseModal (s : State) : State :=
  { s with isModalOpen := false, editingCustomer := none }

/-- The `try` block of `handleSubmit`. -/
def handleSubmit.attempt (refreshSharedData : World → Except JsError Unit × World)
    (s : State) (w : World) : Except JsError Unit × State × World :=
  let headers := ["Customer ID", "Customer Name", "Customer Contact", "Customer Email",
    "State", "City", "Customer Address", "Total Sales", "Total Receipts",
    "Balance Receivable"]
  let written : Except JsError JsVal × World :=
    match s.editingCustomer with
    | some editingCustomer =>
      let rowIndex := findRowIndex s.customers (editingCustomer.get "Customer ID")
      if rowIndex < 2 then (.error (.error "Could not find the customer to update."), w)
      else
        let updatedValues := [
          s.formData.get "Customer ID", s.formData.get "Customer Name",
          s.formData.get "Customer Contact", s.formData.get "Customer Email",
          s.formData.get "State", s.formData.get "City", s.formData.get "Customer Address"]
        let rangeToUpdate := CUSTOMERS_SHEET_NAME ++ "!A" ++ (JsVal.num rowIndex).toJsString
          ++ ":G" ++ (JsVal.num rowIndex).toJsString
        updateRow rangeToUpdate updatedValues w
    | none =>
      let values := headers.map (fun header =>
        if ["Total Sales", "Total Receipts", "Balance Receivable"].contains header
        then JsVal.num 0
        else (s.formData.get header).or (.str ""))
      appendRow CUSTOMERS_RANGE values w
  match written with
  | (.error err, w1) => (.error err, s, w1)
  | (.ok _, w1) =>
    match fetchCustomers s w1 with
    | (s2, w2) =>
      match refreshSharedData w2 with
      | (.error err, w3) => (.error err, s2, w3)
      | (.ok _, w3) => (.ok (), handleCloseModal s2, w3)

/-- The handler `handleSubmit`. -/
def handleSubmit (refreshSharedData : World → Except JsError Unit × World)
    (s : State) (w : World) : State × World :=
  let id := s.formData.get "Customer ID"
  let name := s.formData.get "Customer Name"
  let state := s.formData.get "State"
  let city := s.formData.get "City"
  if !id.truthy || !name.truthy || !state.truthy || !city.truthy then
    (s, alert "Please fill all required fields: ID, Name, State, and City." w)
  else
    match handleSubmit.attempt refreshSharedData { s with loading := true } w with
    | (.ok _, s1, w1) => ({ s1 with loading := false }, w1)
    | (.error err, s1, w1) =>
      ({ s1 with error := some err.message, loading := false },
        alert ("Error: " ++ err.message) w1)

/-- The `try` block of `handleDelete`. -/
def handleDelete.attempt (refreshSharedData : World → Except JsError Unit × World)
    (s : State) (customerId : JsVal) (w : World) : Except JsError Unit × State × World :=
  let rowIndex := findRowIndex s.customers customerId
  if rowIndex < 2 then (.error (.error "Could not find customer to delete."), s, w)
  else
    match deleteRow CUSTOMERS_SHEET_NAME rowIndex w with
    | (.error err, w1) => (.error err, s, w1)
    | (.ok _, w1) =>
      match fetchCustomers s w1 with
      | (s2, w2) =>
        match refreshSharedData w2 with
        | (.error err, w3) => (.error err, s2, w3)
        | (.ok _, w3) => (.ok (), s2, w3)

/-- The handler `handleDelete`; an exception it does not catch is returned as the error. -/
def handleDelete (refreshSharedData : World → Except JsError Unit × World)
    (parseFloat : String → JsNumber) (confirm : Bool)
    (s : State) (customerId : JsVal) (w : World) : Except JsError (State × World) :=
  match find (fun c => (Record.get c "Customer ID").strictEq customerId) s.customers with
  | none =>
    .error (.typeError "Cannot read properties of undefined (reading Balance Receivable)")
  | some customerToDelete =>
    if (parseFloat ((customerToDelete.get "Balance Receivable").or (.num 0)).toJsString).gt
        (.finite 0) then
      .ok (s, alert "Cannot delete customer with an outstanding balance." w)
    else if confirm then
      match handleDelete.attempt refreshSharedData { s with loading := true } customerId w with
      | (.ok _, s1, w1) => .ok ({ s1 with loading := false }, w1)
      | (.error err, s1, w1) =>
        .ok ({ s1 with error := some err.message, loading := false },
          alert ("Error: " ++ err.message) w1)
    else .ok (s, w)

end Customers

namespace Suppliers

/-- The constant `SUPPLIERS_SHEET_NAME`. -/
def SUPPLIERS_SHEET_NAME : String := "Suppliers"

/-- The constant `SUPPLIERS_RANGE`. -/
def SUPPLIERS_RANGE : String := "RANGESUPPLIERS"

/-- The component state of `Suppliers`. -/
structure State where
  suppliers : List Record
  loading : Bool
  error : Option String
  isModalOpen : Bool
  editingSupplier : Option Record
  formData : Record
  filterColumn : String
  searchTerm : String

/-- The function `fetchSuppliers`. -/
def fetchSuppliers (s : State) (w : World) : State × World :=
  let s1 := { s with loading := true, error := none }
  match getRangeData SUPPLIERS_RANGE w with
  | (.ok data, w1) => ({ s1 with suppliers := data, loading := false }, w1)
  | (.error err, w1) => ({ s1 with error := some err.message, loading := false }, w1)

/-- The function `handleCloseModal`. -/
def handleCloseModal (s : State) : State :=
  { s with isModalOpen := false, editingSupplier := none }

/-- The `try` block of `handleSubmit`. -/
def handleSubmit.attempt (refreshSharedData : World → Except JsError Unit × World)
    (s : State) (w : World) : Except JsError Unit × State × World :=
  let headers := ["Supplier ID", "Supplier Name", "Supplier Contact", "Supplier Email",
    "State", "City", "Supplier Address", "Total Purchases", "Total Payments",
    "Balance Payable"]
  let written : Except JsError JsVal × World :=
    match s.editingSupplier with
    | some editingSupplier =>
      let rowIndex := findRowIndex s.suppliers (editingSupplier.get "Supplier ID")
      if rowIndex < 2 then (.error (.error "Could not find supplier to update."), w)
      else
        let updatedValues := [
          s.formData.get "Supplier ID", s.formData.get "Supplier Name",
          s.formData.get "Supplier Contact", s.formData.get "Supplier Email",
          s.formData.get "State", s.formData.get "City", s.formData.get "Supplier Address"]
        let rangeToUpdate := SUPPLIERS_SHEET_NAME ++ "!A" ++ (JsVal.num rowIndex).toJsString
          ++ ":G" ++ (JsVal.num rowIndex).toJsString
        updateRow rangeToUpdate updatedValues w
    | none =>
      let values := headers.map (fun header =>
        if ["Total Purchases", "Total Payments", "Balance Payable"].contains header
        then JsVal.num 0
        else (s.formData.get header).or (.str ""))
      appendRow SUPPLIERS_RANGE values w
  match written with
  | (.error err, w1) => (.error err, s, w1)
  | (.ok _, w1) =>
    match fetchSuppliers s w1 with
    | (s2, w2) =>
      match refreshSharedData w2 with
      | (.error err, w3) => (.error err, s2, w3)
      | (.ok _, w3) => (.ok (), handleCloseModal s2, w3)

/-- The handler `handleSubmit`. -/
def handleSubmit (refreshSharedData : World → Except JsError Unit × World)
    (s : State) (w : World) : State × World :=
  let id := s.formData.get "Supplier ID"
  let name := s.formData.get "Supplier Name"
  let state := s.formData.get "State"
  let city := s.formData.get "City"
  if !id.truthy || !name.truthy || !state.truthy || !city.truthy then
    (s, alert "Please fill all required fields: ID, Name, State, and City." w)
  else
    match handleSubmit.attempt refreshSharedData { s with loading := true } w with
    | (.ok _, s1, w1) => ({ s1 with loading := false }, w1)
    | (.error err, s1, w1) =>
      ({ s1 with error := some err.message, loading := false },
        alert ("Error: " ++ err.message) w1)

/-- The `try` block of `handleDelete`. -/
def handleDelete.attempt (refreshSharedData : World → Except JsError Unit × World)
    (s : State) (supplierId : JsVal) (w : World) : Except JsError Unit × State × World :=
  let rowIndex := findRowIndex s.suppliers supplierId
  if rowIndex < 2 then (.error (.error "Could not find supplier to delete."), s, w)
  else
    match deleteRow SUPPLIERS_SHEET_NAME rowIndex w with
    | (.error err, w1) => (.error err, s, w1)
    | (.ok _, w1) =>
      match fetchSuppliers s w1 with
      | (s2, w2) =>
        match refreshSharedData w2 with
        | (.error err, w3) => (.error err, s2, w3)
        | (.ok _, w3) => (.ok (), s2, w3)

/-- The handler `handleDelete`; an exception it does not catch is returned as the error. -/
def handleDelete (refreshSharedData : World → Except JsError Unit × World)
    (parseFloat : String → JsNumber) (confirm : Bool)
    (s : State) (supplierId : JsVal) (w : World) : Except JsError (State × World) :=
  match find (fun c => (Record.get c "Supplier ID").strictEq supplierId) s.suppliers with
  | none =>
    .error (.typeError "Cannot read properties of undefined (reading Balance Payable)")
  | some supplierToDelete =>
    if (parseFloat ((supplierToDelete.get "Balance Payable").or (.num 0)).toJsString).gt
        (.finite 0) then
      .ok (s, alert "Cannot delete supplier with an outstanding balance." w)
    else if confirm then
      match handleDelete.attempt refreshSharedData { s with loading := true } supplierId w with
      | (.ok _, s1, w1) => .ok ({ s1 with loading := false }, w1)
      | (.error err, s1, w1) =>
        .ok ({ s1 with error := some err.message, loading := false },
          alert ("Error: " ++ err.message) w1)
    else .ok (s, w)

end Suppliers

namespace Users

/-- The constant `USERS_SHEET_NAME`. -/
def USERS_SHEET_NAME : String := "Users"

/-- The constant `USERS_RANGE`. -/
def USERS_RANGE : String := "RANGEUSERS"

/-- The component state of `Users`. -/
structure State where
  users : List Record
  loading : Bool
  error : Option String
  isModalOpen : Bool
  editingUser : Option Record
  formData : Record

/-- The function `fetchUsers`. -/
def fetchUsers (s : State) (w : World) : State × World :=
  let s1 := { s with loading := true, error := none }
  match getRangeData USERS_RANGE w with
  | (.ok data, w1) => ({ s1 with users := data, loading := false }, w1)
  | (.error err, w1) => ({ s1 with error := some err.message, loading := false }, w1)

/-- The function `handleCloseModal`. -/
def handleCloseModal (s : State) : State :=
  { s with isModalOpen := false, editingUser := none }

/-- The `try` block of `handleSubmit`; `random` is the sample `Math.random()` returns and
`today` the value of `formatDateForSheet(new Date())`. -/
def handleSubmit.attempt (random : ℚ) (today : JsVal)
    (s : State) (w : World) : Except JsError Unit × State × World :=
  let written : Except JsError JsVal × World :=
    match s.editingUser with
    | some editingUser =>
      let rowIndex := findRowIndex s.users (editingUser.get "UserID")
      if rowIndex < 2 then (.error (.error "Could not find the user to update."), w)
      else
        let values := [
          s.formData.get "UserID", s.formData.get "Name", s.formData.get "Email",
          s.formData.get "Role", s.formData.get "Status", editingUser.get "Date Added"]
        let rangeToUpdate := USERS_SHEET_NAME ++ "!A" ++ (JsVal.num rowIndex).toJsString
          ++ ":F" ++ (JsVal.num rowIndex).toJsString
        updateRow rangeToUpdate values w
    | none =>
      let newId := "U" ++ (JsVal.num ⌊1000 + random * 9000⌋).toJsString
      let values := [
        JsVal.str newId, s.formData.get "Name", s.formData.get "Email",
        s.formData.get "Role", s.formData.get "Status", today]
      appendRow USERS_RANGE values w
  match written with
  | (.error err, w1) => (.error err, s, w1)
  | (.ok _, w1) =>
    match fetchUsers s w1 with
    | (s2, w2) => (.ok (), handleCloseModal s2, w2)

/-- The handler `handleSubmit`. -/
def handleSubmit (random : ℚ) (today : JsVal) (s : State) (w : World) : State × World :=
  if !(s.formData.get "Name").truthy || !(s.formData.get "Email").truthy
      || !(s.formData.get "Role").truthy then
    (s, alert "Please fill in Name, Email, and Role." w)
  else
    match handleSubmit.attempt random today { s with loading := true } w with
    | (.ok _, s1, w1) => ({ s1 with loading := false }, w1)
    | (.error err, s1, w1) =>
      ({ s1 with error := some err.message, loading := false },
        alert ("Error: " ++ err.message) w1)

/-- The `try` block of `handleDelete`. -/
def handleDelete.attempt (s : State) (userId : JsVal) (w : World) :
    Except JsError Unit × State × World :=
  let rowIndex := findRowIndex s.users userId
  if rowIndex < 2 then (.error (.error "Could not find user to delete."), s, w)
  else
    match deleteRow USERS_SHEET_NAME rowIndex w with
    | (.error err, w1) => (.error err, s, w1)
    | (.ok _, w1) =>
      match fetchUsers s w1 with
      | (s2, w2) => (.ok (), s2, w2)

/-- The handler `handleDelete`. -/
def handleDelete (confirm : Bool) (s : State) (userId : JsVal) (w : World) :
    State × World :=
  if confirm then
    match handleDelete.attempt { s with loading := true } userId w with
    | (.ok _, s1, w1) => ({ s1 with loading := false }, w1)
    | (.error err, s1, w1) =>
      ({ s1 with error := some err.message, loading := false },
        alert ("Error: " ++ err.message) w1)
  else (s, w)

end Users

namespace Payments

/-- The constant `PAYMENTS_SHEET_NAME`. -/
def PAYMENTS_SHEET_NAME : String := "Payments"

/-- The constant `PAYMENTS_RANGE`. -/
def PAYMENTS_RANGE : String := "RANGEPAYMENTS"

/-- The component state of `Payments`. -/
structure State where
  payments : List Record
  purchaseOrders : List Record
  loading : Bool
  error : Option String
  isModalOpen : Bool
  newPayment : Record
  filterColumn : String
  searchTerm : String

/-- The function `fetchData`.  Both reads are started before either answer arrives, so
both requests are sent whatever the first answer is.  When both fail, `Promise.all` rejects
with the failure that comes first in time; a world gives its answers in the order of the
requests, so here the error kept is that of the first read. -/
def fetchData (s : State) (w : World) : State × World :=
  let s1 := { s with loading := true, error := none }
  match getRangeData PAYMENTS_RANGE w with
  | (first, w1) =>
    match getRangeData "RANGEPO" w1 with
    | (second, w2) =>
      match first, second with
      | .ok paymentsData, .ok poData =>
        ({ s1 with payments := paymentsData, purchaseOrders := poData, loading := false }, w2)
      | .error err, _ => ({ s1 with error := some err.message, loading := false }, w2)
      | .ok _, .error err => ({ s1 with error := some err.message, loading := false }, w2)

/-- The `try` block of `handleDeletePayment`. -/
def handleDeletePayment.attempt (refreshData : World → Except JsError Unit × World)
    (s : State) (trxId : JsVal) (w : World) : Except JsError Unit × State × World :=
  let rowIndex := findRowIndex s.payments trxId
  if rowIndex < 2 then (.error (.error "Could not find payment to delete."), s, w)
  else
    match deleteRow PAYMENTS_SHEET_NAME rowIndex w with
    | (.error err, w1) => (.error err, s, w1)
    | (.ok _, w1) =>
      match fetchData s w1 with
      | (s2, w2) =>
        match refreshData w2 with
        | (.error err, w3) => (.error err, s2, w3)
        | (.ok _, w3) =>
          (.ok (), s2, alert
            "Payment deleted successfully. The related balances will be recalculated." w3)

/-- The handler `handleDeletePayment`. -/
def handleDeletePayment (refreshData : World → Except JsError Unit × World)
    (confirm : Bool) (s : State) (trxId : JsVal) (w : World) : State × World :=
  if confirm then
    match handleDeletePayment.attempt refreshData { s with loading := true } trxId w with
    | (.ok _, s1, w1) => ({ s1 with loading := false }, w1)
    | (.error err, s1, w1) =>
      ({ s1 with error := some err.message, loading := false },
        alert ("Error: " ++ err.message) w1)
  else (s, w)

end Payments

namespace Receipts

/-- The constant `RECEIPTS_SHEET_NAME`. -/
def RECEIPTS_SHEET_NAME : String := "Receipts"

/-- The constant `RECEIPTS_RANGE`. -/
def RECEIPTS_RANGE : String := "RANGERECEIPTS"

/-- The component state of `Receipts`. -/
structure State where
  receipts : List Record
  salesOrders : List Record
  loading : Bool
  error : Option String
  isModalOpen : Bool
  newReceipt : Record
  filterColumn : String
  searchTerm : String

/-- The function `fetchData`, with the same joining of the two reads as in `Payments`. -/
def fetchData (s : State) (w : World) : State × World :=
  let s1 := { s with loading := true, error := none }
  match getRangeData RECEIPTS_RANGE w with
  | (first, w1) =>
    match getRangeData "RANGESO" w1 with
    | (second, w2) =>
      match first, second with
      | .ok receiptsData, .ok soData =>
        ({ s1 with receipts := receiptsData, salesOrders := soData, loading := false }, w2)
      | .error err, _ => ({ s1 with error := some err.message, loading := false }, w2)
      | .ok _, .error err => ({ s1 with error := some err.message, loading := false }, w2)

/-- The `try` block of `handleDeleteReceipt`. -/
def handleDeleteReceipt.attempt (refreshData : World → Except JsError Unit × World)
    (s : State) (trxId : JsVal) (w : World) : Except JsError Unit × State × World :=
  let rowIndex := findRowIndex s.receipts trxId
  if rowIndex < 2 then (.error (.error "Could not find receipt to delete."), s, w)
  else
    match deleteRow RECEIPTS_SHEET_NAME rowIndex w with
    | (.error err, w1) => (.error err, s, w1)
    | (.ok _, w1) =>
      match fetchData s w1 with
      | (s2, w2) =>
        match refreshData w2 with
        | (.error err, w3) => (.error err, s2, w3)
        | (.ok _, w3) =>
          (.ok (), s2, alert
            "Receipt deleted successfully. The related balances will be recalculated." w3)

/-- The handler `handleDeleteReceipt`. -/
def handleDeleteReceipt (refreshData : World → Except JsError Unit × World)
    (confirm : Bool) (s : State) (trxId : JsVal) (w : World) : State × World :=
  if confirm then
    match handleDeleteReceipt.attempt refreshData { s with loading := true } trxId w with
    | (.ok _, s1, w1) => ({ s1 with loading := false }, w1)
    | (.error err, s1, w1) =>
      ({ s1 with error := some err.message, loading := false },
        alert ("Error: " ++ err.message) w1)
  else (s, w)

end Receipts

/-! ## Specification vocabulary and example inputs

The predicates the properties are stated with, and the concrete ranges, sheets, worlds
and page states on which they are evaluated. -/

/-- A world about to answer one request with the given response. -/
def worldAnswering (response : Response) : World :=
  { spreadsheetId := "sheet-1"
    token := .str "token"
    pending := [.ok response]
    sent := []
    alerts := [] }

/-- The example range of the specification: two customers under a two-column header. -/
def exampleCustomers : List (List JsVal) :=
  [[.str "Customer ID", .str "Customer Name"],
   [.str "C1", .str "Acme"],
   [.str "C2", .str "Globex"]]

/-- A range whose header names both columns alike. -/
def duplicateHeaderRange : List (List JsVal) :=
  [[.str "Name", .str "Name"], [.str "Acme", .str "Globex"]]

/-- A range whose only data row is shorter than its header, which repeats a name. -/
def shortRowRange : List (List JsVal) :=
  [[.str "Email", .str "Email"], [.str "a@example.com"]]

/-- The successful answer of the backend for an empty range: a body without `values`. -/
def emptyRangeResponse : Response :=
  { ok := true
    json := .ok (.obj [("range", .str "Customers!A1:J1000"), ("majorDimension", .str "ROWS")]) }

/-- The records the example range of the specification decodes to. -/
def exampleRecords : List Record :=
  [[("Customer ID", .str "C1"), ("Customer Name", .str "Acme")],
   [("Customer ID", .str "C2"), ("Customer Name", .str "Globex")]]

/-- Position `i` holds the first record of `data` whose `field` is strictly equal to `id`:
the `indexOf(records, id)` of the specification. -/
def IsFirstWithId (field : String) (data : List Record) (id : JsVal) (i : Nat) : Prop :=
  (∃ r, data[i]? = some r ∧ (r.get field).strictEq id = true) ∧
    ∀ (j : Nat) r, j < i → data[j]? = some r → (r.get field).strictEq id = false

/-- Some record of `data` has `field` strictly equal to `id`. -/
def HasId (field : String) (data : List Record) (id : JsVal) : Prop :=
  ∃ r ∈ data, (r.get field).strictEq id = true

/-- A world about to answer a sheet deletion: the metadata of one sheet named
`Customers` with id `0`, then an empty success body. -/
def deleteWorld : World :=
  { spreadsheetId := "sheet-1"
    token := .str "token"
    pending := [
      .ok { ok := true, json := .ok (.obj [("sheets", .arr [.obj [("properties",
        .obj [("title", .str "Customers"), ("sheetId", .num 0)])]])]) },
      .ok { ok := true, json := .ok (.obj []) }]
    sent := []
    alerts := [] }

/-- The record a row of cells decodes to under the header cells `H`. -/
def rowRecord (H cells : List JsVal) : Record :=
  match decodeRow (.arr H) (.arr cells) with
  | .ok r => r
  | .error _ => []

/-- The value an array item has after `JSON.stringify` and parsing. -/
def JsVal.toJSONItem : JsVal → JsVal
  | .undefined => .null
  | v => v.toJSON

/-- The value is `null`, a boolean, a number or a string. -/
def JsVal.isJsonScalar : JsVal → Bool
  | .null => true
  | .bool _ => true
  | .num _ => true
  | .str _ => true
  | _ => false

/-- A sheet in which two rows carry the customer id `C1`. -/
def repeatedIdGrid : Grid :=
  [[.str "Customer ID"], [.str "C1"], [.str "C1"]]

/-- A sheet with the header `Name, Name` and no data row. -/
def duplicateHeaderGrid : Grid := [[.str "Name", .str "Name"]]

/-- A sheet with the header `Name` and no data row. -/
def nameGrid : Grid := [[.str "Name"]]

/-- A sheet with the header `__proto__, Name` and no data row. -/
def protoColumnGrid : Grid := [[.str "__proto__", .str "Name"]]

/-- A range with the header `__proto__, Name` and the data row `x, Acme`. -/
def protoColumnRange : List (List JsVal) :=
  [[.str "__proto__", .str "Name"], [.str "x", .str "Acme"]]

/-- A range with the header `Name, __proto__` and the one-cell data row `Acme`. -/
def protoShortRowRange : List (List JsVal) :=
  [[.str "Name", .str "__proto__"], [.str "Acme"]]

/-- A world about to answer one request with an empty success body. -/
def appendWorld : World := worldAnswering { ok := true, json := .ok (.obj []) }

/-- A state of the users page with one loaded user. -/
def exampleUsersState : Users.State :=
  { users := [[("UserID", .str "U1001"), ("Name", .str "Ada")]]
    loading := false
    error := none
    isModalOpen := false
    editingUser := none
    formData := [] }

/-- No shared data to refresh: the refresh of the data context as a no-op. -/
def noRefresh (w : World) : Except JsError Unit × World := (.ok (), w)

/-- A state of the customers page editing the loaded customer `C2` while the list is
filtered by a search term. -/
def exampleCustomersState : Customers.State :=
  { customers := exampleRecords
    loading := false
    error := none
    isModalOpen := true
    editingCustomer := some [("Customer ID", .str "C2"), ("Customer Name", .str "Globex")]
    formData := [("Customer ID", .str "C2"), ("Customer Name", .str "Globex Corp"),
      ("State", .str "Ohio"), ("City", .str "Dayton")]
    filterColumn := "Customer Name"
    searchTerm := "glob" }

/-! ## Identifier generators and joined reads

`Math.random()` is a sample in `[0, 1)`, taken as a rational number; a loop that draws
repeatedly reads the samples `random 0`, `random 1`, ... and is given a number of draws
after which it is cut off.  In `generateCustomerId` and `generateSupplierId` the product
and the sum are the operations `mul` and `add` of doubles, which round the exact result to
a double; the generators of transaction and user ids combine their one sample with exact
arithmetic. -/

namespace Customers

/-- The expression `"C" + Math.floor(10000 + Math.random() * 90000)` at the sample `r`. -/
def generateCustomerId.newId (mul add : ℚ → ℚ → ℚ) (r : ℚ) : String :=
  "C" ++ (JsVal.num ⌊add 10000 (mul r 90000)⌋).toJsString

/-- The `do ... while` loop of `generateCustomerId` from draw `k` on, cut off after
`fuel` draws: `none` when every one of them hit an id already in use. -/
def generateCustomerId.loop (customers : List Record) (mul add : ℚ → ℚ → ℚ)
    (random : Nat → ℚ) : Nat → Nat → Option String
  | 0, _ => none
  | fuel + 1, k =>
    let newId := generateCustomerId.newId mul add (random k)
    if customers.any (fun c => (c.get "Customer ID").strictEq (.str newId)) then
      generateCustomerId.loop customers mul add random fuel (k + 1)
    else some newId

/-- The function `generateCustomerId`: the state after `setFormData`, when the loop ends
within `fuel` draws. -/
def generateCustomerId (mul add : ℚ → ℚ → ℚ) (random : Nat → ℚ) (fuel : Nat) (s : State) :
    Option State :=
  match generateCustomerId.loop s.customers mul add random fuel 0 with
  | none => none
  | some newId => some { s with formData := s.formData.set "Customer ID" (.str newId) }

end Customers

namespace Suppliers

/-- The expression `"S" + Math.floor(10000 + Math.random() * 90000)` at the sample `r`. -/
def generateSupplierId.newId (mul add : ℚ → ℚ → ℚ) (r : ℚ) : String :=
  "S" ++ (JsVal.num ⌊add 10000 (mul r 90000)⌋).toJsString

/-- The `do ... while` loop of `generateSupplierId` from draw `k` on, cut off after
`fuel` draws. -/
def generateSupplierId.loop (suppliers : List Record) (mul add : ℚ → ℚ → ℚ)
    (random : Nat → ℚ) : Nat → Nat → Option String
  | 0, _ => none
  | fuel + 1, k =>
    let newId := generateSupplierId.newId mul add (random k)
    if suppliers.any (fun c => (c.get "Supplier ID").strictEq (.str newId)) then
      generateSupplierId.loop suppliers mul add random fuel (k + 1)
    else some newId

/-- The function `generateSupplierId`. -/
def generateSupplierId (mul add : ℚ → ℚ → ℚ) (random : Nat → ℚ) (fuel : Nat) (s : State) :
    Option State :=
  match generateSupplierId.loop s.suppliers mul add random fuel 0 with
  | none => none
  | some newId => some { s with formData := s.formData.set "Supplier ID" (.str newId) }

end Suppliers

namespace Payments

/-- The function `generateTrxId` of `Payments.jsx`. -/
def generateTrxId (random : ℚ) (s : State) : State :=
  let newId := "PT" ++ (JsVal.num ⌊56789 + random * 10000⌋).toJsString
  { s with newPayment := s.newPayment.set "Trx ID" (.str newId) }

end Payments

namespace Receipts

/-- The function `generateTrxId` of `Receipts.jsx`. -/
def generateTrxId (random : ℚ) (s : State) : State :=
  let newId := "RT" ++ (JsVal.num ⌊12345 + random * 90000⌋).toJsString
  { s with newReceipt := s.newReceipt.set "Trx ID" (.str newId) }

end Receipts

namespace Dashboard

/-- The component state of `Dashboard`; `data` is `null` until a load succeeds. -/
structure State (D : Type) where
  data : Option D
  loading : Bool
  error : Option String

/-- The function `fetchDashboardData`.  The four reads are started before any answer
arrives, so all four requests are sent.  When several reads fail, `Promise.all` rejects
with the failure that comes first in time; a world gives its answers in the order of the
requests, so here the error kept is that of the first failed read.
`processDashboardData` is passed in: it may throw, and its exception is caught like that
of a read. -/
def fetchDashboardData {D : Type}
    (processDashboardData : List Record → List Record → List Record → List Record →
      Except JsError D)
    (s : State D) (w : World) : State D × World :=
  match getRangeData "RANGESD" w with
  | (sales, w1) =>
    match getRangeData "RANGEPD" w1 with
    | (purchases, w2) =>
      match getRangeData "RANGECUSTOMERS" w2 with
      | (customers, w3) =>
        match getRangeData "RANGESUPPLIERS" w3 with
        | (suppliers, w4) =>
          match sales, purchases, customers, suppliers with
          | .ok salesData, .ok purchasesData, .ok customersData, .ok suppliersData =>
            match processDashboardData salesData purchasesData customersData suppliersData with
            | .ok processedData => ({ s with data := some processedData, loading := false }, w4)
            | .error err => ({ s with error := some err.message, loading := false }, w4)
          | .error err, _, _, _ => ({ s with error := some err.message, loading := false }, w4)
          | .ok _, .error err, _, _ =>
            ({ s with error := some err.message, loading := false }, w4)
          | .ok _, .ok _, .error err, _ =>
            ({ s with error := some err.message, loading := false }, w4)
          | .ok _, .ok _, .ok _, .error err =>
            ({ s with error := some err.message, loading := false }, w4)

end Dashboard

/-- The entry of one sheet in a metadata answer. -/
def sheetEntry (title : String) (sheetId : JsVal) : JsVal :=
  .obj [("properties", .obj [("sheetId", sheetId), ("title", .str title)])]

/-- The body of a metadata answer listing the given sheets by title and id. -/
def metadataBody (sheets : List (String × JsVal)) : JsVal :=
  .obj [("sheets", .arr (sheets.map (fun sheet => sheetEntry sheet.1 sheet.2)))]

/-- The expression `s.properties.title` on an entry of a metadata answer. -/
def sheetTitle (s : JsVal) : Except JsError JsVal :=
  match s.getField "properties" with
  | .error e => .error e
  | .ok properties => properties.getField "title"

/-- The expression `sheet.properties.sheetId` on an entry of a metadata answer. -/
def sheetIdOf (s : JsVal) : Except JsError JsVal :=
  match s.getField "properties" with
  | .error e => .error e
  | .ok properties => properties.getField "sheetId"

/-- A metadata answer as the backend sends it for `fields=sheets.properties`: every sheet
comes with its id, title, index, type and grid size. -/
def fullMetadataResponse : Response :=
  { ok := true
    json := .ok (.obj [("sheets", .arr [
      .obj [("properties", .obj [("sheetId", .num 0), ("title", .str "Customers"),
        ("index", .num 0), ("sheetType", .str "GRID"),
        ("gridProperties", .obj [("rowCount", .num 1000), ("columnCount", .num 26)])])],
      .obj [("properties", .obj [("sheetId", .num 1942), ("title", .str "Suppliers"),
        ("index", .num 1), ("sheetType", .str "GRID"),
        ("gridProperties", .obj [("rowCount", .num 1000), ("columnCount", .num 26)])])],
      .obj [("properties", .obj [("sheetId", .num 77), ("title", .str "Customers"),
        ("index", .num 2), ("sheetType", .str "GRID"),
        ("gridProperties", .obj [("rowCount", .num 50), ("columnCount", .num 10)])])]])]) }

/-- A non-success response with the body `{ error: { message: m } }`. -/
def errorResponse (m : String) : Response :=
  { ok := false, json := .ok (.obj [("error", .obj [("message", .str m)])]) }

/-- A successful metadata response listing the given sheets. -/
def metadataResponse (sheets : List (String × JsVal)) : Response :=
  { ok := true, json := .ok (metadataBody sheets) }

/-- A world about to answer with the given responses, in order. -/
def worldAnsweringAll (responses : List Response) : World :=
  { spreadsheetId := "sheet-1"
    token := .str "token"
    pending := responses.map Except.ok
    sent := []
    alerts := [] }

/-- The metadata request that `getSheetId` sends from the world `w`. -/
def metadataRequest (w : World) : Request :=
  { method := "GET"
    url := "https://sheets.googleapis.com/v4/spreadsheets/" ++ w.spreadsheetId
      ++ "?fields=sheets.properties"
    authorization := "Bearer " ++ (getAccessToken w).toJsString
    contentType := none
    body := .undefined }

/-- A metadata listing in which the first sheet, `Customers`, has the id `0`. -/
def exampleSheets : List (String × JsVal) :=
  [("Customers", .num 0), ("customers", .num 5), ("Users", .num 7)]

/-- The identifier is the given letters followed by exactly `count` decimal digits. -/
def IsLettersThenDigits (letters : String) (count : Nat) (id : String) : Prop :=
  ∃ digits : List Char, digits.length = count ∧ (∀ c ∈ digits, c.isDigit = true) ∧
    id = letters ++ String.mk digits

/-- A rational number that a double holds: `m * 2 ^ e` with `|m| < 2 ^ 53` and
`-1074 ≤ e ≤ 971`. -/
def IsDouble (d : ℚ) : Prop :=
  ∃ (m e : ℤ), |m| < 2 ^ 53 ∧ -1074 ≤ e ∧ e ≤ 971 ∧ d = (m : ℚ) * (2 : ℚ) ^ e

/-- The double `d` is as near to the exact result `x` as any double is: what an arithmetic
operation on doubles returns when the exact result is `x`. -/
def IsNearestDouble (x d : ℚ) : Prop :=
  IsDouble d ∧ ∀ d2, IsDouble d2 → |d - x| ≤ |d2 - x|

/-- Every sample is a double in `[0, 1)`, and at every sample the product `r * 90000` and
the sum `10000 + r * 90000` of the id generators are rounded to a nearest double. -/
def RoundedDraws (mul add : ℚ → ℚ → ℚ) (random : Nat → ℚ) : Prop :=
  ∀ k, IsDouble (random k) ∧ 0 ≤ random k ∧ random k < 1 ∧
    IsNearestDouble (random k * 90000) (mul (random k) 90000) ∧
    IsNearestDouble (10000 + mul (random k) 90000) (add 10000 (mul (random k) 90000))

/-- The product of two doubles whose exact product is a double. -/
def exactMul (x y : ℚ) : ℚ := x * y

/-- The sum of two doubles whose exact sum is a double. -/
def exactAdd (x y : ℚ) : ℚ := x + y

/-- The sample stream that always draws `0`. -/
def zeroSamples (_ : Nat) : ℚ := 0

/-- A state of the customers page with the example customers loaded and an empty form. -/
def loadedCustomersState : Customers.State :=
  { customers := exampleRecords
    loading := false
    error := none
    isModalOpen := true
    editingCustomer := none
    formData := []
    filterColumn := "All"
    searchTerm := "" }

/-- A state of the receipts page with nothing loaded. -/
def emptyReceiptsState : Receipts.State :=
  { receipts := []
    salesOrders := []
    loading := false
    error := none
    isModalOpen := true
    newReceipt := []
    filterColumn := "All"
    searchTerm := "" }

/-- A state of the receipts page with the receipt `RT12345` loaded. -/
def loadedReceiptsState : Receipts.State :=
  { emptyReceiptsState with receipts := [[("Trx ID", .str "RT12345")]] }

/-- A state of the payments page with the payment `PT56789` loaded. -/
def loadedPaymentsState : Payments.State :=
  { payments := [[("Trx ID", .str "PT56789")]]
    purchaseOrders := []
    loading := false
    error := none
    isModalOpen := true
    newPayment := []
    filterColumn := "All"
    searchTerm := "" }

/-- A state of the users page with the user `U1000` loaded and the form of a new user
filled in. -/
def addUserState : Users.State :=
  { users := [[("UserID", .str "U1000"), ("Name", .str "Ada")]]
    loading := false
    error := none
    isModalOpen := true
    editingUser := none
    formData := [("Name", .str "Grace"), ("Email", .str "grace@example.com"),
      ("Role", .str "Staff"), ("Status", .str "Active")] }

/-- The outcomes of the two reads that `fetchData` of `Payments` joins, in order. -/
def Payments.joinedReads (w : World) : List (Except JsError (List Record)) :=
  [(getRangeData Payments.PAYMENTS_RANGE w).1,
   (getRangeData "RANGEPO" (getRangeData Payments.PAYMENTS_RANGE w).2).1]

/-- The outcomes of the four reads that `fetchDashboardData` joins, in order. -/
def Dashboard.joinedReads (w : World) : List (Except JsError (List Record)) :=
  [(getRangeData "RANGESD" w).1,
   (getRangeData "RANGEPD" (getRangeData "RANGESD" w).2).1,
   (getRangeData "RANGECUSTOMERS" (getRangeData "RANGEPD" (getRangeData "RANGESD" w).2).2).1,
   (getRangeData "RANGESUPPLIERS" (getRangeData "RANGECUSTOMERS"
      (getRangeData "RANGEPD" (getRangeData "RANGESD" w).2).2).2).1]

/-- A world in which the first read succeeds with one payment and the second read is
refused with the message `Quota exceeded`. -/
def secondReadFails : World :=
  worldAnsweringAll [Grid.response [[.str "Trx ID"], [.str "PT60001"]],
    errorResponse "Quota exceeded"]

/-- A successful response whose `values` is the given value. -/
def rawValuesResponse (values : JsVal) : Response :=
  { ok := true, json := .ok (.obj [("values", values)]) }

/-- The number of columns from the column lettered `first` to the column lettered `last`. -/
def columnSpan (first last : Char) : Nat := last.toNat - first.toNat + 1

/-- A state of the users page editing the loaded user `U1001`. -/
def editUserState : Users.State :=
  { users := [[("UserID", .str "U1001"), ("Name", .str "Ada"), ("Date Added", .str "2024-05-01")]]
    loading := false
    error := none
    isModalOpen := true
    editingUser := some [("UserID", .str "U1001"), ("Name", .str "Ada"),
      ("Date Added", .str "2024-05-01")]
    formData := [("UserID", .str "U1001"), ("Name", .str "Ada L."),
      ("Email", .str "ada@example.com"), ("Role", .str "Admin"), ("Status", .str "Active")] }

/-! ## Company settings -/

/-- The property read `v.length`. -/
def JsVal.lengthOf (v : JsVal) : Except JsError JsVal :=
  match v with
  | .undefined => .error (.typeError "Cannot read properties of undefined (reading length)")
  | .null => .error (.typeError "Cannot read properties of null (reading length)")
  | .arr items => .ok (.num items.length)
  | .str s => .ok (.num s.length)
  | .obj fields => .ok (JsVal.lookupField fields "length")
  | _ => .ok .undefined

/-- The items an array destructuring pattern draws from `v`: the elements of an array or
the characters of a string; anything else is not iterable. -/
def JsVal.iterate (v : JsVal) : Except JsError (List JsVal) :=
  match v with
  | .arr items => .ok items
  | .str s => .ok (s.toList.map (fun c => .str (String.singleton c)))
  | _ => .error (.typeError (v.toJsString ++ " is not iterable"))

/-- Lines 176 to 183 of `getCompanySettings`: the defaults when there are no values,
otherwise the first four cells of the first row. -/
def getCompanySettings.decode (data : JsVal) : Except JsError Record :=
  match data.getField "values" with
  | .error e => .error e
  | .ok values =>
    let defaults : Record := [("companyName", .str ""), ("companyAddress", .str ""),
      ("companyContact", .str ""), ("companyLogoUrl", .str "")]
    if !values.truthy then .ok defaults
    else
      match values.lengthOf with
      | .error e => .error e
      | .ok length =>
        if length.strictEq (.num 0) then .ok defaults
        else
          match values.index 0 with
          | .error e => .error e
          | .ok row =>
            match row.iterate with
            | .error e => .error e
            | .ok cells =>
              .ok [("companyName", cells.getD 0 .undefined),
                ("companyAddress", cells.getD 1 .undefined),
                ("companyContact", cells.getD 2 .undefined),
                ("companyLogoUrl", cells.getD 3 .undefined)]

/-- The operation `getCompanySettings()`. -/
def getCompanySettings (w : World) : Except JsError Record × World :=
  let token := getAccessToken w
  let req : Request :=
    { method := "GET"
      url := "https://sheets.googleapis.com/v4/spreadsheets/" ++ w.spreadsheetId
        ++ "/values/RANGECOMPANYSETTINGS"
      authorization := "Bearer " ++ token.toJsString
      contentType := none
      body := .undefined }
  match fetch req w with
  | (.error e, w1) => (.error e, w1)
  | (.ok response, w1) =>
    if !response.ok then (.error (apiError response), w1)
    else
      match response.json with
      | .error e => (.error e, w1)
      | .ok data => (getCompanySettings.decode data, w1)

/-- A stand-in for `parseFloat` in the examples: exact on a string of decimal digits, and
`NaN` on every other string. -/
def digitsParse (s : String) : JsNumber :=
  match s.toList with
  | [] => .nan
  | c :: rest =>
    match digitsParse.value (c :: rest) 0 with
    | some n => .finite n
    | none => .nan
where
  /-- The number written by the digits, `none` when some character is not a digit. -/
  value : List Char → Nat → Option Nat
    | [], acc => some acc
    | c :: rest, acc =>
      if c.isDigit then value rest (acc * 10 + (c.toNat - 48)) else none

/-- A state of the customers page in which two loaded customers carry the id `C1`; the
first has no balance and the second an outstanding balance of 50. -/
def repeatedIdCustomersState : Customers.State :=
  { customers := [[("Customer ID", .str "C1"), ("Balance Receivable", .str "0")],
      [("Customer ID", .str "C1"), ("Balance Receivable", .str "50")]]
    loading := false
    error := none
    isModalOpen := false
    editingCustomer := none
    formData := []
    filterColumn := "All"
    searchTerm := "" }

/-- A state of the customers page whose only customer has an outstanding balance of 50. -/
def owingCustomerState : Customers.State :=
  { repeatedIdCustomersState with
    customers := [[("Customer ID", .str "C7"), ("Balance Receivable", .str "50")]] }

/-- A state of the suppliers page with the supplier `S1` loaded. -/
def loadedSuppliersState : Suppliers.State :=
  { suppliers := [[("Supplier ID", .str "S1"), ("Balance Payable", .str "0")]]
    loading := false
    error := none
    isModalOpen := false
    editingSupplier := none
    formData := []
    filterColumn := "All"
    searchTerm := "" }

/-! ## Saving a payment, repeated headers and the retry loop: definitions -/

namespace Payments

/-- The function `handleCloseModal` of `Payments.jsx`. -/
def handleCloseModal (s : State) : State := { s with isModalOpen := false }

/-- The array `rowData` built by `handleSave`. -/
def handleSave.rowData (numberValue : JsNumber → JsVal) (s : State) (trxDate : JsVal)
    (amount : JsNumber) : List JsVal :=
  [trxDate,
    s.newPayment.get "Trx ID", s.newPayment.get "Supplier ID",
    s.newPayment.get "Supplier Name",
    s.newPayment.get "State", s.newPayment.get "City", s.newPayment.get "PO ID",
    s.newPayment.get "Bill Num",
    s.newPayment.get "PMT Mode", numberValue amount]

/-- The `try` block of `handleSave`.  `formatDateForSheet` belongs to `utils/helpers` and is
passed in; `numberValue` gives the value that stands for the number `amount` in the row. -/
def handleSave.attempt (formatDateForSheet : JsVal → Except JsError JsVal)
    (numberValue : JsNumber → JsVal)
    (refreshData : World → Except JsError Unit × World)
    (amount : JsNumber) (s : State) (w : World) : Except JsError Unit × State × World :=
  match formatDateForSheet (s.newPayment.get "Trx Date") with
  | .error err => (.error err, s, w)
  | .ok trxDate =>
    match appendRow PAYMENTS_RANGE (handleSave.rowData numberValue s trxDate amount) w with
    | (.error err, w1) => (.error err, s, w1)
    | (.ok _, w1) =>
      match fetchData s (alert
        "Payment saved successfully! All related balances will now be recalculated." w1) with
      | (s2, w2) =>
        match refreshData w2 with
        | (.error err, w3) => (.error err, s2, w3)
        | (.ok _, w3) => (.ok (), handleCloseModal s2, w3)

/-- The handler `handleSave` of `Payments.jsx`. -/
def handleSave (formatDateForSheet : JsVal → Except JsError JsVal)
    (parseFloat : String → JsNumber) (numberValue : JsNumber → JsVal)
    (refreshData : World → Except JsError Unit × World)
    (s : State) (w : World) : State × World :=
  let amount := parseFloat (s.newPayment.get "Amount Paid").toJsString
  let balance := parseFloat (s.newPayment.get "PO Balance").toJsString
  if !(s.newPayment.get "Trx ID").truthy || !(s.newPayment.get "PO ID").truthy
      || !(amount.gt (.finite 0)) then
    (s, alert "Trx ID, PO, and a valid Amount are required." w)
  else if amount.gt balance then
    (s, alert "Amount paid cannot be greater than the PO Balance." w)
  else
    match handleSave.attempt formatDateForSheet numberValue refreshData amount
        { s with loading := true } w with
    | (.ok _, s1, w1) => ({ s1 with loading := false }, w1)
    | (.error err, s1, w1) =>
      ({ s1 with error := some err.message, loading := false },
        alert ("Error: " ++ err.message) w1)

end Payments

/-- The value standing for a whole number in a row.  The values of this development hold
no other finite number; `NaN` and the infinities are written `null` by `JSON.stringify`. -/
def wholeNumberValue : JsNumber → JsVal
  | .finite q => if q.den = 1 then .num q.num else .null
  | _ => .null

/-- A state of the payments page whose form holds a payment of 40 against a balance
of 100. -/
def newPaymentState : Payments.State :=
  { payments := []
    purchaseOrders := []
    loading := false
    error := none
    isModalOpen := true
    newPayment := [("Trx Date", .str "2024-01-05"), ("Amount Paid", .str "40"),
      ("Trx ID", .str "PT60001"), ("Supplier ID", .str "S1"), ("Supplier Name", .str "Acme"),
      ("State", .str "Goa"), ("City", .str "Panaji"), ("PO ID", .str "PO7"),
      ("Bill Num", .str "B9"), ("PO Balance", .str "100"), ("PMT Mode", .str "Cash")]
    filterColumn := "All"
    searchTerm := "" }

/-- The state `newPaymentState` with an amount of 400, more than the balance. -/
def overpaidState : Payments.State :=
  { newPaymentState with newPayment := newPaymentState.newPayment.set "Amount Paid" (.str "400") }

/-- A date that is already formatted. -/
def keepDate (v : JsVal) : Except JsError JsVal := .ok v

/-- The own property names of a record, `Object.keys(record)` up to order. -/
def Record.keys (r : Record) : List String := r.map Prod.fst

/-- The value is `null`, an array or an object: the values that the setter of `__proto__`
takes as a prototype. -/
def JsVal.isObjectOrNull : JsVal → Bool
  | .null => true
  | .arr _ => true
  | .obj _ => true
  | _ => false

/-- A range whose first column is named `__proto__` and whose other two columns are both
named `Name`. -/
def protoHeaderRange : List (List JsVal) :=
  [[.str "__proto__", .str "Name", .str "Name"],
   [.str "x", .str "Acme", .str "Globex"]]

/-- A range whose header repeats the name `Name` and whose data row has one cell more
than the header. -/
def repeatedNameRange : List (List JsVal) :=
  [[.str "ID", .str "Name", .str "Name"],
   [.str "C1", .str "Acme", .str "Globex", .str "extra"]]

/-- A list of customers in which every id from `C10000` to `C99999` is taken. -/
def allIdsCustomers : List Record :=
  (List.range 90000).map (fun (n : Nat) =>
    [("Customer ID", .str ("C" ++ (JsVal.num ((n : Int) + 10000)).toJsString))])

/-- The sample stream whose first two draws are `0` and whose later draws are `1/2`. -/
def laterHalfSamples (k : Nat) : ℚ := if k < 2 then 0 else 1 / 2

/-- A list of customers in which the id `C10000` is taken. -/
def firstIdCustomers : List Record := [[("Customer ID", .str "C10000")]]

/-! ## Filtered lists: definitions -/

/-- The text of one element in `Array.prototype.join`: `null` and `undefined` are empty. -/
def JsVal.joinText : JsVal → String
  | .undefined => ""
  | .null => ""
  | v => v.toJsString

/-- The call `items.join(separator)`. -/
def JsVal.join (separator : String) (items : List JsVal) : String :=
  separator.intercalate (items.map JsVal.joinText)

/-- The array index a property name denotes, if any: the canonical decimal text of a
number below `2^32 - 1`. -/
def arrayIndex (key : String) : Option Nat :=
  match key.toList with
  | [] => none
  | c :: rest =>
    if (c :: rest).all Char.isDigit && (c != '0' || rest.isEmpty) then
      let n := (c :: rest).foldl (fun acc d => acc * 10 + (d.toNat - 48)) 0
      if n < 4294967295 then some n else none
    else none

/-- The own properties of an object in the order of `Object.entries`: those named by an
array index first, in ascending index order, then the others in insertion order. -/
def ownEntries {α : Type} (fields : List (String × α)) : List (String × α) :=
  let indexed := fields.filterMap (fun p => (arrayIndex p.1).map (fun n => (n, p)))
  let named := fields.filter (fun p => (arrayIndex p.1).isNone)
  (indexed.insertionSort (fun a b => a.1 ≤ b.1)).map Prod.snd ++ named

/-- The call `Object.values(record)`. -/
def Record.values (r : Record) : List JsVal := (ownEntries r).map Prod.snd

/-- The call `text.includes(term)`: `term` occurs in `text` as a contiguous part. -/
def String.includes (text term : String) : Bool := decide (term.toList <:+: text.toList)

/-- The body shared by the `filtered...` memos of the four pages with a search box.
`toLowerCase` is the string method of that name. -/
def filteredRecords (toLowerCase : String → String) (records : List Record)
    (searchTerm filterColumn : String) : List Record :=
  if searchTerm = "" then records
  else records.filter (fun record =>
    let valueToSearch :=
      if filterColumn = "All" then toLowerCase (JsVal.join " " record.values)
      else toLowerCase ((record.get filterColumn).or (.str "")).toJsString
    valueToSearch.includes (toLowerCase searchTerm))

/-- The memo `filteredCustomers` of `Customers.jsx`. -/
def Customers.filteredCustomers (toLowerCase : String → String) (s : Customers.State) :
    List Record :=
  filteredRecords toLowerCase s.customers s.searchTerm s.filterColumn

/-- The memo `filteredSuppliers` of `Suppliers.jsx`. -/
def Suppliers.filteredSuppliers (toLowerCase : String → String) (s : Suppliers.State) :
    List Record :=
  filteredRecords toLowerCase s.suppliers s.searchTerm s.filterColumn

/-- The memo `filteredPayments` of `Payments.jsx`. -/
def Payments.filteredPayments (toLowerCase : String → String) (s : Payments.State) :
    List Record :=
  filteredRecords toLowerCase s.payments s.searchTerm s.filterColumn

/-- The memo `filteredReceipts` of `Receipts.jsx`. -/
def Receipts.filteredReceipts (toLowerCase : String → String) (s : Receipts.State) :
    List Record :=
  filteredRecords toLowerCase s.receipts s.searchTerm s.filterColumn

/-- The method `toLowerCase` on text whose letters are all ASCII. -/
def asciiLowerCase (s : String) : String := String.mk (s.toList.map Char.toLower)

/-- Three customers, one of them with a column named by a number. -/
def searchableCustomers : List Record :=
  [[("Customer ID", .str "C1"), ("Customer Name", .str "Acme Corp"), ("City", .str "Pune")],
   [("Customer ID", .str "C2"), ("Customer Name", .str "Globex"), ("City", .str "Goa"),
    ("2024", .str "me")],
   [("Customer ID", .str "C3"), ("Customer Name", .str "Acumen"), ("City", .undefined)]]

/-! ## Dashboard figures

`processDashboardData` of `Dashboard.jsx` works on numbers.  They are the numbers of
`JsNumber`: finite numbers add exactly, so rounding and overflow are outside the model,
while `NaN` and the infinities behave as in JavaScript.  The objects it groups into are
created as `{}`, so a read of a name that `Object.prototype` has finds the inherited
function, to which `+` appends the text of the number, and an assignment under `__proto__`
writes nothing.  The conversion `Number(v)`, the text of a number, the text of an inherited
value and the year of `new Date(v)` are passed in, as is `formatCurrency`, which is built
on `Intl.NumberFormat`.  The `salesTrend` chart and the constant chart options are left
out. -/

deriving instance DecidableEq for JsNumber

/-- The sum `a + b`. -/
def JsNumber.add : JsNumber → JsNumber → JsNumber
  | .nan, _ => .nan
  | _, .nan => .nan
  | .posInfinity, .negInfinity => .nan
  | .negInfinity, .posInfinity => .nan
  | .posInfinity, _ => .posInfinity
  | _, .posInfinity => .posInfinity
  | .negInfinity, _ => .negInfinity
  | _, .negInfinity => .negInfinity
  | .finite a, .finite b => .finite (a + b)

/-- The negation `-a`. -/
def JsNumber.neg : JsNumber → JsNumber
  | .nan => .nan
  | .posInfinity => .negInfinity
  | .negInfinity => .posInfinity
  | .finite a => .finite (-a)

/-- The difference `a - b`. -/
def JsNumber.sub (a b : JsNumber) : JsNumber := a.add b.neg

/-- The conversion of a number to boolean: `0` and `NaN` are falsy. -/
def JsNumber.truthy : JsNumber → Bool
  | .nan => false
  | .finite q => decide (q ≠ 0)
  | _ => true

/-- The number is neither `NaN` nor infinite. -/
def JsNumber.isFinite : JsNumber → Bool
  | .finite _ => true
  | _ => false

/-- The rational value of a finite number, 0 for the others. -/
def JsNumber.toRat : JsNumber → ℚ
  | .finite q => q
  | _ => 0

/-- The comparison `a >= b` on numbers. -/
def JsNumber.ge : JsNumber → JsNumber → Bool
  | .nan, _ => false
  | _, .nan => false
  | .posInfinity, _ => true
  | _, .negInfinity => true
  | .negInfinity, _ => false
  | _, .posInfinity => false
  | .finite a, .finite b => decide (b ≤ a)

/-- The call `keys.sort()` on an array of strings made of ASCII characters. -/
def sortStrings (keys : List String) : List String :=
  keys.insertionSort (fun a b => a ≤ b)

/-- The array `[...new Set(values)]`: the first occurrence of every value, values being
the same when they are strictly equal. -/
def setValues (values : List JsVal) : List JsVal :=
  values.foldl (fun seen v => if seen.any (fun u => u.strictEq v) then seen else seen ++ [v])
    []

namespace Dashboard

/-- A value held by the objects and the charts of `processDashboardData`: a number, a
text, or the value that `Object.prototype` has under a name, which is a function or, under
`__proto__`, the prototype itself. -/
inductive Value where
  | number (n : JsNumber)
  | text (s : String)
  | inherited (name : String)
deriving DecidableEq

/-- An object created as `{}` whose own properties are numbers or texts, such as
`custMap`. -/
abbrev ValueMap := List (String × Value)

/-- The names of the properties of `Object.prototype`, which every object created as `{}`
inherits. -/
def objectPrototypeNames : List String :=
  ["constructor", "__defineGetter__", "__defineSetter__", "hasOwnProperty",
    "__lookupGetter__", "__lookupSetter__", "isPrototypeOf", "propertyIsEnumerable",
    "toString", "valueOf", "__proto__", "toLocaleString"]

/-- The own property `key` of an object, `none` when the object has no such own
property. -/
def ownProperty {α : Type} : List (String × α) → String → Option α
  | [], _ => none
  | (k, v) :: rest, key => if k = key then some v else ownProperty rest key

/-- The write of the own property `key` of an object: the value of an existing property is
replaced in place, a new property comes last. -/
def setOwn {α : Type} : List (String × α) → String → α → List (String × α)
  | [], key, value => [(key, value)]
  | (k, v) :: rest, key, value =>
    if k = key then (k, value) :: rest else (k, v) :: setOwn rest key value

/-- The read `object[key]` on an object created as `{}`: the own property, else the value
inherited from `Object.prototype`, else `none` for `undefined`. -/
def property (object : ValueMap) (key : String) : Option Value :=
  match ownProperty object key with
  | some v => some v
  | none => if key ∈ objectPrototypeNames then some (.inherited key) else none

/-- The assignment `object[key] = value` of a number or a text to an object created as
`{}`.  Under the name `__proto__` it calls the setter of `Object.prototype`, which ignores a
value that is neither an object nor `null`, so that no property is written; under any other
name it writes the own property. -/
def assign (object : ValueMap) (key : String) (value : Value) : ValueMap :=
  if key = "__proto__" then object else setOwn object key value

/-- The conversion of a value to boolean. -/
def Value.truthy : Value → Bool
  | .number n => n.truthy
  | .text s => s != ""
  | .inherited _ => true

/-- The expression `object[key] || 0`. -/
def orZero : Option Value → Value
  | some v => if v.truthy then v else .number (.finite 0)
  | none => .number (.finite 0)

/-- The expression `left + n` for a number `n`: the sum when `left` is a number, and the
concatenation of the two texts when `left` is a text, a function or an object.
`numberText` is the text of a number and `inheritedText` the text of the value that
`Object.prototype` has under a name. -/
def Value.plus (numberText : JsNumber → String) (inheritedText : String → String) :
    Value → JsNumber → Value
  | .number a, n => .number (a.add n)
  | .text s, n => .text (s ++ numberText n)
  | .inherited name, n => .text (inheritedText name ++ numberText n)

/-- The conversion of a value to a number, as the operator `-` applies it. -/
def Value.toNumber (Number : JsVal → JsNumber) (inheritedText : String → String) :
    Value → JsNumber
  | .number n => n
  | .text s => Number (.str s)
  | .inherited name => Number (.str (inheritedText name))

/-- The call `entries.sort((a, b) => b[1] - a[1])` as a stable sort: `a` stays before `b`
unless the comparator is positive, a comparator value of `NaN` counting as 0. -/
def sortDescending (Number : JsVal → JsNumber) (inheritedText : String → String)
    (entries : List (String × Value)) : List (String × Value) :=
  entries.insertionSort (fun a b =>
    ((b.2.toNumber Number inheritedText).sub (a.2.toNumber Number inheritedText)).gt
      (.finite 0) = false)

/-- One series of the stacked chart. -/
structure Series where
  name : JsVal
  data : List Value

/-- One point of the treemap. -/
structure Point where
  x : String
  y : Value

/-- The entry `kpis` of the result. -/
structure Kpis where
  totalSales : String
  totalPurchases : String
  netProfit : String
  netProfitRaw : JsNumber
  totalReceivable : String
  totalPayable : String
  topLocation : String
  topItem : String

/-- The entry `charts` of the result: for each chart its series and its categories or
labels. -/
structure Charts where
  topCustomersData : List Value
  topCustomersCategories : List String
  purchaseByLocationSeries : List Value
  purchaseByLocationLabels : List String
  purchaseByCategorySeries : List Series
  purchaseByCategoryCategories : List String
  salesByCategorySeries : List Value
  salesByCategoryLabels : List String
  salesByCityData : List Point

/-- The result of `processDashboardData`. -/
structure DashboardData where
  kpis : Kpis
  charts : Charts

/-- The constants `totalSales`, `totalPurchases`, `totalReceivable` and `totalPayable`:
`rows.reduce((sum, r) => sum + Number(r[field] || 0), 0)`. -/
def processDashboardData.total (Number : JsVal → JsNumber) (field : String)
    (rows : List Record) : JsNumber :=
  rows.foldl (fun sum r => sum.add (Number ((r.get field).or (.num 0)))) (.finite 0)

/-- The callback of the reductions into `salesByCity`, `salesByItemCategory`, `custMap`,
`purLocMap` and `salesCatMap`: `acc[k] = (acc[k] || 0) + Number(r[valueField] || 0)` for
`k = r[keyField] || 'Unknown'`. -/
def processDashboardData.groupedStep (Number : JsVal → JsNumber)
    (numberText : JsNumber → String) (inheritedText : String → String)
    (keyField valueField : String) (acc : ValueMap) (r : Record) : ValueMap :=
  let k := ((r.get keyField).or (.str "Unknown")).toJsString
  assign acc k ((orZero (property acc k)).plus numberText inheritedText
    (Number ((r.get valueField).or (.num 0))))

/-- The constants `salesByCity`, `salesByItemCategory`, `custMap`, `purLocMap` and
`salesCatMap`: the reduction of the rows from the object `{}`. -/
def processDashboardData.grouped (Number : JsVal → JsNumber)
    (numberText : JsNumber → String) (inheritedText : String → String)
    (keyField valueField : String) (rows : List Record) : ValueMap :=
  rows.foldl (processDashboardData.groupedStep Number numberText inheritedText keyField
    valueField) []

/-- The constant `topLocation`, and `topItem`: `entries.sort(...)[0]?.[0] || 'N/A'`. -/
def processDashboardData.top (Number : JsVal → JsNumber) (inheritedText : String → String)
    (grouped : ValueMap) : String :=
  match (sortDescending Number inheritedText (ownEntries grouped)).head? with
  | some (k, _) => if k = "" then "N/A" else k
  | none => "N/A"

/-- The constant `topCustArr`. -/
def processDashboardData.topCustArr (Number : JsVal → JsNumber)
    (inheritedText : String → String) (custMap : ValueMap) : List (String × Value) :=
  (sortDescending Number inheritedText (ownEntries custMap)).take 10

/-- The constant `purCatByYear`; `yearOf` gives `new Date(v).getFullYear()`, or `none` for
an invalid date.  The names of `purCatByYear` are the texts of whole numbers, none of which
is a name of `Object.prototype`, so that a read of `acc[year]` finds an own property or
nothing; the objects stored under them are created as `{}` and take the categories as
names. -/
def processDashboardData.purCatByYear (Number : JsVal → JsNumber)
    (numberText : JsNumber → String) (inheritedText : String → String)
    (yearOf : JsVal → Option Int) (purchases : List Record) : List (String × ValueMap) :=
  purchases.foldl (fun acc r =>
    match yearOf (r.get "Date") with
    | none => acc
    | some year =>
      let key := (JsVal.num year).toJsString
      let category := ((r.get "Item Category").or (.str "Unknown")).toJsString
      let value := Number ((r.get "Total Purchase Price").or (.num 0))
      let acc1 := match ownProperty acc key with
        | none => setOwn acc key []
        | some _ => acc
      match ownProperty acc1 key with
      | none => acc1
      | some inner =>
        setOwn acc1 key
          (assign inner category
            ((orZero (property inner category)).plus numberText inheritedText value)))
    []

/-- The constant `allYears`. -/
def processDashboardData.allYears (purCatByYear : List (String × ValueMap)) : List String :=
  sortStrings ((ownEntries purCatByYear).map Prod.fst)

/-- The constant `allCategories`. -/
def processDashboardData.allCategories (purchases : List Record) : List JsVal :=
  setValues (purchases.map (fun p => (p.get "Item Category").or (.str "Unknown")))

/-- The array `allYears.map(year => purCatByYear[year][cat] || 0)`; reading a category of
a year that is no property of `purCatByYear` throws. -/
def processDashboardData.seriesData (purCatByYear : List (String × ValueMap))
    (cat : JsVal) : List String → Except JsError (List Value)
  | [] => .ok []
  | year :: rest =>
    match ownProperty purCatByYear year with
    | none =>
      .error (.typeError ("Cannot read properties of undefined (reading "
        ++ cat.toJsString ++ ")"))
    | some inner =>
      match processDashboardData.seriesData purCatByYear cat rest with
      | .error e => .error e
      | .ok more => .ok (orZero (property inner cat.toJsString) :: more)

/-- The constant `purchaseByCategorySeries`. -/
def processDashboardData.purchaseByCategorySeries (purCatByYear : List (String × ValueMap))
    (allYears : List String) : List JsVal → Except JsError (List Series)
  | [] => .ok []
  | cat :: rest =>
    match processDashboardData.seriesData purCatByYear cat allYears with
    | .error e => .error e
    | .ok data =>
      match processDashboardData.purchaseByCategorySeries purCatByYear allYears rest with
      | .error e => .error e
      | .ok more => .ok ({ name := cat, data := data } :: more)

/-- The constant `salesByCityData`. -/
def processDashboardData.salesByCityData (salesByCity : ValueMap) : List Point :=
  (ownEntries salesByCity).map (fun entry => { x := entry.1, y := entry.2 })

/-- The function `processDashboardData`. -/
def processDashboardData (Number : JsVal → JsNumber) (numberText : JsNumber → String)
    (inheritedText : String → String) (yearOf : JsVal → Option Int)
    (formatCurrency : JsNumber → String)
    (sales purchases customers suppliers : List Record) : Except JsError DashboardData :=
  let totalSales := processDashboardData.total Number "Total Sales Price" sales
  let totalPurchases := processDashboardData.total Number "Total Purchase Price" purchases
  let totalReceivable := processDashboardData.total Number "Balance Receivable" customers
  let totalPayable := processDashboardData.total Number "Balance Payable" suppliers
  let netProfit := totalSales.sub totalPurchases
  let salesByCity := processDashboardData.grouped Number numberText inheritedText "City"
    "Total Sales Price" sales
  let topLocation := processDashboardData.top Number inheritedText salesByCity
  let salesByItemCategory := processDashboardData.grouped Number numberText inheritedText
    "Item Category" "Total Sales Price" sales
  let topItem := processDashboardData.top Number inheritedText salesByItemCategory
  let custMap := processDashboardData.grouped Number numberText inheritedText "Customer Name"
    "Total Sales Price" sales
  let topCustArr := processDashboardData.topCustArr Number inheritedText custMap
  let purLocMap := processDashboardData.grouped Number numberText inheritedText "State"
    "Total Purchase Price" purchases
  let purCatByYear :=
    processDashboardData.purCatByYear Number numberText inheritedText yearOf purchases
  let allYears := processDashboardData.allYears purCatByYear
  let allCategories := processDashboardData.allCategories purchases
  match processDashboardData.purchaseByCategorySeries purCatByYear allYears allCategories with
  | .error e => .error e
  | .ok purchaseByCategorySeries =>
    let salesCatMap := processDashboardData.grouped Number numberText inheritedText
      "Item Category" "Total Sales Price" sales
    let salesByCityData := processDashboardData.salesByCityData salesByCity
    .ok
      { kpis :=
          { totalSales := formatCurrency totalSales
            totalPurchases := formatCurrency totalPurchases
            netProfit := formatCurrency netProfit
            netProfitRaw := netProfit
            totalReceivable := formatCurrency totalReceivable
            totalPayable := formatCurrency totalPayable
            topLocation := topLocation
            topItem := topItem }
        charts :=
          { topCustomersData := topCustArr.map (fun a => a.2)
            topCustomersCategories := topCustArr.map (fun a => a.1)
            purchaseByLocationSeries := (ownEntries purLocMap).map Prod.snd
            purchaseByLocationLabels := (ownEntries purLocMap).map Prod.fst
            purchaseByCategorySeries := purchaseByCategorySeries
            purchaseByCategoryCategories := allYears
            salesByCategorySeries := (ownEntries salesCatMap).map Prod.snd
            salesByCategoryLabels := (ownEntries salesCatMap).map Prod.fst
            salesByCityData := salesByCityData } }

end Dashboard

/-- The conversion `Number(v)` on whole numbers and on texts made of digits only; any other
value used with it here is a text that is not numeric, which gives `NaN`. -/
def digitsNumber : JsVal → JsNumber
  | .num n => .finite n
  | .str s => digitsParse s
  | _ => .nan

/-- The year of a date written `yyyy-mm-dd`, or with more or fewer digits for the year:
the digits before the first `-`; any other text is taken to be an invalid date. -/
def leadingYear : JsVal → Option Int
  | .str s =>
    match digitsParse.value (s.toList.takeWhile (fun c => c != '-')) 0 with
    | some n => if s.toList.takeWhile (fun c => c != '-') = [] then none else some (n : Int)
    | none => none
  | _ => none

/-- A currency text for the examples: the number in dollars when it is whole. -/
def plainCurrency : JsNumber → String
  | .finite q => "$" ++ toString q.num
  | _ => "$NaN"

/-- The text of a number for the examples, which use it on whole numbers and on `NaN`. -/
def plainNumberText : JsNumber → String
  | .finite q => toString q.num
  | .nan => "NaN"
  | .posInfinity => "Infinity"
  | .negInfinity => "-Infinity"

/-- The text of the value that `Object.prototype` has under a name: the source text of a
built-in function, and `[object Object]` for the prototype itself. -/
def nativeText (name : String) : String :=
  if name = "__proto__" then "[object Object]"
  else if name = "constructor" then "function Object() { [native code] }"
  else "function " ++ name ++ "() { [native code] }"

/-- The property name `r[field] || 'Unknown'` under which a row is grouped. -/
def groupKey (field : String) (r : Record) : String :=
  ((r.get field).or (.str "Unknown")).toJsString

/-- The number `Number(r[field] || 0)` of a row. -/
def priceOf (Number : JsVal → JsNumber) (field : String) (r : Record) : JsNumber :=
  Number ((r.get field).or (.num 0))

/-- Every row has a finite number in the given field. -/
def AllFinite (Number : JsVal → JsNumber) (field : String) (rows : List Record) : Prop :=
  ∀ r ∈ rows, (priceOf Number field r).isFinite = true

/-- No row is grouped under a name that `Object.prototype` has, such as `constructor`,
`toString` or `__proto__`. -/
def NoInheritedName (field : String) (rows : List Record) : Prop :=
  ∀ r ∈ rows, groupKey field r ∉ Dashboard.objectPrototypeNames

/-- The exact sum of the numbers in the given field over the rows selected by `p`. -/
def sumWhere (Number : JsVal → JsNumber) (field : String) (p : Record → Bool)
    (rows : List Record) : ℚ :=
  ((rows.filter p).map (fun r => (priceOf Number field r).toRat)).sum

/-- The rational value of a value that is a finite number, 0 for the others. -/
def Dashboard.Value.toRat : Dashboard.Value → ℚ
  | .number n => n.toRat
  | _ => 0

/-- The exact sum of the values of an object. -/
def valuesSum (m : Dashboard.ValueMap) : ℚ := (m.map (fun e => e.2.toRat)).sum

/-- Every value of an object is a finite number. -/
def MapFinite (m : Dashboard.ValueMap) : Prop := ∀ e ∈ m, ∃ q, e.2 = .number (.finite q)

/-- Three sales, the last one without a customer name. -/
def exampleSales : List Record :=
  [[("City", .str "Pune"), ("Customer Name", .str "Acme"), ("Item Category", .str "Tools"),
    ("Total Sales Price", .str "20")],
   [("City", .str "Goa"), ("Customer Name", .str "Globex"), ("Item Category", .str "Paint"),
    ("Total Sales Price", .str "10")],
   [("City", .str "Pune"), ("Item Category", .str "Tools"), ("Total Sales Price", .str "5")]]

/-- Four purchases, one of them with an invalid date. -/
def examplePurchases : List Record :=
  [[("Date", .str "2024-02-01"), ("Item Category", .str "Paint"),
    ("Total Purchase Price", .str "3")],
   [("Date", .str "2023-04-01"), ("Item Category", .str "Tools"),
    ("Total Purchase Price", .str "7")],
   [("Date", .str "soon"), ("Item Category", .str "Glue"), ("Total Purchase Price", .str "2")],
   [("Date", .str "2024-05-09"), ("Item Category", .str "Paint"),
    ("Total Purchase Price", .str "4")]]

/-- Eleven sales to the customers `K0` to `K10`, customer `Kn` buying for `n`. -/
def elevenSales : List Record :=
  (List.range 11).map (fun (n : Nat) =>
    [("Customer Name", .str ("K" ++ toString n)), ("Total Sales Price", .num (n : Int))])

/-- Two sales in one city to two customers, the first with a price that is no number. -/
def unreadableSales : List Record :=
  [[("City", .str "Pune"), ("Customer Name", .str "Acme"), ("Total Sales Price", .str "abc")],
   [("City", .str "Pune"), ("Customer Name", .str "Globex"), ("Total Sales Price", .str "5")]]

/-- Three sales: two to a customer named `constructor` in the city `__proto__`, and one to
`Acme` in `Pune`. -/
def inheritedNameSales : List Record :=
  [[("City", .str "__proto__"), ("Customer Name", .str "constructor"),
    ("Total Sales Price", .str "20")],
   [("City", .str "Pune"), ("Customer Name", .str "Acme"), ("Total Sales Price", .str "7")],
   [("City", .str "__proto__"), ("Customer Name", .str "constructor"),
    ("Total Sales Price", .str "5")]]

/-- Two purchases, dated in the years 2024 and 999. -/
def earlyYearPurchases : List Record :=
  [[("Date", .str "2024-01-03"), ("Item Category", .str "Tools"),
    ("Total Purchase Price", .str "7")],
   [("Date", .str "0999-05-01"), ("Item Category", .str "Tools"),
    ("Total Purchase Price", .str "3")]]

/-- One purchase whose price is no number. -/
def unreadablePurchases : List Record :=
  [[("Date", .str "2024-01-03"), ("Item Category", .str "Tools"),
    ("Total Purchase Price", .str "abc")]]

/-! ## Decoding lemmas -/

theorem Record.get_set (r : Record) (k k2 : String) (v : JsVal) :
    (r.set k v).get k2 = if k = k2 then v else r.get k2 := by
  induction r with
  | nil =>
    simp [Record.set, Record.get, JsVal.lookupField]
  | cons p rest ih =>
    obtain ⟨k1, v1⟩ := p
    simp only [Record.get] at ih ⊢
    by_cases h1 : k1 = k
    · subst h1
      by_cases h2 : k1 = k2 <;> simp [Record.set, JsVal.lookupField, h2]
    · by_cases h2 : k1 = k2
      · subst h2
        simp [Record.set, JsVal.lookupField, h1, Ne.symm h1]
      · simp [Record.set, JsVal.lookupField, h1, h2, ih]

theorem callsSetter_key (key : String) (proto : RowProto) (rowData : Record)
    (h : decodeRow.callsSetter key proto rowData = true) : key = "__proto__" := by
  simp only [decodeRow.callsSetter, Bool.and_eq_true, beq_iff_eq] at h
  exact h.1.1

theorem decodeRow.go_arr (cells : List JsVal) :
    ∀ (hs : List JsVal) (i : Nat) (proto : RowProto) (acc : Record),
      ∃ r, decodeRow.go (.arr cells) hs i proto acc = .ok r ∧
        (∀ (j : Nat) h, hs[j]? = some h → h.toJsString ≠ "__proto__" →
          (∀ (j2 : Nat) h2, j < j2 → hs[j2]? = some h2 → h2.toJsString ≠ h.toJsString) →
          r.get h.toJsString = cells.getD (i + j) .undefined) ∧
        (∀ k, (∀ h ∈ hs, h.toJsString ≠ k) → r.get k = acc.get k) := by
  intro hs
  induction hs with
  | nil =>
    intro i proto acc
    exact ⟨acc, rfl, by simp, by simp⟩
  | cons h0 rest ih =>
    intro i proto acc
    by_cases hset : decodeRow.callsSetter h0.toJsString proto acc = true
    · obtain ⟨r, hr, hget, hkeep⟩ := ih (i + 1) (proto.assigned (cells.getD i .undefined)) acc
      have hkey := callsSetter_key _ _ _ hset
      refine ⟨r, ?_, ?_, ?_⟩
      · simpa [decodeRow.go, JsVal.index, hset] using hr
      · intro j h hj hproto hlast
        cases j with
        | zero =>
          simp only [List.getElem?_cons_zero, Option.some.injEq] at hj
          subst hj
          exact absurd hkey hproto
        | succ n =>
          simp only [List.getElem?_cons_succ] at hj
          have := hget n h hj hproto (fun j2 h2 hlt h2eq =>
            hlast (j2 + 1) h2 (by omega) (by simpa using h2eq))
          rw [this]
          congr 1
          omega
      · intro k hk
        exact hkeep k (fun h hmem => hk h (List.mem_cons_of_mem _ hmem))
    · obtain ⟨r, hr, hget, hkeep⟩ := ih (i + 1) proto
        (acc.set h0.toJsString (cells.getD i .undefined))
      refine ⟨r, ?_, ?_, ?_⟩
      · simpa [decodeRow.go, JsVal.index, hset] using hr
      · intro j h hj hproto hlast
        cases j with
        | zero =>
          simp only [List.getElem?_cons_zero, Option.some.injEq] at hj
          subst hj
          have hnot : ∀ h2 ∈ rest, h2.toJsString ≠ h0.toJsString := by
            intro h2 hmem
            obtain ⟨n, hn⟩ := List.getElem?_of_mem hmem
            exact hlast (n + 1) h2 (Nat.succ_pos n) (by simpa using hn)
          rw [hkeep _ hnot, Record.get_set]
          simp
        | succ n =>
          simp only [List.getElem?_cons_succ] at hj
          have := hget n h hj hproto (fun j2 h2 hlt h2eq =>
            hlast (j2 + 1) h2 (by omega) (by simpa using h2eq))
          rw [this]
          congr 1
          omega
      · intro k hk
        have h0k : h0.toJsString ≠ k := hk h0 (List.mem_cons_self _ _)
        rw [hkeep k (fun h hmem => hk h (List.mem_cons_of_mem _ hmem)), Record.get_set]
        simp [h0k]

theorem decodeRow_arr (hs cells : List JsVal) :
    ∃ r, decodeRow (.arr hs) (.arr cells) = .ok r ∧
      ∀ (j : Nat) h, hs[j]? = some h → h.toJsString ≠ "__proto__" →
        (∀ (j2 : Nat) h2, j < j2 → hs[j2]? = some h2 → h2.toJsString ≠ h.toJsString) →
        r.get h.toJsString = cells.getD j .undefined := by
  obtain ⟨r, hr, hget, -⟩ := decodeRow.go_arr cells hs 0 .objectPrototype []
  refine ⟨r, by simpa [decodeRow] using hr, ?_⟩
  intro j h hj hproto hlast
  simpa using hget j h hj hproto hlast

theorem decodeRows_arr (hs : List JsVal) :
    ∀ rows : List (List JsVal),
      ∃ records, decodeRows (.arr hs) (rows.map .arr) = .ok records ∧
        records.length = rows.length ∧
        ∀ (i : Nat) r cells, records[i]? = some r → rows[i]? = some cells →
          decodeRow (.arr hs) (.arr cells) = .ok r := by
  intro rows
  induction rows with
  | nil => exact ⟨[], rfl, rfl, by simp⟩
  | cons cells rest ih =>
    obtain ⟨records, hrec, hlen, hpt⟩ := ih
    obtain ⟨r, hr, -⟩ := decodeRow_arr hs cells
    refine ⟨r :: records, ?_, by simp [hlen], ?_⟩
    · simp [decodeRows, hr, hrec]
    · intro i r2 cells2 hi hc
      cases i with
      | zero =>
        simp only [List.getElem?_cons_zero, Option.some.injEq] at hi hc
        subst hi hc
        exact hr
      | succ n =>
        simp only [List.getElem?_cons_succ] at hi hc
        exact hpt n r2 cells2 hi hc

theorem decodeBody_rows (data : JsVal) (hs : List JsVal) (rows : List (List JsVal))
    (hvalues : data.getField "values" = .ok (.arr (.arr hs :: rows.map .arr))) :
    decodeBody data = decodeRows (.arr hs) (rows.map .arr) := by
  unfold decodeBody
  rw [hvalues]
  cases rows with
  | nil => simp [JsVal.destructureFirstRest, decodeRows]
  | cons c rest => simp [JsVal.destructureFirstRest]

theorem getRangeData_ok (rangeName : String) (w : World) (response : Response)
    (rest : List (Except JsError Response)) (data : JsVal)
    (hpending : w.pending = .ok response :: rest) (hok : response.ok = true)
    (hjson : response.json = .ok data) :
    (getRangeData rangeName w).1 = decodeBody data := by
  simp [getRangeData, fetch, hpending, hok, hjson]

/-! ## Range reader -/

/-- The records decoded from a header row followed by data rows. -/
theorem getRangeData_records (rangeName : String) (w : World) (response : Response)
    (rest : List (Except JsError Response)) (data : JsVal)
    (H : List JsVal) (rows : List (List JsVal))
    (hpending : w.pending = .ok response :: rest) (hok : response.ok = true)
    (hjson : response.json = .ok data)
    (hvalues : data.getField "values" = .ok (.arr (.arr H :: rows.map .arr))) :
    ∃ records, (getRangeData rangeName w).1 = .ok records ∧
      records.length = rows.length ∧
      ∀ (i : Nat) r cells, records[i]? = some r → rows[i]? = some cells →
        ∀ (j : Nat) h, H[j]? = some h → h.toJsString ≠ "__proto__" →
          (∀ (j2 : Nat) h2, j < j2 → H[j2]? = some h2 → h2.toJsString ≠ h.toJsString) →
          r.get h.toJsString = cells.getD j .undefined := by
  obtain ⟨records, hrec, hlen, hpt⟩ := decodeRows_arr H rows
  refine ⟨records, ?_, hlen, ?_⟩
  · rw [getRangeData_ok rangeName w response rest data hpending hok hjson,
      decodeBody_rows data H rows hvalues, hrec]
  · intro i r cells hi hc j h hj hproto hlast
    obtain ⟨r2, hr2, hget⟩ := decodeRow_arr H cells
    have hrow := hpt i r cells hi hc
    rw [hr2] at hrow
    cases hrow
    exact hget j h hj hproto hlast

/-- C1 (as amended): for a successful response whose values are a header row `H` followed
by `N` data rows, `getRangeData` returns exactly `N` records in row order, the header row
is not among them, and record `i` maps `H[j]` to cell `j` of data row `i` for every column
`j` whose name is not `__proto__` and does not occur again at a later column. -/
theorem getRangeData_decodes_rows (rangeName : String) (w : World) (response : Response)
    (rest : List (Except JsError Response)) (data : JsVal)
    (H : List JsVal) (rows : List (List JsVal))
    (hpending : w.pending = .ok response :: rest) (hok : response.ok = true)
    (hjson : response.json = .ok data)
    (hvalues : data.getField "values" = .ok (.arr (.arr H :: rows.map .arr))) :
    ∃ records, (getRangeData rangeName w).1 = .ok records ∧
      records.length = rows.length ∧
      ∀ (i : Nat) r cells, records[i]? = some r → rows[i]? = some cells →
        ∀ (j : Nat) h, H[j]? = some h → h.toJsString ≠ "__proto__" →
          (∀ (j2 : Nat) h2, j < j2 → H[j2]? = some h2 → h2.toJsString ≠ h.toJsString) →
          r.get h.toJsString = cells.getD j .undefined :=
  getRangeData_records rangeName w response rest data H rows hpending hok hjson hvalues

/-- Witness of C1 on the example range of the specification. -/
theorem getRangeData_decodes_rows_witness :
    ∃ records, (getRangeData "RANGECUSTOMERS"
        (worldAnswering (Grid.response exampleCustomers))).1 = .ok records ∧
      records.length = 2 ∧
      ∀ (i : Nat) r cells, records[i]? = some r →
        [[JsVal.str "C1", .str "Acme"], [.str "C2", .str "Globex"]][i]? = some cells →
        ∀ (j : Nat) h, [JsVal.str "Customer ID", .str "Customer Name"][j]? = some h →
          h.toJsString ≠ "__proto__" →
          (∀ (j2 : Nat) h2, j < j2 →
            [JsVal.str "Customer ID", .str "Customer Name"][j2]? = some h2 →
            h2.toJsString ≠ h.toJsString) →
          r.get h.toJsString = cells.getD j .undefined :=
  getRangeData_decodes_rows "RANGECUSTOMERS" (worldAnswering (Grid.response exampleCustomers))
    (Grid.response exampleCustomers) [] _
    [.str "Customer ID", .str "Customer Name"]
    [[.str "C1", .str "Acme"], [.str "C2", .str "Globex"]] rfl rfl rfl rfl

/-- Counterexample to C1 as stated: with the header `Name, Name` and the data row
`Acme, Globex`, the only record maps `H[0] = Name` to `Globex`, which is cell 1 and not
cell 0 of the row; and with the header `__proto__, Name` and the data row `x, Acme` the
only record has the single property `Name`, so it does not map `H[0]` to cell 0. -/
theorem getRangeData_duplicate_header_counterexample :
    ((getRangeData "RANGECUSTOMERS" (worldAnswering (Grid.response duplicateHeaderRange))).1
        = .ok [[("Name", .str "Globex")]] ∧
      Record.get [("Name", .str "Globex")] (JsVal.str "Name").toJsString
        ≠ [JsVal.str "Acme", .str "Globex"].getD 0 .undefined) ∧
    (getRangeData "RANGECUSTOMERS" (worldAnswering (Grid.response protoColumnRange))).1
      = .ok [[("Name", .str "Acme")]] := by
  decide

/-- C6: a successful response whose values are a header row only decodes to the empty
collection, without an error. -/
theorem getRangeData_header_only (rangeName : String) (w : World) (response : Response)
    (rest : List (Except JsError Response)) (data : JsVal) (H : List JsVal)
    (hpending : w.pending = .ok response :: rest) (hok : response.ok = true)
    (hjson : response.json = .ok data)
    (hvalues : data.getField "values" = .ok (.arr [.arr H])) :
    (getRangeData rangeName w).1 = .ok [] := by
  rw [getRangeData_ok rangeName w response rest data hpending hok hjson]
  simp [decodeBody, hvalues, JsVal.destructureFirstRest]

/-- Witness of C6: the customers header alone. -/
theorem getRangeData_header_only_witness :
    (getRangeData "RANGECUSTOMERS" (worldAnswering
      (Grid.response [[.str "Customer ID", .str "Customer Name"]]))).1 = .ok [] :=
  getRangeData_header_only "RANGECUSTOMERS" _
    (Grid.response [[.str "Customer ID", .str "Customer Name"]]) [] _
    [.str "Customer ID", .str "Customer Name"] rfl rfl rfl rfl

/-- C7, the half that holds: a successful response with an empty `values` list decodes to
the empty collection. -/
theorem getRangeData_empty_values (rangeName : String) (w : World) (response : Response)
    (rest : List (Except JsError Response)) (data : JsVal)
    (hpending : w.pending = .ok response :: rest) (hok : response.ok = true)
    (hjson : response.json = .ok data)
    (hvalues : data.getField "values" = .ok (.arr [])) :
    (getRangeData rangeName w).1 = .ok [] := by
  rw [getRangeData_ok rangeName w response rest data hpending hok hjson]
  simp [decodeBody, hvalues, JsVal.destructureFirstRest]

/-- C7, the half that fails: whenever the body of a successful response is an object
without a `values` property, `getRangeData` throws a type error. -/
theorem getRangeData_missing_values (rangeName : String) (w : World) (response : Response)
    (rest : List (Except JsError Response)) (fields : List (String × JsVal))
    (hpending : w.pending = .ok response :: rest) (hok : response.ok = true)
    (hjson : response.json = .ok (.obj fields))
    (hvalues : JsVal.lookupField fields "values" = .undefined) :
    (getRangeData rangeName w).1 = .error (.typeError "undefined is not iterable") := by
  rw [getRangeData_ok rangeName w response rest _ hpending hok hjson]
  simp only [decodeBody, JsVal.getField, hvalues, JsVal.destructureFirstRest]
  rfl

/-- C7 at the failing input: the answer of the backend for an empty range has no `values`
property, and `getRangeData` throws instead of returning the empty collection. -/
theorem getRangeData_empty_range_throws :
    (getRangeData "RANGECUSTOMERS" (worldAnswering emptyRangeResponse)).1
      = .error (.typeError "undefined is not iterable") := by
  decide

/-- C8 (as amended): a data row shorter than the header row does not make `getRangeData`
fail; for every column `j` whose name is not `__proto__` and does not occur again at a
later column, the record maps `H[j]` to cell `j` of the row when `j` is below the row's
length and to `undefined` from the row's length on. -/
theorem getRangeData_short_row (rangeName : String) (w : World) (response : Response)
    (rest : List (Except JsError Response)) (data : JsVal)
    (H : List JsVal) (rows : List (List JsVal)) (i : Nat) (cells : List JsVal)
    (hpending : w.pending = .ok response :: rest) (hok : response.ok = true)
    (hjson : response.json = .ok data)
    (hvalues : data.getField "values" = .ok (.arr (.arr H :: rows.map .arr)))
    (hrow : rows[i]? = some cells) :
    ∃ records r, (getRangeData rangeName w).1 = .ok records ∧ records[i]? = some r ∧
      ∀ (j : Nat) h, H[j]? = some h → h.toJsString ≠ "__proto__" →
        (∀ (j2 : Nat) h2, j < j2 → H[j2]? = some h2 → h2.toJsString ≠ h.toJsString) →
        (∀ cell, cells[j]? = some cell → r.get h.toJsString = cell) ∧
        (cells.length ≤ j → r.get h.toJsString = .undefined) := by
  obtain ⟨records, hres, hlen, hpt⟩ :=
    getRangeData_records rangeName w response rest data H rows hpending hok hjson hvalues
  have hi : i < records.length := by
    rw [hlen]
    exact (List.getElem?_eq_some.mp hrow).1
  refine ⟨records, records[i], hres, List.getElem?_eq_getElem hi, ?_⟩
  intro j h hj hproto hlast
  have hget := hpt i records[i] cells (List.getElem?_eq_getElem hi) hrow j h hj hproto hlast
  constructor
  · intro cell hcell
    rw [hget]
    simp [List.getD, hcell]
  · intro hle
    rw [hget]
    simp [List.getD, List.getElem?_eq_none hle]

/-- Witness of C8: the row `C2` under the header `Customer ID, Customer Name`. -/
theorem getRangeData_short_row_witness :
    ∃ records r, (getRangeData "RANGECUSTOMERS" (worldAnswering (Grid.response
        [[.str "Customer ID", .str "Customer Name"], [.str "C2"]]))).1 = .ok records ∧
      records[0]? = some r ∧
      ∀ (j : Nat) h, [JsVal.str "Customer ID", .str "Customer Name"][j]? = some h →
        h.toJsString ≠ "__proto__" →
        (∀ (j2 : Nat) h2, j < j2 →
          [JsVal.str "Customer ID", .str "Customer Name"][j2]? = some h2 →
          h2.toJsString ≠ h.toJsString) →
        (∀ cell, [JsVal.str "C2"][j]? = some cell → r.get h.toJsString = cell) ∧
        ([JsVal.str "C2"].length ≤ j → r.get h.toJsString = .undefined) :=
  getRangeData_short_row "RANGECUSTOMERS" _
    (Grid.response [[.str "Customer ID", .str "Customer Name"], [.str "C2"]]) [] _
    [.str "Customer ID", .str "Customer Name"] [[.str "C2"]] 0 [.str "C2"] rfl rfl rfl rfl rfl

/-- Counterexample to C8 as stated: under the header `Email, Email` the one-cell row
`a@example.com` decodes to a record that maps `H[0] = Email` to `undefined`, not to cell 0
of the row; and under the header `Name, __proto__` the one-cell row `Acme` decodes to a
record with the single property `Name`, which has no property `__proto__` holding
`undefined`. -/
theorem getRangeData_short_row_counterexample :
    ((getRangeData "RANGEUSERS" (worldAnswering (Grid.response shortRowRange))).1
        = .ok [[("Email", .undefined)]] ∧
      [JsVal.str "a@example.com"][0]? = some (.str "a@example.com") ∧
      Record.get [("Email", .undefined)] (JsVal.str "Email").toJsString
        ≠ .str "a@example.com") ∧
    (getRangeData "RANGEUSERS" (worldAnswering (Grid.response protoShortRowRange))).1
      = .ok [[("Name", .str "Acme")]] := by
  decide

/-! ## Row addressing -/

theorem findIndex.go_first {α : Type} (p : α → Bool) :
    ∀ (xs : List α) (k i : Nat) (x : α), xs[i]? = some x → p x = true →
      (∀ (j : Nat) y, j < i → xs[j]? = some y → p y = false) →
      findIndex.go p xs k = ((k + i : Nat) : Int) := by
  intro xs
  induction xs with
  | nil => intro k i x hx; simp at hx
  | cons a rest ih =>
    intro k i x hx hp hbefore
    cases i with
    | zero =>
      simp only [List.getElem?_cons_zero, Option.some.injEq] at hx
      subst hx
      simp [findIndex.go, hp]
    | succ n =>
      have ha : p a = false := hbefore 0 a (Nat.succ_pos n) (by simp)
      simp only [List.getElem?_cons_succ] at hx
      have := ih (k + 1) n x hx hp (fun j y hj hy => hbefore (j + 1) y (by omega) (by simpa using hy))
      simp only [findIndex.go, ha, Bool.false_eq_true, if_false, this]
      congr 1
      omega

theorem findIndex.go_none {α : Type} (p : α → Bool) :
    ∀ (xs : List α) (k : Nat), (∀ x ∈ xs, p x = false) → findIndex.go p xs k = -1 := by
  intro xs
  induction xs with
  | nil => intro k _; rfl
  | cons a rest ih =>
    intro k h
    have ha : p a = false := h a (List.mem_cons_self _ _)
    simp only [findIndex.go, ha, Bool.false_eq_true, if_false]
    exact ih (k + 1) (fun x hx => h x (List.mem_cons_of_mem _ hx))

theorem findIndex.go_some {α : Type} (p : α → Bool) :
    ∀ (xs : List α) (k : Nat), (∃ x ∈ xs, p x = true) →
      ∃ (i : Nat) (x : α), xs[i]? = some x ∧ p x = true ∧
        (∀ (j : Nat) y, j < i → xs[j]? = some y → p y = false) ∧
        findIndex.go p xs k = ((k + i : Nat) : Int) := by
  intro xs
  induction xs with
  | nil => intro k h; simp at h
  | cons a rest ih =>
    intro k h
    by_cases ha : p a = true
    · exact ⟨0, a, by simp, ha, by simp, by simp [findIndex.go, ha]⟩
    · have hrest : ∃ x ∈ rest, p x = true := by
        obtain ⟨x, hx, hpx⟩ := h
        rcases List.mem_cons.mp hx with rfl | hmem
        · exact absurd hpx ha
        · exact ⟨x, hmem, hpx⟩
      obtain ⟨i, x, hx, hpx, hbefore, hgo⟩ := ih (k + 1) hrest
      refine ⟨i + 1, x, by simpa using hx, hpx, ?_, ?_⟩
      · intro j y hj hy
        cases j with
        | zero =>
          simp only [List.getElem?_cons_zero, Option.some.injEq] at hy
          subst hy
          simpa using ha
        | succ n =>
          exact hbefore n y (by omega) (by simpa using hy)
      · have hfalse : p a = false := by simpa using ha
        simp only [findIndex.go, hfalse, Bool.false_eq_true, if_false, hgo]
        congr 1
        omega

theorem findIndex_first {α : Type} (p : α → Bool) (xs : List α) (i : Nat) (x : α)
    (hx : xs[i]? = some x) (hp : p x = true)
    (hbefore : ∀ (j : Nat) y, j < i → xs[j]? = some y → p y = false) :
    findIndex p xs + 2 = (i : Int) + 2 := by
  unfold findIndex
  rw [findIndex.go_first p xs 0 i x hx hp hbefore]
  simp

theorem findRowIndex_of_first (field : String) (data : List Record) (id : JsVal) (i : Nat)
    (h : IsFirstWithId field data id i) :
    findIndex (fun row => (Record.get row field).strictEq id) data + 2 = (i : Int) + 2 := by
  obtain ⟨⟨r, hr, hp⟩, hbefore⟩ := h
  exact findIndex_first _ data i r hr hp hbefore

/-- C2: whenever position `i` holds the first record whose identifier field equals `id`,
`findRowIndex(records, id)` is `i + 2`, in each of the five pages. -/
theorem findRowIndex_eq_position_add_two (data : List Record) (id : JsVal) (i : Nat) :
    (IsFirstWithId "Customer ID" data id i → Customers.findRowIndex data id = (i : Int) + 2) ∧
    (IsFirstWithId "UserID" data id i → Users.findRowIndex data id = (i : Int) + 2) ∧
    (IsFirstWithId "Supplier ID" data id i → Suppliers.findRowIndex data id = (i : Int) + 2) ∧
    (IsFirstWithId "Trx ID" data id i → Payments.findRowIndex data id = (i : Int) + 2) ∧
    (IsFirstWithId "Trx ID" data id i → Receipts.findRowIndex data id = (i : Int) + 2) :=
  ⟨findRowIndex_of_first _ data id i, findRowIndex_of_first _ data id i,
    findRowIndex_of_first _ data id i, findRowIndex_of_first _ data id i,
    findRowIndex_of_first _ data id i⟩

theorem exampleRecords_first_C2 : IsFirstWithId "Customer ID" exampleRecords (.str "C2") 1 := by
  refine ⟨⟨_, rfl, by decide⟩, ?_⟩
  intro j r hj hr
  have hj0 : j = 0 := by omega
  subst hj0
  simp only [exampleRecords, List.getElem?_cons_zero, Option.some.injEq] at hr
  subst hr
  decide

/-- Witness of C2, the example of the specification: the range decodes to the two records
`C1`, `C2`, and the row index of `C2` is `3`. -/
theorem findRowIndex_eq_position_add_two_witness :
    (getRangeData "RANGECUSTOMERS" (worldAnswering (Grid.response exampleCustomers))).1
        = .ok exampleRecords ∧
      IsFirstWithId "Customer ID" exampleRecords (.str "C2") 1 ∧
      Customers.findRowIndex exampleRecords (.str "C2") = 3 :=
  ⟨by decide, exampleRecords_first_C2,
    (findRowIndex_eq_position_add_two exampleRecords (.str "C2") 1).1 exampleRecords_first_C2⟩

/-! ## Record deleter -/

theorem Grid.deleteRows.go_above (n : Nat) :
    ∀ (g : Grid) (k : Nat), n < k → Grid.deleteRows.go (n : Int) ((n : Int) + 1) g k = g := by
  intro g
  induction g with
  | nil => intro k _; rfl
  | cons row rest ih =>
    intro k hk
    have hnot : ¬ ((n : Int) ≤ (k : Int) ∧ (k : Int) < (n : Int) + 1) := by omega
    simp only [Grid.deleteRows.go, hnot, if_false]
    rw [ih (k + 1) (by omega)]

theorem Grid.deleteRows.go_eraseIdx (n : Nat) :
    ∀ (g : Grid) (k : Nat), k ≤ n →
      Grid.deleteRows.go (n : Int) ((n : Int) + 1) g k = g.eraseIdx (n - k) := by
  intro g
  induction g with
  | nil => intro k _; rfl
  | cons row rest ih =>
    intro k hk
    by_cases hkn : k = n
    · subst hkn
      have hyes : ((k : Int) ≤ (k : Int) ∧ (k : Int) < (k : Int) + 1) := by omega
      simp only [Grid.deleteRows.go, hyes, and_self, if_true, Nat.sub_self, List.eraseIdx_cons_zero]
      exact Grid.deleteRows.go_above k rest (k + 1) (by omega)
    · have hnot : ¬ ((n : Int) ≤ (k : Int) ∧ (k : Int) < (n : Int) + 1) := by omega
      have hsub : n - k = (n - (k + 1)) + 1 := by omega
      simp only [Grid.deleteRows.go, hnot, if_false]
      rw [ih (k + 1) (by omega), hsub, List.eraseIdx_cons_succ]

theorem Grid.deleteRows_one (g : Grid) (n : Nat) :
    g.deleteRows (n : Int) ((n : Int) + 1) = g.eraseIdx n := by
  unfold Grid.deleteRows
  rw [Grid.deleteRows.go_eraseIdx n g 0 (Nat.zero_le n)]
  simp

/-- The serialised delete body: one request whose range is the row interval. -/
theorem deleteRow.body_toJSON (sheetId : JsVal) (rowIndex : Int) :
    ∃ request deleteDimension range,
      (deleteRow.body sheetId rowIndex).toJSON.getField "requests" = .ok (.arr [request]) ∧
      request.getField "deleteDimension" = .ok deleteDimension ∧
      deleteDimension.getField "range" = .ok range ∧
      range.getField "dimension" = .ok (.str "ROWS") ∧
      range.getField "startIndex" = .ok (.num (rowIndex - 1)) ∧
      range.getField "endIndex" = .ok (.num rowIndex) := by
  cases sheetId <;>
    exact ⟨_, _, _, rfl, rfl, rfl, rfl, rfl, rfl⟩

theorem Grid.batchUpdate_deleteRow (g : Grid) (sheetId : JsVal) (n : Nat) :
    g.batchUpdate (deleteRow.body sheetId ((n : Int) + 1)).toJSON = g.eraseIdx n := by
  have h : g.batchUpdate (deleteRow.body sheetId ((n : Int) + 1)).toJSON
      = g.deleteRows ((n : Int) + 1 - 1) ((n : Int) + 1) := by
    cases sheetId <;> rfl
  rw [h]
  have : ((n : Int) + 1 - 1) = (n : Int) := by omega
  rw [this]
  exact Grid.deleteRows_one g n

theorem deleteRow_sent (sheetName : String) (rowIndex : Int) (w w1 : World) (sheetId : JsVal)
    (hsheet : getSheetId sheetName w = (.ok sheetId, w1)) :
    ∃ req, (deleteRow sheetName rowIndex w).2.sent = w1.sent ++ [req] ∧
      req.method = "POST" ∧
      req.url = "https://sheets.googleapis.com/v4/spreadsheets/" ++ w.spreadsheetId
        ++ ":batchUpdate" ∧
      req.body = (deleteRow.body sheetId rowIndex).toJSON := by
  refine ⟨{ method := "POST"
            url := "https://sheets.googleapis.com/v4/spreadsheets/" ++ w.spreadsheetId
              ++ ":batchUpdate"
            authorization := "Bearer " ++ (getAccessToken w).toJsString
            contentType := some "application/json"
            body := (deleteRow.body sheetId rowIndex).toJSON }, ?_, rfl, rfl, rfl⟩
  · simp only [deleteRow, hsheet, fetch]
    cases hp : w1.pending with
    | nil => rfl
    | cons answer rest =>
      cases answer with
      | error e => rfl
      | ok response =>
        simp only
        cases hok : response.ok with
        | false => rfl
        | true =>
          cases hjson : response.json <;> simp

/-- C3: when the sheet id resolves, `deleteRow(sheetName, R)` sends one batch update whose
body holds exactly one request, a `deleteDimension` over `ROWS` from `startIndex = R - 1`
to `endIndex = R`; on the sheet this interval removes the single 0-based row `R - 1`, and
for `R = findRowIndex(records, id)` with the record at array position `i` that is the
0-based row `i + 1`. -/
theorem deleteRow_request_interval (sheetName : String) (R : Int) (w w1 : World)
    (sheetId : JsVal) (hsheet : getSheetId sheetName w = (.ok sheetId, w1)) :
    ∃ req request deleteDimension range,
      (deleteRow sheetName R w).2.sent = w1.sent ++ [req] ∧
      req.body.getField "requests" = .ok (.arr [request]) ∧
      request.getField "deleteDimension" = .ok deleteDimension ∧
      deleteDimension.getField "range" = .ok range ∧
      range.getField "dimension" = .ok (.str "ROWS") ∧
      range.getField "startIndex" = .ok (.num (R - 1)) ∧
      range.getField "endIndex" = .ok (.num R) ∧
      (∀ (g : Grid) (n : Nat), R = (n : Int) + 1 → g.batchUpdate req.body = g.eraseIdx n) ∧
      (∀ (data : List Record) (id : JsVal) (i : Nat),
        IsFirstWithId "Customer ID" data id i → R = Customers.findRowIndex data id →
        range.getField "startIndex" = .ok (.num ((i : Int) + 1)) ∧
        ∀ g : Grid, g.batchUpdate req.body = g.eraseIdx (i + 1)) := by
  obtain ⟨req, hsent, -, -, hbody⟩ := deleteRow_sent sheetName R w w1 sheetId hsheet
  obtain ⟨request, deleteDimension, range, h1, h2, h3, h4, h5, h6⟩ :=
    deleteRow.body_toJSON sheetId R
  refine ⟨req, request, deleteDimension, range, hsent, by rw [hbody]; exact h1, h2, h3, h4,
    h5, h6, ?_, ?_⟩
  · intro g n hR
    rw [hbody, hR]
    exact Grid.batchUpdate_deleteRow g sheetId n
  · intro data id i hfirst hR
    have hrow : R = ((i + 1 : Nat) : Int) + 1 := by
      rw [hR]
      unfold Customers.findRowIndex
      rw [findRowIndex_of_first "Customer ID" data id i hfirst]
      push_cast
      ring
    constructor
    · rw [h5, hrow]
      congr 2
      push_cast
      ring
    · intro g
      rw [hbody, hrow]
      exact Grid.batchUpdate_deleteRow g sheetId (i + 1)

/-- Witness of C3: deleting row 3 of the sheet `Customers`. -/
theorem deleteRow_request_interval_witness :
    ∃ req request deleteDimension range,
      (deleteRow "Customers" 3 deleteWorld).2.sent
        = (getSheetId "Customers" deleteWorld).2.sent ++ [req] ∧
      req.body.getField "requests" = .ok (.arr [request]) ∧
      request.getField "deleteDimension" = .ok deleteDimension ∧
      deleteDimension.getField "range" = .ok range ∧
      range.getField "dimension" = .ok (.str "ROWS") ∧
      range.getField "startIndex" = .ok (.num (3 - 1)) ∧
      range.getField "endIndex" = .ok (.num 3) ∧
      (∀ (g : Grid) (n : Nat), (3 : Int) = (n : Int) + 1 →
        g.batchUpdate req.body = g.eraseIdx n) ∧
      (∀ (data : List Record) (id : JsVal) (i : Nat),
        IsFirstWithId "Customer ID" data id i → 3 = Customers.findRowIndex data id →
        range.getField "startIndex" = .ok (.num ((i : Int) + 1)) ∧
        ∀ g : Grid, g.batchUpdate req.body = g.eraseIdx (i + 1)) :=
  deleteRow_request_interval "Customers" 3 deleteWorld (getSheetId "Customers" deleteWorld).2
    (.num 0) rfl

/-! ## Round trips through the sheet -/

theorem decodeRow_rowRecord (H cells : List JsVal) :
    decodeRow (.arr H) (.arr cells) = .ok (rowRecord H cells) := by
  obtain ⟨r, hr, -⟩ := decodeRow_arr H cells
  simp [rowRecord, hr]

theorem decodeRows_map (H : List JsVal) (rows : List (List JsVal)) :
    decodeRows (.arr H) (rows.map .arr) = .ok (rows.map (rowRecord H)) := by
  induction rows with
  | nil => rfl
  | cons cells rest ih => simp [decodeRows, decodeRow_rowRecord, ih]

theorem getRangeData_grid (rangeName : String) (w : World)
    (rest : List (Except JsError Response)) (H : List JsVal) (rows : List (List JsVal))
    (hpending : w.pending = .ok (Grid.response (H :: rows)) :: rest) :
    (getRangeData rangeName w).1 = .ok (rows.map (rowRecord H)) := by
  rw [getRangeData_ok rangeName w _ rest
      (.obj [("values", .arr ((H :: rows).map JsVal.arr))]) hpending rfl rfl,
    decodeBody_rows (.obj [("values", .arr ((H :: rows).map JsVal.arr))]) H rows rfl,
    decodeRows_map]

theorem rowRecord_get (H cells : List JsVal) (j : Nat) (h : JsVal) (hj : H[j]? = some h)
    (hproto : h.toJsString ≠ "__proto__")
    (hlast : ∀ (j2 : Nat) h2, j < j2 → H[j2]? = some h2 → h2.toJsString ≠ h.toJsString) :
    (rowRecord H cells).get h.toJsString = cells.getD j .undefined := by
  obtain ⟨r, hr, hget⟩ := decodeRow_arr H cells
  have := decodeRow_rowRecord H cells
  rw [hr] at this
  cases this
  exact hget j h hj hproto hlast

theorem map_eraseIdx {α β : Type} (f : α → β) :
    ∀ (xs : List α) (i : Nat), (xs.eraseIdx i).map f = (xs.map f).eraseIdx i := by
  intro xs
  induction xs with
  | nil => intro i; rfl
  | cons x rest ih =>
    intro i
    cases i with
    | zero => rfl
    | succ n => simp [List.eraseIdx_cons_succ, ih n]

theorem not_hasId_eraseIdx (field : String) (data : List Record) (id : JsVal) (i : Nat)
    (honly : ∀ (j : Nat) r, j ≠ i → data[j]? = some r → (r.get field).strictEq id = false) :
    ¬ HasId field (data.eraseIdx i) id := by
  rintro ⟨r, hmem, hr⟩
  obtain ⟨k, hk⟩ := List.getElem?_of_mem hmem
  rw [List.getElem?_eraseIdx] at hk
  by_cases hki : k < i
  · rw [if_pos hki] at hk
    have := honly k r (by omega) hk
    rw [this] at hr
    exact Bool.false_ne_true hr
  · rw [if_neg hki] at hk
    have := honly (k + 1) r (by omega) hk
    rw [this] at hr
    exact Bool.false_ne_true hr

/-- C4 (as amended): on a sheet of a header row followed by data rows, let `id` first
occur at position `i` of the decoded collection; after the batch update that
`deleteRow` sends for `R = findRowIndex(records, id)`, a fresh read returns the old
collection without its record at position `i`, so its length is one less; and no record
of the fresh read has identifier `id` provided no other record of the old collection
had it. -/
theorem delete_then_read (rangeName : String) (sheetId : JsVal)
    (H : List JsVal) (rows : List (List JsVal)) (id : JsVal) (i : Nat)
    (w w2 : World) (rest rest2 : List (Except JsError Response)) (records : List Record)
    (hw : w.pending = .ok (Grid.response (H :: rows)) :: rest)
    (hread : (getRangeData rangeName w).1 = .ok records)
    (hfirst : IsFirstWithId "Customer ID" records id i)
    (hw2 : w2.pending = .ok (Grid.response (Grid.batchUpdate (H :: rows)
      (deleteRow.body sheetId (Customers.findRowIndex records id)).toJSON)) :: rest2) :
    ∃ fresh, (getRangeData rangeName w2).1 = .ok fresh ∧
      fresh = records.eraseIdx i ∧
      fresh.length + 1 = records.length ∧
      ((∀ (j : Nat) r, j ≠ i → records[j]? = some r →
          (r.get "Customer ID").strictEq id = false) →
        ¬ HasId "Customer ID" fresh id) := by
  have hrecords : records = rows.map (rowRecord H) := by
    have := getRangeData_grid rangeName w rest H rows hw
    rw [hread] at this
    exact Except.ok.inj this
  have hrow : Customers.findRowIndex records id = ((i + 1 : Nat) : Int) + 1 := by
    unfold Customers.findRowIndex
    rw [findRowIndex_of_first "Customer ID" records id i hfirst]
    push_cast
    ring
  have hi : i < records.length := by
    obtain ⟨⟨r, hr, -⟩, -⟩ := hfirst
    exact (List.getElem?_eq_some.mp hr).1
  rw [hrow, Grid.batchUpdate_deleteRow, List.eraseIdx_cons_succ] at hw2
  refine ⟨records.eraseIdx i, ?_, rfl, ?_, ?_⟩
  · rw [getRangeData_grid rangeName w2 rest2 H (rows.eraseIdx i) hw2, hrecords]
    rw [map_eraseIdx]
  · rw [List.length_eraseIdx, if_pos hi]
    omega
  · exact not_hasId_eraseIdx "Customer ID" records id i

/-- Witness of C4: deleting customer `C2` from the example range of the specification. -/
theorem delete_then_read_witness :
    ∃ fresh, (getRangeData "RANGECUSTOMERS" (worldAnswering (Grid.response
        (Grid.batchUpdate exampleCustomers (deleteRow.body (.num 0)
          (Customers.findRowIndex exampleRecords (.str "C2"))).toJSON)))).1 = .ok fresh ∧
      fresh = exampleRecords.eraseIdx 1 ∧
      fresh.length + 1 = exampleRecords.length ∧
      ((∀ (j : Nat) r, j ≠ 1 → exampleRecords[j]? = some r →
          (r.get "Customer ID").strictEq (.str "C2") = false) →
        ¬ HasId "Customer ID" fresh (.str "C2")) :=
  delete_then_read "RANGECUSTOMERS" (.num 0)
    [.str "Customer ID", .str "Customer Name"]
    [[.str "C1", .str "Acme"], [.str "C2", .str "Globex"]] (.str "C2") 1
    (worldAnswering (Grid.response exampleCustomers)) _ [] [] exampleRecords
    rfl (by decide) exampleRecords_first_C2 rfl

/-- Counterexample to C4 as stated: in a sheet where two rows carry the id `C1`, deleting
at `findRowIndex(records, C1) = 2` leaves a collection one shorter in which a record still
has the id `C1`. -/
theorem delete_then_read_counterexample :
    (getRangeData "RANGECUSTOMERS" (worldAnswering (Grid.response repeatedIdGrid))).1
        = .ok [[("Customer ID", .str "C1")], [("Customer ID", .str "C1")]] ∧
      Customers.findRowIndex [[("Customer ID", .str "C1")], [("Customer ID", .str "C1")]]
        (.str "C1") = 2 ∧
      (getRangeData "RANGECUSTOMERS" (worldAnswering (Grid.response
        (Grid.batchUpdate repeatedIdGrid (deleteRow.body (.num 0) 2).toJSON)))).1
        = .ok [[("Customer ID", .str "C1")]] ∧
      (Record.get [("Customer ID", .str "C1")] "Customer ID").strictEq (.str "C1") = true := by
  decide

/-! ## Record appender -/

theorem JsVal.toJSONItems_eq_map (v : List JsVal) :
    JsVal.toJSONItems v = v.map JsVal.toJSONItem := by
  induction v with
  | nil => rfl
  | cons c rest ih =>
    cases c <;> simp [JsVal.toJSONItems, JsVal.toJSONItem, ih]

theorem JsVal.toJSONItem_scalar (c : JsVal) (h : c.isJsonScalar = true) :
    c.toJSONItem = c := by
  cases c <;> first | rfl | simp [JsVal.isJsonScalar] at h

theorem bodyRows_append (v : List JsVal) :
    bodyRows (JsVal.toJSON (.obj [("values", .arr [.arr v])])) = [v.map JsVal.toJSONItem] := by
  rw [← JsVal.toJSONItems_eq_map]
  rfl

theorem appendRow_sent (rangeName : String) (values : List JsVal) (w : World) :
    ∃ req, (appendRow rangeName values w).2.sent = w.sent ++ [req] ∧
      req.method = "POST" ∧
      req.body = JsVal.toJSON (.obj [("values", .arr [.arr values])]) := by
  refine ⟨{ method := "POST"
            url := "https://sheets.googleapis.com/v4/spreadsheets/" ++ w.spreadsheetId
              ++ "/values/" ++ rangeName ++ ":append?valueInputOption=USER_ENTERED"
            authorization := "Bearer " ++ (getAccessToken w).toJsString
            contentType := some "application/json"
            body := JsVal.toJSON (.obj [("values", .arr [.arr values])]) }, ?_, rfl, rfl⟩
  simp only [appendRow, fetch]
  cases hp : w.pending with
  | nil => rfl
  | cons answer rest =>
    cases answer with
    | error e => rfl
    | ok response =>
      simp only
      cases hok : response.ok with
      | false => rfl
      | true =>
        cases hjson : response.json <;> simp

/-- C5 (as amended): `appendRow` sends the one row `v` as serialised by `JSON.stringify`;
on a sheet of a header row `H` followed by data rows, once that row is added after all
existing rows a fresh read returns the old collection, unchanged, followed by one more
record, and for every column `j` whose name is not `__proto__` and does not occur again at
a later column this last record maps `H[j]` to the serialised `v[j]`: `null` where `v[j]`
is `undefined`, and `v[j]` itself where it is a string, a number, a boolean or `null`. -/
theorem append_then_read (rangeName appendRange : String)
    (H : List JsVal) (rows : List (List JsVal)) (v : List JsVal)
    (w0 w w2 : World) (rest rest2 : List (Except JsError Response))
    (hw : w.pending = .ok (Grid.response (H :: rows)) :: rest)
    (hw2 : w2.pending = .ok (Grid.response (Grid.append (H :: rows)
      (JsVal.toJSON (.obj [("values", .arr [.arr v])])))) :: rest2) :
    (∃ req, (appendRow appendRange v w0).2.sent = w0.sent ++ [req] ∧
      req.body = JsVal.toJSON (.obj [("values", .arr [.arr v])])) ∧
    ∃ records last, (getRangeData rangeName w).1 = .ok records ∧
      (getRangeData rangeName w2).1 = .ok (records ++ [last]) ∧
      ∀ (j : Nat) h, H[j]? = some h → h.toJsString ≠ "__proto__" →
        (∀ (j2 : Nat) h2, j < j2 → H[j2]? = some h2 → h2.toJsString ≠ h.toJsString) →
        ∀ c, v[j]? = some c →
          last.get h.toJsString = c.toJSONItem ∧
          (c.isJsonScalar = true → last.get h.toJsString = c) := by
  constructor
  · obtain ⟨req, hsent, -, hbody⟩ := appendRow_sent appendRange v w0
    exact ⟨req, hsent, hbody⟩
  · have hgrid : Grid.append (H :: rows) (JsVal.toJSON (.obj [("values", .arr [.arr v])]))
        = H :: (rows ++ [v.map JsVal.toJSONItem]) := by
      simp [Grid.append, bodyRows_append]
    rw [hgrid] at hw2
    refine ⟨rows.map (rowRecord H), rowRecord H (v.map JsVal.toJSONItem),
      getRangeData_grid rangeName w rest H rows hw, ?_, ?_⟩
    · rw [getRangeData_grid rangeName w2 rest2 H _ hw2]
      simp
    · intro j h hj hproto hlast c hc
      have hget := rowRecord_get H (v.map JsVal.toJSONItem) j h hj hproto hlast
      have hcell : (v.map JsVal.toJSONItem).getD j .undefined = c.toJSONItem := by
        simp [List.getD, hc]
      rw [hget, hcell]
      exact ⟨rfl, fun hs => JsVal.toJSONItem_scalar c hs⟩

/-- Witness of C5: appending the customer `C3, Initech` to the example range. -/
theorem append_then_read_witness :
    (∃ req, (appendRow "RANGECUSTOMERS" [.str "C3", .str "Initech"] appendWorld).2.sent
        = appendWorld.sent ++ [req] ∧
      req.body = JsVal.toJSON (.obj [("values", .arr [.arr [.str "C3", .str "Initech"]])])) ∧
    ∃ records last,
      (getRangeData "RANGECUSTOMERS" (worldAnswering (Grid.response exampleCustomers))).1
        = .ok records ∧
      (getRangeData "RANGECUSTOMERS" (worldAnswering (Grid.response (Grid.append
        exampleCustomers
        (JsVal.toJSON (.obj [("values", .arr [.arr [.str "C3", .str "Initech"]])])))))).1
        = .ok (records ++ [last]) ∧
      ∀ (j : Nat) h, [JsVal.str "Customer ID", .str "Customer Name"][j]? = some h →
        h.toJsString ≠ "__proto__" →
        (∀ (j2 : Nat) h2, j < j2 →
          [JsVal.str "Customer ID", .str "Customer Name"][j2]? = some h2 →
          h2.toJsString ≠ h.toJsString) →
        ∀ c, [JsVal.str "C3", .str "Initech"][j]? = some c →
          last.get h.toJsString = c.toJSONItem ∧
          (c.isJsonScalar = true → last.get h.toJsString = c) :=
  append_then_read "RANGECUSTOMERS" "RANGECUSTOMERS"
    [.str "Customer ID", .str "Customer Name"]
    [[.str "C1", .str "Acme"], [.str "C2", .str "Globex"]] [.str "C3", .str "Initech"]
    appendWorld (worldAnswering (Grid.response exampleCustomers)) _ [] [] rfl rfl

/-- Counterexample to C5 as stated.  Under the header `Name, Name` the appended sequence
`Acme, Globex` reads back as a record that maps `H[0] = Name` to `Globex`, not to
`v[0] = Acme`; under the header `Name` the appended sequence holding `undefined`
reads back as a record that maps `Name` to `null`, not to `undefined`; and under the
header `__proto__, Name` the appended sequence `x, Acme` reads back as a record with the
single property `Name`. -/
theorem append_then_read_counterexample :
    ((getRangeData "RANGECUSTOMERS" (worldAnswering (Grid.response (Grid.append
        duplicateHeaderGrid
        (JsVal.toJSON (.obj [("values", .arr [.arr [.str "Acme", .str "Globex"]])])))))).1
        = .ok [[("Name", .str "Globex")]] ∧
      Record.get [("Name", .str "Globex")] "Name" ≠ .str "Acme") ∧
    ((getRangeData "RANGECUSTOMERS" (worldAnswering (Grid.response (Grid.append
        nameGrid (JsVal.toJSON (.obj [("values", .arr [.arr [.undefined]])])))))).1
        = .ok [[("Name", .null)]] ∧
      Record.get [("Name", .null)] "Name" ≠ .undefined) ∧
    (getRangeData "RANGECUSTOMERS" (worldAnswering (Grid.response (Grid.append
        protoColumnGrid
        (JsVal.toJSON (.obj [("values", .arr [.arr [.str "x", .str "Acme"]])])))))).1
      = .ok [[("Name", .str "Acme")]] := by
  decide

/-! ## Records that cannot be located -/

theorem findIndex_add_two_lt_two {α : Type} (p : α → Bool) (xs : List α) :
    findIndex p xs + 2 < 2 ↔ ¬ ∃ x ∈ xs, p x = true := by
  constructor
  · intro hlt hex
    obtain ⟨i, x, -, -, -, hgo⟩ := findIndex.go_some p xs 0 hex
    unfold findIndex at hlt
    rw [hgo] at hlt
    omega
  · intro hno
    have hall : ∀ x ∈ xs, p x = false := by
      intro x hx
      cases hpx : p x with
      | false => rfl
      | true => exact absurd ⟨x, hx, hpx⟩ hno
    unfold findIndex
    rw [findIndex.go_none p xs 0 hall]
    decide

theorem findRowIndex_lt_two_iff (field : String) (data : List Record) (id : JsVal) :
    findIndex (fun row => (Record.get row field).strictEq id) data + 2 < 2
      ↔ ¬ HasId field data id :=
  findIndex_add_two_lt_two _ data

theorem customers_handleSubmit_not_found
    (refreshSharedData : World → Except JsError Unit × World)
    (s : Customers.State) (editingCustomer : Record) (w : World)
    (hid : (s.formData.get "Customer ID").truthy = true)
    (hname : (s.formData.get "Customer Name").truthy = true)
    (hstate : (s.formData.get "State").truthy = true)
    (hcity : (s.formData.get "City").truthy = true)
    (hedit : s.editingCustomer = some editingCustomer)
    (hnone : ¬ HasId "Customer ID" s.customers (editingCustomer.get "Customer ID")) :
    Customers.handleSubmit refreshSharedData s w =
      ({ s with error := some "Could not find the customer to update.", loading := false },
        alert "Error: Could not find the customer to update." w) := by
  have hlt : Customers.findRowIndex s.customers (editingCustomer.get "Customer ID") < 2 :=
    (findRowIndex_lt_two_iff "Customer ID" _ _).mpr hnone
  simp [Customers.handleSubmit, Customers.handleSubmit.attempt, hid, hname, hstate, hcity,
    hedit, hlt, JsError.message]

theorem suppliers_handleSubmit_not_found
    (refreshSharedData : World → Except JsError Unit × World)
    (s : Suppliers.State) (editingSupplier : Record) (w : World)
    (hid : (s.formData.get "Supplier ID").truthy = true)
    (hname : (s.formData.get "Supplier Name").truthy = true)
    (hstate : (s.formData.get "State").truthy = true)
    (hcity : (s.formData.get "City").truthy = true)
    (hedit : s.editingSupplier = some editingSupplier)
    (hnone : ¬ HasId "Supplier ID" s.suppliers (editingSupplier.get "Supplier ID")) :
    Suppliers.handleSubmit refreshSharedData s w =
      ({ s with error := some "Could not find supplier to update.", loading := false },
        alert "Error: Could not find supplier to update." w) := by
  have hlt : Suppliers.findRowIndex s.suppliers (editingSupplier.get "Supplier ID") < 2 :=
    (findRowIndex_lt_two_iff "Supplier ID" _ _).mpr hnone
  simp [Suppliers.handleSubmit, Suppliers.handleSubmit.attempt, hid, hname, hstate, hcity,
    hedit, hlt, JsError.message]

theorem users_handleSubmit_not_found (random : ℚ) (today : JsVal)
    (s : Users.State) (editingUser : Record) (w : World)
    (hname : (s.formData.get "Name").truthy = true)
    (hemail : (s.formData.get "Email").truthy = true)
    (hrole : (s.formData.get "Role").truthy = true)
    (hedit : s.editingUser = some editingUser)
    (hnone : ¬ HasId "UserID" s.users (editingUser.get "UserID")) :
    Users.handleSubmit random today s w =
      ({ s with error := some "Could not find the user to update.", loading := false },
        alert "Error: Could not find the user to update." w) := by
  have hlt : Users.findRowIndex s.users (editingUser.get "UserID") < 2 :=
    (findRowIndex_lt_two_iff "UserID" _ _).mpr hnone
  simp [Users.handleSubmit, Users.handleSubmit.attempt, hname, hemail, hrole,
    hedit, hlt, JsError.message]

theorem users_handleDelete_not_found (s : Users.State) (userId : JsVal) (w : World)
    (hnone : ¬ HasId "UserID" s.users userId) :
    Users.handleDelete true s userId w =
      ({ s with error := some "Could not find user to delete.", loading := false },
        alert "Error: Could not find user to delete." w) := by
  have hlt : Users.findRowIndex s.users userId < 2 :=
    (findRowIndex_lt_two_iff "UserID" _ _).mpr hnone
  simp [Users.handleDelete, Users.handleDelete.attempt, hlt, JsError.message]

theorem payments_handleDeletePayment_not_found
    (refreshData : World → Except JsError Unit × World)
    (s : Payments.State) (trxId : JsVal) (w : World)
    (hnone : ¬ HasId "Trx ID" s.payments trxId) :
    Payments.handleDeletePayment refreshData true s trxId w =
      ({ s with error := some "Could not find payment to delete.", loading := false },
        alert "Error: Could not find payment to delete." w) := by
  have hlt : Payments.findRowIndex s.payments trxId < 2 :=
    (findRowIndex_lt_two_iff "Trx ID" _ _).mpr hnone
  simp [Payments.handleDeletePayment, Payments.handleDeletePayment.attempt, hlt,
    JsError.message]

theorem receipts_handleDeleteReceipt_not_found
    (refreshData : World → Except JsError Unit × World)
    (s : Receipts.State) (trxId : JsVal) (w : World)
    (hnone : ¬ HasId "Trx ID" s.receipts trxId) :
    Receipts.handleDeleteReceipt refreshData true s trxId w =
      ({ s with error := some "Could not find receipt to delete.", loading := false },
        alert "Error: Could not find receipt to delete." w) := by
  have hlt : Receipts.findRowIndex s.receipts trxId < 2 :=
    (findRowIndex_lt_two_iff "Trx ID" _ _).mpr hnone
  simp [Receipts.handleDeleteReceipt, Receipts.handleDeleteReceipt.attempt, hlt,
    JsError.message]

/-- C9: `findRowIndex(data, id) < 2` holds exactly when no record of the loaded
collection has the identifier; and then the edit branch of `handleSubmit` (Customers,
Suppliers, Users, reached once the required form fields are filled) and the confirmed
delete handlers of Users, Payments and Receipts record the error `Could not find ...`,
show it in an alert, and send no request at all, so neither `updateRow` nor `deleteRow`
is called. -/
theorem not_found_guard :
    (∀ (data : List Record) (id : JsVal),
      (Customers.findRowIndex data id < 2 ↔ ¬ HasId "Customer ID" data id) ∧
      (Suppliers.findRowIndex data id < 2 ↔ ¬ HasId "Supplier ID" data id) ∧
      (Users.findRowIndex data id < 2 ↔ ¬ HasId "UserID" data id) ∧
      (Payments.findRowIndex data id < 2 ↔ ¬ HasId "Trx ID" data id) ∧
      (Receipts.findRowIndex data id < 2 ↔ ¬ HasId "Trx ID" data id)) ∧
    (∀ (refreshSharedData : World → Except JsError Unit × World) (s : Customers.State)
        (editingCustomer : Record) (w : World),
      (s.formData.get "Customer ID").truthy = true →
      (s.formData.get "Customer Name").truthy = true →
      (s.formData.get "State").truthy = true →
      (s.formData.get "City").truthy = true →
      s.editingCustomer = some editingCustomer →
      Customers.findRowIndex s.customers (editingCustomer.get "Customer ID") < 2 →
      (Customers.handleSubmit refreshSharedData s w).1.error
          = some "Could not find the customer to update." ∧
        (Customers.handleSubmit refreshSharedData s w).2.sent = w.sent ∧
        (Customers.handleSubmit refreshSharedData s w).2.alerts
          = w.alerts ++ ["Error: Could not find the customer to update."]) ∧
    (∀ (refreshSharedData : World → Except JsError Unit × World) (s : Suppliers.State)
        (editingSupplier : Record) (w : World),
      (s.formData.get "Supplier ID").truthy = true →
      (s.formData.get "Supplier Name").truthy = true →
      (s.formData.get "State").truthy = true →
      (s.formData.get "City").truthy = true →
      s.editingSupplier = some editingSupplier →
      Suppliers.findRowIndex s.suppliers (editingSupplier.get "Supplier ID") < 2 →
      (Suppliers.handleSubmit refreshSharedData s w).1.error
          = some "Could not find supplier to update." ∧
        (Suppliers.handleSubmit refreshSharedData s w).2.sent = w.sent ∧
        (Suppliers.handleSubmit refreshSharedData s w).2.alerts
          = w.alerts ++ ["Error: Could not find supplier to update."]) ∧
    (∀ (random : ℚ) (today : JsVal) (s : Users.State) (editingUser : Record) (w : World),
      (s.formData.get "Name").truthy = true →
      (s.formData.get "Email").truthy = true →
      (s.formData.get "Role").truthy = true →
      s.editingUser = some editingUser →
      Users.findRowIndex s.users (editingUser.get "UserID") < 2 →
      (Users.handleSubmit random today s w).1.error
          = some "Could not find the user to update." ∧
        (Users.handleSubmit random today s w).2.sent = w.sent ∧
        (Users.handleSubmit random today s w).2.alerts
          = w.alerts ++ ["Error: Could not find the user to update."]) ∧
    (∀ (s : Users.State) (userId : JsVal) (w : World),
      Users.findRowIndex s.users userId < 2 →
      (Users.handleDelete true s userId w).1.error = some "Could not find user to delete." ∧
        (Users.handleDelete true s userId w).2.sent = w.sent ∧
        (Users.handleDelete true s userId w).2.alerts
          = w.alerts ++ ["Error: Could not find user to delete."]) ∧
    (∀ (refreshData : World → Except JsError Unit × World) (s : Payments.State)
        (trxId : JsVal) (w : World),
      Payments.findRowIndex s.payments trxId < 2 →
      (Payments.handleDeletePayment refreshData true s trxId w).1.error
          = some "Could not find payment to delete." ∧
        (Payments.handleDeletePayment refreshData true s trxId w).2.sent = w.sent ∧
        (Payments.handleDeletePayment refreshData true s trxId w).2.alerts
          = w.alerts ++ ["Error: Could not find payment to delete."]) ∧
    (∀ (refreshData : World → Except JsError Unit × World) (s : Receipts.State)
        (trxId : JsVal) (w : World),
      Receipts.findRowIndex s.receipts trxId < 2 →
      (Receipts.handleDeleteReceipt refreshData true s trxId w).1.error
          = some "Could not find receipt to delete." ∧
        (Receipts.handleDeleteReceipt refreshData true s trxId w).2.sent = w.sent ∧
        (Receipts.handleDeleteReceipt refreshData true s trxId w).2.alerts
          = w.alerts ++ ["Error: Could not find receipt to delete."]) := by
  refine ⟨fun data id => ⟨findRowIndex_lt_two_iff _ data id, findRowIndex_lt_two_iff _ data id,
    findRowIndex_lt_two_iff _ data id, findRowIndex_lt_two_iff _ data id,
    findRowIndex_lt_two_iff _ data id⟩, ?_, ?_, ?_, ?_, ?_, ?_⟩
  · intro refresh s ec w h1 h2 h3 h4 hedit hlt
    rw [customers_handleSubmit_not_found refresh s ec w h1 h2 h3 h4 hedit
      ((findRowIndex_lt_two_iff "Customer ID" _ _).mp hlt)]
    exact ⟨rfl, rfl, rfl⟩
  · intro refresh s es w h1 h2 h3 h4 hedit hlt
    rw [suppliers_handleSubmit_not_found refresh s es w h1 h2 h3 h4 hedit
      ((findRowIndex_lt_two_iff "Supplier ID" _ _).mp hlt)]
    exact ⟨rfl, rfl, rfl⟩
  · intro random today s eu w h1 h2 h3 hedit hlt
    rw [users_handleSubmit_not_found random today s eu w h1 h2 h3 hedit
      ((findRowIndex_lt_two_iff "UserID" _ _).mp hlt)]
    exact ⟨rfl, rfl, rfl⟩
  · intro s userId w hlt
    rw [users_handleDelete_not_found s userId w ((findRowIndex_lt_two_iff "UserID" _ _).mp hlt)]
    exact ⟨rfl, rfl, rfl⟩
  · intro refresh s trxId w hlt
    rw [payments_handleDeletePayment_not_found refresh s trxId w
      ((findRowIndex_lt_two_iff "Trx ID" _ _).mp hlt)]
    exact ⟨rfl, rfl, rfl⟩
  · intro refresh s trxId w hlt
    rw [receipts_handleDeleteReceipt_not_found refresh s trxId w
      ((findRowIndex_lt_two_iff "Trx ID" _ _).mp hlt)]
    exact ⟨rfl, rfl, rfl⟩

/-- Witness of C9: deleting the user `U9999`, who is not among the loaded users. -/
theorem not_found_guard_witness :
    Users.findRowIndex exampleUsersState.users (.str "U9999") < 2 ∧
      (Users.handleDelete true exampleUsersState (.str "U9999") appendWorld).1.error
        = some "Could not find user to delete." ∧
      (Users.handleDelete true exampleUsersState (.str "U9999") appendWorld).2.sent
        = appendWorld.sent ∧
      (Users.handleDelete true exampleUsersState (.str "U9999") appendWorld).2.alerts
        = appendWorld.alerts ++ ["Error: Could not find user to delete."] :=
  ⟨by decide,
    not_found_guard.2.2.2.2.1 exampleUsersState (.str "U9999") appendWorld (by decide)⟩

/-! ## Row index and the search filter -/

theorem customers_handleSubmit_attempt_congr
    (refreshSharedData : World → Except JsError Unit × World)
    (s1 s2 : Customers.State) (w : World)
    (hc : s1.customers = s2.customers) (he : s1.editingCustomer = s2.editingCustomer)
    (hf : s1.formData = s2.formData) :
    (Customers.handleSubmit.attempt refreshSharedData s1 w).1
        = (Customers.handleSubmit.attempt refreshSharedData s2 w).1 ∧
      (Customers.handleSubmit.attempt refreshSharedData s1 w).2.2
        = (Customers.handleSubmit.attempt refreshSharedData s2 w).2.2 := by
  obtain ⟨c1, l1, e1, m1, ed1, f1, fc1, st1⟩ := s1
  obtain ⟨c2, l2, e2, m2, ed2, f2, fc2, st2⟩ := s2
  simp only at hc he hf
  subst hc he hf
  simp only [Customers.handleSubmit.attempt, Customers.fetchCustomers]
  cases ed1 with
  | none =>
    simp only
    generalize appendRow _ _ w = written
    obtain ⟨res, w1⟩ := written
    cases res with
    | error e => exact ⟨rfl, rfl⟩
    | ok a =>
      simp only
      generalize getRangeData _ w1 = rd
      obtain ⟨d, w2⟩ := rd
      cases d <;> simp only <;> generalize refreshSharedData w2 = rf <;>
        obtain ⟨r, w3⟩ := rf <;> cases r <;> exact ⟨rfl, rfl⟩
  | some ec =>
    simp only
    by_cases hlt : Customers.findRowIndex c1 (Record.get ec "Customer ID") < 2
    · simp [hlt]
    · simp only [hlt, if_false]
      generalize updateRow _ _ w = written
      obtain ⟨res, w1⟩ := written
      cases res with
      | error e => exact ⟨rfl, rfl⟩
      | ok a =>
        simp only
        generalize getRangeData _ w1 = rd
        obtain ⟨d, w2⟩ := rd
        cases d <;> simp only <;> generalize refreshSharedData w2 = rf <;>
          obtain ⟨r, w3⟩ := rf <;> cases r <;> exact ⟨rfl, rfl⟩

theorem customers_handleSubmit_world (refreshSharedData : World → Except JsError Unit × World)
    (s1 s2 : Customers.State) (w : World)
    (hc : s1.customers = s2.customers) (he : s1.editingCustomer = s2.editingCustomer)
    (hf : s1.formData = s2.formData) :
    (Customers.handleSubmit refreshSharedData s1 w).2
      = (Customers.handleSubmit refreshSharedData s2 w).2 := by
  have hcongr := customers_handleSubmit_attempt_congr refreshSharedData
    { s1 with loading := true } { s2 with loading := true } w hc he hf
  revert hcongr
  unfold Customers.handleSubmit
  generalize Customers.handleSubmit.attempt refreshSharedData { s1 with loading := true } w = r1
  generalize Customers.handleSubmit.attempt refreshSharedData { s2 with loading := true } w = r2
  obtain ⟨a1, t1, v1⟩ := r1
  obtain ⟨a2, t2, v2⟩ := r2
  rintro ⟨h1, h2⟩
  simp only at h1 h2
  subst h1 h2
  rw [hf]
  simp only
  split
  · rfl
  · cases a1 <;> rfl

theorem customers_handleDelete_attempt_congr
    (refreshSharedData : World → Except JsError Unit × World)
    (s1 s2 : Customers.State) (customerId : JsVal) (w : World)
    (hc : s1.customers = s2.customers) :
    (Customers.handleDelete.attempt refreshSharedData s1 customerId w).1
        = (Customers.handleDelete.attempt refreshSharedData s2 customerId w).1 ∧
      (Customers.handleDelete.attempt refreshSharedData s1 customerId w).2.2
        = (Customers.handleDelete.attempt refreshSharedData s2 customerId w).2.2 := by
  obtain ⟨c1, l1, e1, m1, ed1, f1, fc1, st1⟩ := s1
  obtain ⟨c2, l2, e2, m2, ed2, f2, fc2, st2⟩ := s2
  simp only at hc
  subst hc
  simp only [Customers.handleDelete.attempt, Customers.fetchCustomers]
  by_cases hlt : Customers.findRowIndex c1 customerId < 2
  · simp [hlt]
  · simp only [hlt, if_false]
    generalize deleteRow _ _ w = deleted
    obtain ⟨res, w1⟩ := deleted
    cases res with
    | error e => exact ⟨rfl, rfl⟩
    | ok a =>
      simp only
      generalize getRangeData _ w1 = rd
      obtain ⟨d, w2⟩ := rd
      cases d <;> simp only <;> generalize refreshSharedData w2 = rf <;>
        obtain ⟨r, w3⟩ := rf <;> cases r <;> exact ⟨rfl, rfl⟩

theorem customers_handleDelete_world
    (refreshSharedData : World → Except JsError Unit × World)
    (parseFloat : String → JsNumber) (confirm : Bool)
    (s1 s2 : Customers.State) (customerId : JsVal) (w : World)
    (hc : s1.customers = s2.customers) :
    (Customers.handleDelete refreshSharedData parseFloat confirm s1 customerId w).map Prod.snd
      = (Customers.handleDelete refreshSharedData parseFloat confirm s2 customerId w).map
          Prod.snd := by
  have hcongr := customers_handleDelete_attempt_congr refreshSharedData
    { s1 with loading := true } { s2 with loading := true } customerId w hc
  revert hcongr
  unfold Customers.handleDelete
  generalize Customers.handleDelete.attempt refreshSharedData { s1 with loading := true }
    customerId w = r1
  generalize Customers.handleDelete.attempt refreshSharedData { s2 with loading := true }
    customerId w = r2
  obtain ⟨a1, t1, v1⟩ := r1
  obtain ⟨a2, t2, v2⟩ := r2
  rintro ⟨h1, h2⟩
  simp only at h1 h2
  subst h1 h2
  rw [hc]
  cases find (fun c => (Record.get c "Customer ID").strictEq customerId) s2.customers with
  | none => rfl
  | some customerToDelete =>
    simp only
    split
    · rfl
    · cases confirm
      · rfl
      · cases a1 <;> rfl

theorem getRangeData_sent (rangeName : String) (w : World) :
    ∃ req, (getRangeData rangeName w).2.sent = w.sent ++ [req] := by
  refine ⟨{ method := "GET"
            url := "https://sheets.googleapis.com/v4/spreadsheets/" ++ w.spreadsheetId
              ++ "/values/" ++ rangeName
            authorization := "Bearer " ++ (getAccessToken w).toJsString
            contentType := none
            body := .undefined }, ?_⟩
  simp only [getRangeData, fetch]
  cases hp : w.pending with
  | nil => rfl
  | cons answer rest =>
    cases answer with
    | error e => rfl
    | ok response =>
      simp only
      cases hok : response.ok with
      | false => rfl
      | true =>
        cases hjson : response.json <;> simp

theorem updateRow_sent (range : String) (values : List JsVal) (w : World) :
    ∃ req, (updateRow range values w).2.sent = w.sent ++ [req] ∧
      req.method = "PUT" ∧
      req.url = "https://sheets.googleapis.com/v4/spreadsheets/" ++ w.spreadsheetId
        ++ "/values/" ++ range ++ "?valueInputOption=USER_ENTERED" ∧
      req.body = JsVal.toJSON (.obj [("values", .arr [.arr values])]) := by
  refine ⟨{ method := "PUT"
            url := "https://sheets.googleapis.com/v4/spreadsheets/" ++ w.spreadsheetId
              ++ "/values/" ++ range ++ "?valueInputOption=USER_ENTERED"
            authorization := "Bearer " ++ (getAccessToken w).toJsString
            contentType := some "application/json"
            body := JsVal.toJSON (.obj [("values", .arr [.arr values])]) }, ?_, rfl, rfl, rfl⟩
  simp only [updateRow, fetch]
  cases hp : w.pending with
  | nil => rfl
  | cons answer rest =>
    cases answer with
    | error e => rfl
    | ok response =>
      simp only
      cases hok : response.ok with
      | false => rfl
      | true =>
        cases hjson : response.json <;> simp

theorem find_first {α : Type} (p : α → Bool) :
    ∀ (xs : List α) (i : Nat) (x : α), xs[i]? = some x → p x = true →
      (∀ (j : Nat) y, j < i → xs[j]? = some y → p y = false) → find p xs = some x := by
  intro xs
  induction xs with
  | nil => intro i x hx; simp at hx
  | cons a rest ih =>
    intro i x hx hp hbefore
    cases i with
    | zero =>
      simp only [List.getElem?_cons_zero, Option.some.injEq] at hx
      subst hx
      simp [find, hp]
    | succ n =>
      have ha : p a = false := hbefore 0 a (Nat.succ_pos n) (by simp)
      simp only [List.getElem?_cons_succ] at hx
      simp only [find, ha, Bool.false_eq_true, if_false]
      exact ih n x hx hp (fun j y hj hy => hbefore (j + 1) y (by omega) (by simpa using hy))

theorem customers_fetchCustomers_snd (s : Customers.State) (w : World) :
    (Customers.fetchCustomers s w).2 = (getRangeData Customers.CUSTOMERS_RANGE w).2 := by
  unfold Customers.fetchCustomers
  generalize getRangeData Customers.CUSTOMERS_RANGE w = rd
  obtain ⟨d, w1⟩ := rd
  cases d <;> rfl

/-- After a successful mutating call the handlers of the customers page only fetch and
refresh: the log of requests is extended. -/
theorem customers_after_write_sent
    (refreshSharedData : World → Except JsError Unit × World)
    (hrefresh : ∀ w0, ∃ more, (refreshSharedData w0).2.sent = w0.sent ++ more)
    (w1 : World) :
    ∃ more, (refreshSharedData (getRangeData Customers.CUSTOMERS_RANGE w1).2).2.sent
      = w1.sent ++ more := by
  obtain ⟨req, hreq⟩ := getRangeData_sent Customers.CUSTOMERS_RANGE w1
  obtain ⟨more, hmore⟩ := hrefresh (getRangeData Customers.CUSTOMERS_RANGE w1).2
  exact ⟨req :: more, by rw [hmore, hreq]; simp⟩

theorem customers_handleSubmit_edit_sent
    (refreshSharedData : World → Except JsError Unit × World)
    (hrefresh : ∀ w0, ∃ more, (refreshSharedData w0).2.sent = w0.sent ++ more)
    (s : Customers.State) (editingCustomer : Record) (i : Nat) (w : World)
    (hid : (s.formData.get "Customer ID").truthy = true)
    (hname : (s.formData.get "Customer Name").truthy = true)
    (hstate : (s.formData.get "State").truthy = true)
    (hcity : (s.formData.get "City").truthy = true)
    (hedit : s.editingCustomer = some editingCustomer)
    (hfirst : IsFirstWithId "Customer ID" s.customers (editingCustomer.get "Customer ID") i) :
    ∃ req more, (Customers.handleSubmit refreshSharedData s w).2.sent = w.sent ++ req :: more ∧
      req.method = "PUT" ∧
      req.url = "https://sheets.googleapis.com/v4/spreadsheets/" ++ w.spreadsheetId
        ++ "/values/" ++ ("Customers" ++ "!A" ++ toString ((i : Int) + 2) ++ ":G"
          ++ toString ((i : Int) + 2)) ++ "?valueInputOption=USER_ENTERED" := by
  have hrow : Customers.findRowIndex s.customers (editingCustomer.get "Customer ID")
      = (i : Int) + 2 := findRowIndex_of_first "Customer ID" _ _ i hfirst
  have hlt : ¬ ((i : Int) + 2 < 2) := by omega
  obtain ⟨req, hsent, hmethod, hurl, -⟩ := updateRow_sent
    (Customers.CUSTOMERS_SHEET_NAME ++ "!A" ++ (JsVal.num ((i : Int) + 2)).toJsString
      ++ ":G" ++ (JsVal.num ((i : Int) + 2)).toJsString)
    [s.formData.get "Customer ID", s.formData.get "Customer Name",
      s.formData.get "Customer Contact", s.formData.get "Customer Email",
      s.formData.get "State", s.formData.get "City", s.formData.get "Customer Address"] w
  have hurl2 : req.url = "https://sheets.googleapis.com/v4/spreadsheets/" ++ w.spreadsheetId
      ++ "/values/" ++ ("Customers" ++ "!A" ++ toString ((i : Int) + 2) ++ ":G"
        ++ toString ((i : Int) + 2)) ++ "?valueInputOption=USER_ENTERED" := hurl
  simp only [Customers.handleSubmit, Customers.handleSubmit.attempt, hid, hname, hstate, hcity,
    hedit, hrow, hlt, Bool.not_true, Bool.or_self, Bool.false_eq_true, if_false]
  revert hsent
  generalize updateRow _ _ w = written
  obtain ⟨res, w1⟩ := written
  intro hsent
  simp only at hsent
  cases res with
  | error e => exact ⟨req, [], by simpa [alert] using hsent, hmethod, hurl2⟩
  | ok a =>
    obtain ⟨more, hmore⟩ := customers_after_write_sent refreshSharedData hrefresh w1
    refine ⟨req, more, ?_, hmethod, hurl2⟩
    simp only
    generalize hfe : Customers.fetchCustomers _ w1 = fetched
    have hsnd := congrArg Prod.snd hfe
    rw [customers_fetchCustomers_snd] at hsnd
    obtain ⟨s2, w2⟩ := fetched
    simp only at hsnd
    rw [hsnd] at hmore
    revert hmore
    generalize refreshSharedData w2 = rf
    obtain ⟨r, w3⟩ := rf
    intro hmore
    simp only at hmore
    cases r <;> simp [alert, hmore, hsent]

theorem customers_handleDelete_sent
    (refreshSharedData : World → Except JsError Unit × World)
    (hrefresh : ∀ w0, ∃ more, (refreshSharedData w0).2.sent = w0.sent ++ more)
    (parseFloat : String → JsNumber)
    (s : Customers.State) (customerId : JsVal) (i : Nat) (w : World)
    (hfirst : IsFirstWithId "Customer ID" s.customers customerId i)
    (hbalance : ∀ r, s.customers[i]? = some r →
      (parseFloat ((r.get "Balance Receivable").or (.num 0)).toJsString).gt (.finite 0)
        = false) :
    ∃ result more,
      Customers.handleDelete refreshSharedData parseFloat true s customerId w = .ok result ∧
      result.2.sent = (deleteRow "Customers" ((i : Int) + 2) w).2.sent ++ more := by
  have hrow : Customers.findRowIndex s.customers customerId = (i : Int) + 2 :=
    findRowIndex_of_first "Customer ID" _ _ i hfirst
  have hlt : ¬ ((i : Int) + 2 < 2) := by omega
  obtain ⟨⟨r, hr, hp⟩, hbefore⟩ := hfirst
  have hfind : find (fun c => (Record.get c "Customer ID").strictEq customerId) s.customers
      = some r := find_first _ s.customers i r hr hp hbefore
  have hbal := hbalance r hr
  simp only [Customers.handleDelete, Customers.handleDelete.attempt, hfind, hbal, hrow, hlt,
    Bool.false_eq_true, if_false, if_true, Customers.CUSTOMERS_SHEET_NAME]
  generalize deleteRow "Customers" ((i : Int) + 2) w = deleted
  obtain ⟨res, w1⟩ := deleted
  cases res with
  | error e => exact ⟨_, [], rfl, by simp [alert]⟩
  | ok a =>
    obtain ⟨more, hmore⟩ := customers_after_write_sent refreshSharedData hrefresh w1
    simp only
    generalize hfe : Customers.fetchCustomers _ w1 = fetched
    have hsnd := congrArg Prod.snd hfe
    rw [customers_fetchCustomers_snd] at hsnd
    obtain ⟨s2, w2⟩ := fetched
    simp only at hsnd
    rw [hsnd] at hmore
    revert hmore
    generalize refreshSharedData w2 = rf
    obtain ⟨r2, w3⟩ := rf
    intro hmore
    simp only at hmore
    cases r2 with
    | error e => exact ⟨_, more, rfl, by simp [alert, hmore]⟩
    | ok u => exact ⟨_, more, rfl, by simp [hmore]⟩

/-- C10: the row index that the customers page passes to `updateRow` and `deleteRow` is
computed against the loaded collection, not the filtered list.  Two page states that
agree on the loaded customers, the edited customer and the form leave the same world
behind `handleSubmit`, and two that agree on the loaded customers leave the same world
behind `handleDelete`, whatever their `searchTerm` and `filterColumn`; and when the
target first occurs at position `i` of the loaded customers, the edit writes the range
`Customers!A(i+2):G(i+2)` and the delete calls `deleteRow("Customers", i + 2)`. -/
theorem rowIndex_ignores_filter :
    (∀ (refreshSharedData : World → Except JsError Unit × World)
        (s1 s2 : Customers.State) (w : World),
      s1.customers = s2.customers → s1.editingCustomer = s2.editingCustomer →
      s1.formData = s2.formData →
      (Customers.handleSubmit refreshSharedData s1 w).2
        = (Customers.handleSubmit refreshSharedData s2 w).2) ∧
    (∀ (refreshSharedData : World → Except JsError Unit × World)
        (parseFloat : String → JsNumber) (confirm : Bool)
        (s1 s2 : Customers.State) (customerId : JsVal) (w : World),
      s1.customers = s2.customers →
      (Customers.handleDelete refreshSharedData parseFloat confirm s1 customerId w).map Prod.snd
        = (Customers.handleDelete refreshSharedData parseFloat confirm s2 customerId w).map
            Prod.snd) ∧
    (∀ (refreshSharedData : World → Except JsError Unit × World)
        (s : Customers.State) (editingCustomer : Record) (i : Nat) (w : World),
      (∀ w0, ∃ more, (refreshSharedData w0).2.sent = w0.sent ++ more) →
      (s.formData.get "Customer ID").truthy = true →
      (s.formData.get "Customer Name").truthy = true →
      (s.formData.get "State").truthy = true →
      (s.formData.get "City").truthy = true →
      s.editingCustomer = some editingCustomer →
      IsFirstWithId "Customer ID" s.customers (editingCustomer.get "Customer ID") i →
      ∃ req more,
        (Customers.handleSubmit refreshSharedData s w).2.sent = w.sent ++ req :: more ∧
        req.method = "PUT" ∧
        req.url = "https://sheets.googleapis.com/v4/spreadsheets/" ++ w.spreadsheetId
          ++ "/values/" ++ ("Customers" ++ "!A" ++ toString ((i : Int) + 2) ++ ":G"
            ++ toString ((i : Int) + 2)) ++ "?valueInputOption=USER_ENTERED") ∧
    (∀ (refreshSharedData : World → Except JsError Unit × World)
        (parseFloat : String → JsNumber)
        (s : Customers.State) (customerId : JsVal) (i : Nat) (w : World),
      (∀ w0, ∃ more, (refreshSharedData w0).2.sent = w0.sent ++ more) →
      IsFirstWithId "Customer ID" s.customers customerId i →
      (∀ r, s.customers[i]? = some r →
        (parseFloat ((r.get "Balance Receivable").or (.num 0)).toJsString).gt (.finite 0)
          = false) →
      ∃ result more,
        Customers.handleDelete refreshSharedData parseFloat true s customerId w = .ok result ∧
        result.2.sent = (deleteRow "Customers" ((i : Int) + 2) w).2.sent ++ more) :=
  ⟨customers_handleSubmit_world,
    customers_handleDelete_world,
    fun refresh s ec i w hrefresh h1 h2 h3 h4 hedit hfirst =>
      customers_handleSubmit_edit_sent refresh hrefresh s ec i w h1 h2 h3 h4 hedit hfirst,
    fun refresh pf s id i w hrefresh hfirst hbal =>
      customers_handleDelete_sent refresh hrefresh pf s id i w hfirst hbal⟩

/-- Witness of C10: editing customer `C2`, at position 1 of the loaded customers, while
the list is filtered by the search term `glob`: the range written is `Customers!A3:G3`. -/
theorem rowIndex_ignores_filter_witness :
    exampleCustomersState.searchTerm = "glob" ∧
    IsFirstWithId "Customer ID" exampleCustomersState.customers (.str "C2") 1 ∧
    ∃ req more,
      (Customers.handleSubmit noRefresh exampleCustomersState appendWorld).2.sent
        = appendWorld.sent ++ req :: more ∧
      req.method = "PUT" ∧
      req.url = "https://sheets.googleapis.com/v4/spreadsheets/" ++ appendWorld.spreadsheetId
        ++ "/values/" ++ ("Customers" ++ "!A" ++ toString (((1 : Nat) : Int) + 2) ++ ":G"
          ++ toString (((1 : Nat) : Int) + 2)) ++ "?valueInputOption=USER_ENTERED" :=
  ⟨rfl, exampleRecords_first_C2,
    rowIndex_ignores_filter.2.2.1 noRefresh exampleCustomersState
      [("Customer ID", .str "C2"), ("Customer Name", .str "Globex")] 1 appendWorld
      (fun w0 => ⟨[], by simp [noRefresh]⟩) (by decide) (by decide) (by decide) (by decide)
      rfl exampleRecords_first_C2⟩

/-! ## Remote errors -/

theorem apiError_message (response : Response) (errorData err m : JsVal)
    (hjson : response.json = .ok errorData)
    (herror : errorData.getField "error" = .ok err)
    (hmessage : err.getField "message" = .ok m) :
    apiError response = .error ("Google Sheets API error: " ++ m.toJsString) := by
  simp [apiError, hjson, herror, hmessage]

theorem getRangeData_not_ok (rangeName : String) (w : World) (response : Response)
    (rest : List (Except JsError Response))
    (hpending : w.pending = .ok response :: rest) (hok : response.ok = false) :
    (getRangeData rangeName w).1 = .error (apiError response) := by
  simp [getRangeData, fetch, hpending, hok]

theorem appendRow_not_ok (rangeName : String) (values : List JsVal) (w : World)
    (response : Response) (rest : List (Except JsError Response))
    (hpending : w.pending = .ok response :: rest) (hok : response.ok = false) :
    (appendRow rangeName values w).1 = .error (apiError response) := by
  simp [appendRow, fetch, hpending, hok]

theorem updateRow_not_ok (range : String) (values : List JsVal) (w : World)
    (response : Response) (rest : List (Except JsError Response))
    (hpending : w.pending = .ok response :: rest) (hok : response.ok = false) :
    (updateRow range values w).1 = .error (apiError response) := by
  simp [updateRow, fetch, hpending, hok]

theorem deleteRow_not_ok (sheetName : String) (rowIndex : Int) (w w1 : World)
    (sheetId : JsVal) (response : Response) (rest : List (Except JsError Response))
    (hsheet : getSheetId sheetName w = (.ok sheetId, w1))
    (hpending : w1.pending = .ok response :: rest) (hok : response.ok = false) :
    (deleteRow sheetName rowIndex w).1 = .error (apiError response) := by
  simp [deleteRow, hsheet, fetch, hpending, hok]

/-- C11: when the backend answers one of `getRangeData`, `appendRow`, `updateRow` or the
batch update of `deleteRow` with a non-success status and the body
`{ error: { message: m } }`, the operation returns no result: it throws the error whose
message is `Google Sheets API error: ` followed by `m` verbatim. -/
theorem remote_error_carries_message (w : World) (response : Response)
    (rest : List (Except JsError Response)) (errorData err : JsVal) (m : String)
    (hpending : w.pending = .ok response :: rest) (hok : response.ok = false)
    (hjson : response.json = .ok errorData)
    (herror : errorData.getField "error" = .ok err)
    (hmessage : err.getField "message" = .ok (.str m)) :
    (∀ rangeName, (getRangeData rangeName w).1
        = .error (.error ("Google Sheets API error: " ++ m))) ∧
    (∀ rangeName values, (appendRow rangeName values w).1
        = .error (.error ("Google Sheets API error: " ++ m))) ∧
    (∀ range values, (updateRow range values w).1
        = .error (.error ("Google Sheets API error: " ++ m))) ∧
    (∀ sheetName rowIndex w0 sheetId, getSheetId sheetName w0 = (.ok sheetId, w) →
      (deleteRow sheetName rowIndex w0).1
        = .error (.error ("Google Sheets API error: " ++ m))) ∧
    (JsError.error ("Google Sheets API error: " ++ m)).message
      = "Google Sheets API error: " ++ m := by
  have hm : apiError response = .error ("Google Sheets API error: " ++ m) :=
    apiError_message response errorData err (.str m) hjson herror hmessage
  refine ⟨?_, ?_, ?_, ?_, rfl⟩
  · intro rangeName
    rw [getRangeData_not_ok rangeName w response rest hpending hok, hm]
  · intro rangeName values
    rw [appendRow_not_ok rangeName values w response rest hpending hok, hm]
  · intro range values
    rw [updateRow_not_ok range values w response rest hpending hok, hm]
  · intro sheetName rowIndex w0 sheetId hsheet
    rw [deleteRow_not_ok sheetName rowIndex w0 w sheetId response rest hsheet hpending hok, hm]

/-- Witness of C11: the backend refuses each operation with the message `Quota exceeded`. -/
theorem remote_error_carries_message_witness :
    (getRangeData "RANGECUSTOMERS" (worldAnswering (errorResponse "Quota exceeded"))).1
        = .error (.error ("Google Sheets API error: " ++ "Quota exceeded")) ∧
    (appendRow "RANGECUSTOMERS" [.str "C3"] (worldAnswering (errorResponse "Quota exceeded"))).1
        = .error (.error ("Google Sheets API error: " ++ "Quota exceeded")) ∧
    (updateRow "Customers!A2:G2" [.str "C3"]
        (worldAnswering (errorResponse "Quota exceeded"))).1
        = .error (.error ("Google Sheets API error: " ++ "Quota exceeded")) :=
  ⟨(remote_error_carries_message (worldAnswering (errorResponse "Quota exceeded"))
      (errorResponse "Quota exceeded") [] _ _ "Quota exceeded" rfl rfl rfl rfl rfl).1 _,
    (remote_error_carries_message (worldAnswering (errorResponse "Quota exceeded"))
      (errorResponse "Quota exceeded") [] _ _ "Quota exceeded" rfl rfl rfl rfl rfl).2.1 _ _,
    (remote_error_carries_message (worldAnswering (errorResponse "Quota exceeded"))
      (errorResponse "Quota exceeded") [] _ _ "Quota exceeded" rfl rfl rfl rfl rfl).2.2.1 _ _⟩

/-! ## Sheet identifier resolution -/

theorem getSheetId_world (sheetName : String) (w : World) :
    (getSheetId sheetName w).2 = (fetch (metadataRequest w) w).2 := by
  unfold getSheetId
  simp only [metadataRequest]
  generalize fetch _ w = r
  obtain ⟨res, w1⟩ := r
  cases res with
  | error e => rfl
  | ok response =>
    simp only
    repeat' split
    all_goals rfl

theorem fetch_sent (req : Request) (w : World) : (fetch req w).2.sent = w.sent ++ [req] := by
  unfold fetch
  cases w.pending <;> rfl

theorem getSheetId_sent (sheetName : String) (w : World) :
    (getSheetId sheetName w).2.sent = w.sent ++ [metadataRequest w] := by
  rw [getSheetId_world, fetch_sent]

theorem getSheetId_not_ok (sheetName : String) (w : World) (response : Response)
    (rest : List (Except JsError Response))
    (hpending : w.pending = .ok response :: rest) (hok : response.ok = false) :
    (getSheetId sheetName w).1 = .error (.error "Could not fetch sheet metadata") := by
  simp [getSheetId, fetch, hpending, hok]

theorem deleteRow_of_getSheetId_error (sheetName : String) (rowIndex : Int) (w w1 : World)
    (e : JsError) (hsheet : getSheetId sheetName w = (.error e, w1)) :
    deleteRow sheetName rowIndex w = (.error e, w1) := by
  simp [deleteRow, hsheet]

/-- C12 in general: whatever the body of a non-success metadata answer, `deleteRow` fails
with the fixed message `Could not fetch sheet metadata` and sends nothing but the metadata
request. -/
theorem deleteRow_metadata_not_ok (sheetName : String) (rowIndex : Int) (w : World)
    (response : Response) (rest : List (Except JsError Response))
    (hpending : w.pending = .ok response :: rest) (hok : response.ok = false) :
    (deleteRow sheetName rowIndex w).1 = .error (.error "Could not fetch sheet metadata") ∧
      (deleteRow sheetName rowIndex w).2.sent = w.sent ++ [metadataRequest w] := by
  have h1 := getSheetId_not_ok sheetName w response rest hpending hok
  have h2 := getSheetId_sent sheetName w
  have hpair : getSheetId sheetName w
      = (.error (.error "Could not fetch sheet metadata"), (getSheetId sheetName w).2) := by
    rw [← h1]
  rw [deleteRow_of_getSheetId_error sheetName rowIndex w _ _ hpair]
  exact ⟨rfl, h2⟩

/-- C12 at the failing input: the metadata request is refused with the backend message
`The caller does not have permission`; `deleteRow` throws `Could not fetch sheet metadata`,
an error that does not carry the backend message. -/
theorem deleteRow_metadata_error_drops_message :
    (deleteRow "Customers" 3
        (worldAnswering (errorResponse "The caller does not have permission"))).1
      = .error (.error "Could not fetch sheet metadata") := by
  decide

theorem getSheetId_find_no_title (sheetName : String) :
    ∀ (sheets : List (String × JsVal)), (∀ entry ∈ sheets, entry.1 ≠ sheetName) →
      getSheetId.find sheetName (sheets.map (fun sheet => sheetEntry sheet.1 sheet.2))
        = .ok .undefined := by
  intro sheets
  induction sheets with
  | nil => intro _; rfl
  | cons entry rest ih =>
    intro h
    obtain ⟨title, id⟩ := entry
    have hne : title ≠ sheetName := h (title, id) (List.mem_cons_self _ _)
    have hrest := ih (fun e he => h e (List.mem_cons_of_mem _ he))
    simp [getSheetId.find, sheetEntry, JsVal.getField, JsVal.lookupField, JsVal.strictEq, hne]
    simpa [sheetEntry] using hrest

theorem getSheetId_not_found (sheetName : String) (w : World) (response : Response)
    (rest : List (Except JsError Response)) (sheets : List (String × JsVal))
    (hpending : w.pending = .ok response :: rest) (hok : response.ok = true)
    (hjson : response.json = .ok (metadataBody sheets))
    (hnone : ∀ entry ∈ sheets, entry.1 ≠ sheetName) :
    (getSheetId sheetName w).1
      = .error (.error ("Sheet with name \"" ++ sheetName ++ "\" not found.")) := by
  have hfind := getSheetId_find_no_title sheetName sheets hnone
  simp [getSheetId, fetch, hpending, hok, hjson, metadataBody, JsVal.getField,
    JsVal.lookupField, hfind, JsVal.truthy]

theorem strictEq_eq (a b : JsVal) (h : a.strictEq b = true) : a = b := by
  cases a <;> cases b <;> simp_all [JsVal.strictEq]

theorem sheetTitle_truthy (s : JsVal) (name : String)
    (h : sheetTitle s = .ok (.str name)) : s.truthy = true := by
  cases s with
  | obj fields => rfl
  | arr items => rfl
  | undefined => simp [sheetTitle, JsVal.getField] at h
  | null => simp [sheetTitle, JsVal.getField] at h
  | bool b => simp [sheetTitle, JsVal.getField] at h
  | num n => simp [sheetTitle, JsVal.getField] at h
  | str t => simp [sheetTitle, JsVal.getField] at h

theorem getSheetId_find_first (sheetName : String) :
    ∀ (sheets : List JsVal) (i : Nat) (s : JsVal), sheets[i]? = some s →
      sheetTitle s = .ok (.str sheetName) →
      (∀ (j : Nat) s2, j < i → sheets[j]? = some s2 →
        ∃ t, sheetTitle s2 = .ok t ∧ t ≠ .str sheetName) →
      getSheetId.find sheetName sheets = .ok s := by
  intro sheets
  induction sheets with
  | nil => intro i s hi; simp at hi
  | cons s0 rest ih =>
    intro i s hi htitle hbefore
    cases i with
    | zero =>
      simp only [List.getElem?_cons_zero, Option.some.injEq] at hi
      subst hi
      unfold sheetTitle at htitle
      unfold getSheetId.find
      cases hp : s0.getField "properties" with
      | error e => rw [hp] at htitle; cases htitle
      | ok properties =>
        rw [hp] at htitle
        simp only at htitle
        simp [htitle, JsVal.strictEq]
    | succ n =>
      obtain ⟨t, ht, hne⟩ := hbefore 0 s0 (Nat.succ_pos n) (by simp)
      simp only [List.getElem?_cons_succ] at hi
      have hrest := ih n s hi htitle
        (fun j s2 hj hs2 => hbefore (j + 1) s2 (by omega) (by simpa using hs2))
      unfold sheetTitle at ht
      unfold getSheetId.find
      cases hp : s0.getField "properties" with
      | error e => rw [hp] at ht; cases ht
      | ok properties =>
        rw [hp] at ht
        simp only at ht
        have hfalse : t.strictEq (.str sheetName) = false := by
          cases hs : t.strictEq (.str sheetName) with
          | false => rfl
          | true => exact absurd (strictEq_eq t (.str sheetName) hs) hne
        simp [ht, hfalse, hrest]

theorem getSheetId_find_none (sheetName : String) :
    ∀ (sheets : List JsVal),
      (∀ s ∈ sheets, ∃ t, sheetTitle s = .ok t ∧ t ≠ .str sheetName) →
      getSheetId.find sheetName sheets = .ok .undefined := by
  intro sheets
  induction sheets with
  | nil => intro _; rfl
  | cons s0 rest ih =>
    intro h
    obtain ⟨t, ht, hne⟩ := h s0 (List.mem_cons_self _ _)
    have hrest := ih (fun x hx => h x (List.mem_cons_of_mem _ hx))
    unfold sheetTitle at ht
    unfold getSheetId.find
    cases hp : s0.getField "properties" with
    | error e => rw [hp] at ht; cases ht
    | ok properties =>
      rw [hp] at ht
      simp only at ht
      have hfalse : t.strictEq (.str sheetName) = false := by
        cases hs : t.strictEq (.str sheetName) with
        | false => rfl
        | true => exact absurd (strictEq_eq t (.str sheetName) hs) hne
      simp [ht, hfalse, hrest]

/-- C13: for every successful metadata answer whose `sheets` is a list of entries with a
readable `properties.title`, whatever else the entries and the answer hold, `getSheetId`
returns `properties.sheetId` of the first entry whose title is exactly the name (so the
id `0` is returned like any other); and when no title is the name it throws the error
`Sheet with name "<name>" not found.`. -/
theorem getSheetId_first_title (sheetName : String) (w : World) (response : Response)
    (rest : List (Except JsError Response)) (spreadsheet : JsVal) (sheets : List JsVal)
    (hpending : w.pending = .ok response :: rest) (hok : response.ok = true)
    (hjson : response.json = .ok spreadsheet)
    (hsheets : spreadsheet.getField "sheets" = .ok (.arr sheets)) :
    (∀ (i : Nat) (s : JsVal), sheets[i]? = some s → sheetTitle s = .ok (.str sheetName) →
      (∀ (j : Nat) s2, j < i → sheets[j]? = some s2 →
        ∃ t, sheetTitle s2 = .ok t ∧ t ≠ .str sheetName) →
      (getSheetId sheetName w).1 = sheetIdOf s ∧
      ∀ sheetId, sheetIdOf s = .ok sheetId → (getSheetId sheetName w).1 = .ok sheetId) ∧
    ((∀ s ∈ sheets, ∃ t, sheetTitle s = .ok t ∧ t ≠ .str sheetName) →
      (getSheetId sheetName w).1
        = .error (.error ("Sheet with name \"" ++ sheetName ++ "\" not found."))) := by
  constructor
  · intro i s hi htitle hbefore
    have hfind := getSheetId_find_first sheetName sheets i s hi htitle hbefore
    have htruthy := sheetTitle_truthy s sheetName htitle
    have hres : (getSheetId sheetName w).1 = sheetIdOf s := by
      simp only [getSheetId, fetch, hpending, hok, hjson, hsheets, hfind, htruthy,
        Bool.not_true, Bool.false_eq_true, if_false, sheetIdOf]
      cases s.getField "properties" <;> rfl
    exact ⟨hres, fun sheetId hid => by rw [hres, hid]⟩
  · intro hnone
    have hfind := getSheetId_find_none sheetName sheets hnone
    simp [getSheetId, fetch, hpending, hok, hjson, hsheets, hfind, JsVal.truthy]

/-- Witness of C13: in an answer as the backend sends it, with two sheets titled
`Customers`, the name `Customers` resolves to the id `0` of the first of them, and
`Orders` is not found. -/
theorem getSheetId_first_title_witness :
    (getSheetId "Customers" (worldAnswering fullMetadataResponse)).1 = .ok (.num 0) ∧
      (getSheetId "Orders" (worldAnswering fullMetadataResponse)).1
        = .error (.error ("Sheet with name \"" ++ "Orders" ++ "\" not found.")) := by
  obtain ⟨hfound, hnone⟩ := getSheetId_first_title "Customers"
    (worldAnswering fullMetadataResponse) fullMetadataResponse []
    _ _ rfl rfl rfl rfl
  obtain ⟨-, hnone2⟩ := getSheetId_first_title "Orders"
    (worldAnswering fullMetadataResponse) fullMetadataResponse []
    _ _ rfl rfl rfl rfl
  refine ⟨(hfound 0 _ rfl (by decide)
    (fun j _ hj _ => absurd hj (Nat.not_lt_zero j))).2 (.num 0) (by decide), hnone2 ?_⟩
  intro s hs
  simp only [List.mem_cons, List.mem_singleton, List.not_mem_nil, or_false] at hs
  rcases hs with rfl | rfl | rfl
  · exact ⟨.str "Customers", by decide, by decide⟩
  · exact ⟨.str "Suppliers", by decide, by decide⟩
  · exact ⟨.str "Customers", by decide, by decide⟩

theorem deleteRow_ok_sent (sheetName : String) (rowIndex : Int) (w : World) (v : JsVal)
    (hok : (deleteRow sheetName rowIndex w).1 = .ok v) :
    ∃ batch, (deleteRow sheetName rowIndex w).2.sent = w.sent ++ [metadataRequest w, batch] ∧
      batch.method = "POST" ∧
      batch.url = "https://sheets.googleapis.com/v4/spreadsheets/" ++ w.spreadsheetId
        ++ ":batchUpdate" := by
  cases hsheet : getSheetId sheetName w with
  | mk res w1 =>
    cases res with
    | error e =>
      rw [deleteRow_of_getSheetId_error sheetName rowIndex w w1 e hsheet] at hok
      cases hok
    | ok sheetId =>
      obtain ⟨req, hsent, hmethod, hurl, -⟩ := deleteRow_sent sheetName rowIndex w w1 sheetId hsheet
      have hw1 : w1.sent = w.sent ++ [metadataRequest w] := by
        have := getSheetId_sent sheetName w
        rw [hsheet] at this
        exact this
      exact ⟨req, by rw [hsent, hw1]; simp, hmethod, hurl⟩

/-- C14: `deleteRow` resolves the sheet id before anything else.  When the resolution
fails, for whatever reason and in particular because no sheet has the name, `deleteRow`
fails with the same error after the metadata request alone, so no batch update is sent;
and a delete that succeeds has sent exactly the metadata request followed by one batch
update. -/
theorem deleteRow_two_round_trips (sheetName : String) (rowIndex : Int) (w : World) :
    (metadataRequest w).method = "GET" ∧
    (∀ e w1, getSheetId sheetName w = (.error e, w1) →
      deleteRow sheetName rowIndex w = (.error e, w1) ∧
      w1.sent = w.sent ++ [metadataRequest w]) ∧
    (∀ response rest sheets, w.pending = .ok response :: rest → response.ok = true →
      response.json = .ok (metadataBody sheets) → (∀ entry ∈ sheets, entry.1 ≠ sheetName) →
      (deleteRow sheetName rowIndex w).1
        = .error (.error ("Sheet with name \"" ++ sheetName ++ "\" not found.")) ∧
      (deleteRow sheetName rowIndex w).2.sent = w.sent ++ [metadataRequest w]) ∧
    (∀ v, (deleteRow sheetName rowIndex w).1 = .ok v →
      ∃ batch,
        (deleteRow sheetName rowIndex w).2.sent = w.sent ++ [metadataRequest w, batch] ∧
        batch.method = "POST" ∧
        batch.url = "https://sheets.googleapis.com/v4/spreadsheets/" ++ w.spreadsheetId
          ++ ":batchUpdate") := by
  refine ⟨rfl, ?_, ?_, deleteRow_ok_sent sheetName rowIndex w⟩
  · intro e w1 hsheet
    refine ⟨deleteRow_of_getSheetId_error sheetName rowIndex w w1 e hsheet, ?_⟩
    have := getSheetId_sent sheetName w
    rw [hsheet] at this
    exact this
  · intro response rest sheets hpending hok hjson hnone
    have h1 := getSheetId_not_found sheetName w response rest sheets hpending hok hjson hnone
    have hpair : getSheetId sheetName w
        = (.error (.error ("Sheet with name \"" ++ sheetName ++ "\" not found.")),
          (getSheetId sheetName w).2) := by
      rw [← h1]
    rw [deleteRow_of_getSheetId_error sheetName rowIndex w _ _ hpair]
    exact ⟨rfl, getSheetId_sent sheetName w⟩

/-- Witness of C14: deleting from the unknown sheet `Orders` sends the metadata request
only, and the delete from `Customers` that succeeds sends the metadata request followed
by one batch update. -/
theorem deleteRow_two_round_trips_witness :
    ((deleteRow "Orders" 3 (worldAnswering (metadataResponse exampleSheets))).1
        = .error (.error ("Sheet with name \"" ++ "Orders" ++ "\" not found.")) ∧
      (deleteRow "Orders" 3 (worldAnswering (metadataResponse exampleSheets))).2.sent
        = (worldAnswering (metadataResponse exampleSheets)).sent
          ++ [metadataRequest (worldAnswering (metadataResponse exampleSheets))]) ∧
    ∃ batch, (deleteRow "Customers" 3 deleteWorld).2.sent
        = deleteWorld.sent ++ [metadataRequest deleteWorld, batch] ∧
      batch.method = "POST" ∧
      batch.url = "https://sheets.googleapis.com/v4/spreadsheets/" ++ deleteWorld.spreadsheetId
        ++ ":batchUpdate" :=
  ⟨(deleteRow_two_round_trips "Orders" 3
      (worldAnswering (metadataResponse exampleSheets))).2.2.1
      (metadataResponse exampleSheets) [] exampleSheets rfl rfl rfl (by decide),
    (deleteRow_two_round_trips "Customers" 3 deleteWorld).2.2.2 (.obj []) (by decide)⟩

/-! ## Identifier generators -/

theorem digitChar_isDigit (d : Nat) (h : d < 10) : (Nat.digitChar d).isDigit = true := by
  interval_cases d <;> rfl

theorem repr_five_digits (n : Nat) (h1 : 10000 ≤ n) (h2 : n < 100000) :
    Nat.repr n = String.mk [Nat.digitChar (n / 10000 % 10), Nat.digitChar (n / 1000 % 10),
      Nat.digitChar (n / 100 % 10), Nat.digitChar (n / 10 % 10), Nat.digitChar (n % 10)] := by
  obtain ⟨m, rfl⟩ : ∃ m, n = m + 4 := ⟨n - 4, by omega⟩
  have e1 : ¬ ((m + 4) / 10 = 0) := by omega
  have e2 : ¬ ((m + 4) / 10 / 10 = 0) := by omega
  have e3 : ¬ ((m + 4) / 10 / 10 / 10 = 0) := by omega
  have e4 : ¬ ((m + 4) / 10 / 10 / 10 / 10 = 0) := by omega
  have e5 : (m + 4) / 10 / 10 / 10 / 10 / 10 = 0 := by omega
  simp only [Nat.repr, Nat.toDigits, Nat.toDigitsCore, e1, e2, e3, e4, e5, if_false, if_true,
    List.asString]
  simp only [Nat.div_div_eq_div_mul, Nat.reduceMul]

theorem toJsString_five_digits (letters : String) (z : Int) (h1 : 10000 ≤ z) (h2 : z ≤ 99999) :
    IsLettersThenDigits letters 5 (letters ++ (JsVal.num z).toJsString) := by
  obtain ⟨n, rfl⟩ : ∃ n : Nat, z = (n : Int) := ⟨z.toNat, by omega⟩
  have hrepr : (JsVal.num (n : Int)).toJsString = Nat.repr n := rfl
  rw [hrepr, repr_five_digits n (by omega) (by omega)]
  refine ⟨[Nat.digitChar (n / 10000 % 10), Nat.digitChar (n / 1000 % 10),
    Nat.digitChar (n / 100 % 10), Nat.digitChar (n / 10 % 10), Nat.digitChar (n % 10)],
    rfl, ?_, rfl⟩
  intro c hc
  simp only [List.mem_cons, List.mem_singleton, List.not_mem_nil, or_false] at hc
  rcases hc with rfl | rfl | rfl | rfl | rfl <;>
    exact digitChar_isDigit _ (Nat.mod_lt _ (by decide))

theorem isDouble_ofInt (z : ℤ) (h : |z| < 2 ^ 53) : IsDouble (z : ℚ) :=
  ⟨z, 0, h, by norm_num, by norm_num, by simp⟩

theorem isNearestDouble_self (x : ℚ) (h : IsDouble x) : IsNearestDouble x x :=
  ⟨h, fun d2 _ => by simp⟩

theorem isDouble_scaled (d : ℚ) (hd : IsDouble d) (t : ℕ) :
    (∃ z : ℤ, d * 2 ^ t = z) ∨ |d| * 2 ^ (t + 1) < 2 ^ 53 := by
  obtain ⟨m, e, hm, -, -, rfl⟩ := hd
  by_cases he : -(t : ℤ) ≤ e
  · left
    obtain ⟨n, hn⟩ := Int.eq_ofNat_of_zero_le (show 0 ≤ e + t by omega)
    refine ⟨m * 2 ^ n, ?_⟩
    have he2 : e = (n : ℤ) - t := by omega
    rw [he2, zpow_sub₀ (by norm_num), zpow_natCast, zpow_natCast]
    push_cast
    field_simp
  · right
    obtain ⟨n, hn⟩ := Int.eq_ofNat_of_zero_le (show 0 ≤ -e - (t + 1) by omega)
    have he2 : e = -(((n + (t + 1) : ℕ)) : ℤ) := by push_cast; omega
    have hpos : (0 : ℚ) < 2 ^ (n + (t + 1)) := by positivity
    rw [he2, zpow_neg, zpow_natCast, abs_mul, abs_inv, abs_of_pos hpos, pow_add]
    have hm2 : |(m : ℚ)| < 2 ^ 53 := by
      have : ((|m| : ℤ) : ℚ) < ((2 ^ 53 : ℤ) : ℚ) := Int.cast_lt.mpr hm
      simpa using this
    have hn1 : (1 : ℚ) ≤ 2 ^ n := one_le_pow₀ (by norm_num)
    have hpos2 : (0 : ℚ) < 2 ^ (t + 1) := by positivity
    have hpos3 : (0 : ℚ) < 2 ^ n := by positivity
    have : |(m : ℚ)| * (2 ^ n * 2 ^ (t + 1))⁻¹ * 2 ^ (t + 1) = |(m : ℚ)| / 2 ^ n := by
      field_simp
      ring
    rw [this, div_lt_iff₀ hpos3]
    calc |(m : ℚ)| < 2 ^ 53 := hm2
      _ = 2 ^ 53 * 1 := by ring
      _ ≤ 2 ^ 53 * 2 ^ n := by
        apply mul_le_mul_of_nonneg_left hn1 (by positivity)

/-- A double below 1 is at most `1 - 2 ^ (-53)`. -/
theorem isDouble_lt_one (r : ℚ) (hr : IsDouble r) (h0 : 0 ≤ r) (h1 : r < 1) :
    r ≤ 1 - 1 / 2 ^ 53 := by
  rcases isDouble_scaled r hr 53 with ⟨z, hz⟩ | hsmall
  · have hlt : (z : ℚ) < ((2 ^ 53 : ℤ) : ℚ) := by
      rw [← hz]; push_cast; nlinarith
    have hz2 : z ≤ 2 ^ 53 - 1 := by
      have := Int.cast_lt.mp hlt
      omega
    have : (z : ℚ) ≤ ((2 ^ 53 - 1 : ℤ) : ℚ) := Int.cast_le.mpr hz2
    rw [← hz] at this
    push_cast at this
    norm_num at this ⊢
    linarith
  · rw [abs_of_nonneg h0] at hsmall
    norm_num at hsmall ⊢
    linarith

/-- No double lies strictly between `90000 - 2 ^ (-36)` and `90000`. -/
theorem isDouble_gap (d : ℚ) (hd : IsDouble d) (h : 90000 - 1 / 2 ^ 36 < d) : 90000 ≤ d := by
  by_contra hlt
  push_neg at hlt
  rcases isDouble_scaled d hd 36 with ⟨z, hz⟩ | hsmall
  · have h1 : ((90000 * 2 ^ 36 - 1 : ℤ) : ℚ) < z := by
      rw [← hz]; push_cast; norm_num at h ⊢; linarith
    have h2 : (z : ℚ) < ((90000 * 2 ^ 36 : ℤ) : ℚ) := by
      rw [← hz]; push_cast; norm_num at hlt ⊢; linarith
    have h3 := Int.cast_lt.mp h1
    have h4 := Int.cast_lt.mp h2
    omega
  · have hpos : 0 < d := by norm_num at h; linarith
    rw [abs_of_pos hpos] at hsmall
    norm_num at hsmall h
    linarith

theorem rounded_range (mul add : ℚ → ℚ → ℚ) (r : ℚ) (hr : IsDouble r) (h0 : 0 ≤ r)
    (h1 : r < 1) (hmul : IsNearestDouble (r * 90000) (mul r 90000))
    (hadd : IsNearestDouble (10000 + mul r 90000) (add 10000 (mul r 90000))) :
    (10000 : Int) ≤ ⌊add 10000 (mul r 90000)⌋ ∧ ⌊add 10000 (mul r 90000)⌋ ≤ 99999 := by
  have hr1 := isDouble_lt_one r hr h0 h1
  have hD1 : IsDouble (90000 - 1 / 2 ^ 36) :=
    ⟨90000 * 2 ^ 36 - 1, -36, by norm_num, by norm_num, by norm_num, by
      rw [zpow_neg]; norm_num⟩
  have hD2 : IsDouble (100000 - 1 / 2 ^ 36) :=
    ⟨100000 * 2 ^ 36 - 1, -36, by norm_num, by norm_num, by norm_num, by
      rw [zpow_neg]; norm_num⟩
  have hzero : IsDouble 0 := by simpa using isDouble_ofInt 0 (by norm_num)
  have hten : IsDouble 10000 := by simpa using isDouble_ofInt 10000 (by norm_num)
  obtain ⟨hp, hpnear⟩ := hmul
  obtain ⟨hs, hsnear⟩ := hadd
  generalize mul r 90000 = p at *
  generalize add 10000 p = s at *
  have hp0 : 0 ≤ p := by
    by_contra hneg
    push_neg at hneg
    have := hpnear 0 hzero
    rcases abs_cases (p - r * 90000) with ⟨e1, _⟩ | ⟨e1, _⟩ <;>
      rcases abs_cases (0 - r * 90000) with ⟨e2, _⟩ | ⟨e2, _⟩ <;> nlinarith
  have hp1 : p ≤ 90000 - 1 / 2 ^ 36 := by
    by_contra hgt
    push_neg at hgt
    have hge := isDouble_gap p hp hgt
    have := hpnear _ hD1
    norm_num at hr1 this hgt
    rcases abs_cases (p - r * 90000) with ⟨e1, _⟩ | ⟨e1, _⟩ <;>
      rcases abs_cases (6184752906239999 / 68719476736 - r * 90000) with ⟨e2, _⟩ | ⟨e2, _⟩ <;>
      nlinarith
  have hs0 : 10000 ≤ s := by
    by_contra hneg
    push_neg at hneg
    have := hsnear 10000 hten
    rcases abs_cases (s - (10000 + p)) with ⟨e1, _⟩ | ⟨e1, _⟩ <;>
      rcases abs_cases (10000 - (10000 + p)) with ⟨e2, _⟩ | ⟨e2, _⟩ <;> nlinarith
  have hs1 : s ≤ 100000 - 1 / 2 ^ 36 := by
    by_contra hgt
    push_neg at hgt
    have := hsnear _ hD2
    norm_num at this hgt hp1
    rcases abs_cases (s - (10000 + p)) with ⟨e1, _⟩ | ⟨e1, _⟩ <;>
      rcases abs_cases (6871947673599999 / 68719476736 - (10000 + p)) with ⟨e2, _⟩ | ⟨e2, _⟩ <;>
      nlinarith
  constructor
  · rw [Int.le_floor]; push_cast; exact hs0
  · have : ⌊s⌋ < 100000 := by
      rw [Int.floor_lt]; push_cast; norm_num at hs1 ⊢; linarith
    omega

theorem not_any_strictEq (field : String) (data : List Record) (id : String)
    (h : data.any (fun c => (Record.get c field).strictEq (.str id)) = false) :
    ∀ c ∈ data, Record.get c field ≠ .str id := by
  intro c hc heq
  have hall := List.any_eq_false.mp h c hc
  rw [heq] at hall
  simp [JsVal.strictEq] at hall

theorem generateCustomerId_loop_spec (customers : List Record) (mul add : ℚ → ℚ → ℚ)
    (random : Nat → ℚ) :
    ∀ (fuel k : Nat) (newId : String),
      Customers.generateCustomerId.loop customers mul add random fuel k = some newId →
      ∃ j, newId = Customers.generateCustomerId.newId mul add (random j) ∧
        customers.any (fun c => (Record.get c "Customer ID").strictEq (.str newId)) = false := by
  intro fuel
  induction fuel with
  | zero => intro k newId h; simp [Customers.generateCustomerId.loop] at h
  | succ fuel ih =>
    intro k newId h
    simp only [Customers.generateCustomerId.loop] at h
    split at h
    · exact ih (k + 1) newId h
    · rename_i hfree
      simp only [Option.some.injEq] at h
      subst h
      exact ⟨k, rfl, by simpa using hfree⟩

theorem generateSupplierId_loop_spec (suppliers : List Record) (mul add : ℚ → ℚ → ℚ)
    (random : Nat → ℚ) :
    ∀ (fuel k : Nat) (newId : String),
      Suppliers.generateSupplierId.loop suppliers mul add random fuel k = some newId →
      ∃ j, newId = Suppliers.generateSupplierId.newId mul add (random j) ∧
        suppliers.any (fun c => (Record.get c "Supplier ID").strictEq (.str newId)) = false := by
  intro fuel
  induction fuel with
  | zero => intro k newId h; simp [Suppliers.generateSupplierId.loop] at h
  | succ fuel ih =>
    intro k newId h
    simp only [Suppliers.generateSupplierId.loop] at h
    split at h
    · exact ih (k + 1) newId h
    · rename_i hfree
      simp only [Option.some.injEq] at h
      subst h
      exact ⟨k, rfl, by simpa using hfree⟩

theorem generateCustomerId_loop_first (customers : List Record) (mul add : ℚ → ℚ → ℚ)
    (random : Nat → ℚ) (k : Nat)
    (hfree : customers.any (fun c => (Record.get c "Customer ID").strictEq
      (.str (Customers.generateCustomerId.newId mul add (random k)))) = false) :
    ∀ (fuel k0 : Nat), k0 ≤ k →
      (∀ j, k0 ≤ j → j < k → customers.any (fun c => (Record.get c "Customer ID").strictEq
        (.str (Customers.generateCustomerId.newId mul add (random j)))) = true) →
      Customers.generateCustomerId.loop customers mul add random fuel k0
        = if k < k0 + fuel then
            some (Customers.generateCustomerId.newId mul add (random k))
          else none := by
  intro fuel
  induction fuel with
  | zero =>
    intro k0 hle _
    have : ¬ k < k0 + 0 := by omega
    rw [if_neg this]
    rfl
  | succ fuel ih =>
    intro k0 hle hused
    rcases Nat.eq_or_lt_of_le hle with heq | hlt
    · subst heq
      have : k0 < k0 + (fuel + 1) := by omega
      simp only [Customers.generateCustomerId.loop, hfree, Bool.false_eq_true, if_false, this,
        if_true]
    · have h0 := hused k0 (Nat.le_refl _) hlt
      simp only [Customers.generateCustomerId.loop, h0, if_true]
      rw [ih (k0 + 1) hlt (fun j hj hjk => hused j (by omega) hjk)]
      have : k0 + 1 + fuel = k0 + (fuel + 1) := by omega
      rw [this]

theorem generateSupplierId_loop_first (suppliers : List Record) (mul add : ℚ → ℚ → ℚ)
    (random : Nat → ℚ) (k : Nat)
    (hfree : suppliers.any (fun c => (Record.get c "Supplier ID").strictEq
      (.str (Suppliers.generateSupplierId.newId mul add (random k)))) = false) :
    ∀ (fuel k0 : Nat), k0 ≤ k →
      (∀ j, k0 ≤ j → j < k → suppliers.any (fun c => (Record.get c "Supplier ID").strictEq
        (.str (Suppliers.generateSupplierId.newId mul add (random j)))) = true) →
      Suppliers.generateSupplierId.loop suppliers mul add random fuel k0
        = if k < k0 + fuel then
            some (Suppliers.generateSupplierId.newId mul add (random k))
          else none := by
  intro fuel
  induction fuel with
  | zero =>
    intro k0 hle _
    have : ¬ k < k0 + 0 := by omega
    rw [if_neg this]
    rfl
  | succ fuel ih =>
    intro k0 hle hused
    rcases Nat.eq_or_lt_of_le hle with heq | hlt
    · subst heq
      have : k0 < k0 + (fuel + 1) := by omega
      simp only [Suppliers.generateSupplierId.loop, hfree, Bool.false_eq_true, if_false, this,
        if_true]
    · have h0 := hused k0 (Nat.le_refl _) hlt
      simp only [Suppliers.generateSupplierId.loop, h0, if_true]
      rw [ih (k0 + 1) hlt (fun j hj hjk => hused j (by omega) hjk)]
      have : k0 + 1 + fuel = k0 + (fuel + 1) := by omega
      rw [this]

theorem generateCustomerId_loop_returns (customers : List Record) (mul add : ℚ → ℚ → ℚ)
    (random : Nat → ℚ) (k fuel : Nat) (hk : k < fuel)
    (hfree : customers.any (fun c => (Record.get c "Customer ID").strictEq
      (.str (Customers.generateCustomerId.newId mul add (random k)))) = false) :
    ∃ newId, Customers.generateCustomerId.loop customers mul add random fuel 0
      = some newId := by
  classical
  have hex : ∃ j, customers.any (fun c => (Record.get c "Customer ID").strictEq
      (.str (Customers.generateCustomerId.newId mul add (random j)))) = false := ⟨k, hfree⟩
  have hfirst := Nat.find_spec hex
  have hle : Nat.find hex ≤ k := Nat.find_min' hex hfree
  have h := generateCustomerId_loop_first customers mul add random (Nat.find hex) hfirst fuel 0
    (Nat.zero_le _) (fun j _ hj => by
      have := Nat.find_min hex hj
      simpa using this)
  have hlt : Nat.find hex < 0 + fuel := by omega
  rw [if_pos hlt] at h
  exact ⟨_, h⟩

theorem generateSupplierId_loop_returns (suppliers : List Record) (mul add : ℚ → ℚ → ℚ)
    (random : Nat → ℚ) (k fuel : Nat) (hk : k < fuel)
    (hfree : suppliers.any (fun c => (Record.get c "Supplier ID").strictEq
      (.str (Suppliers.generateSupplierId.newId mul add (random k)))) = false) :
    ∃ newId, Suppliers.generateSupplierId.loop suppliers mul add random fuel 0
      = some newId := by
  classical
  have hex : ∃ j, suppliers.any (fun c => (Record.get c "Supplier ID").strictEq
      (.str (Suppliers.generateSupplierId.newId mul add (random j)))) = false := ⟨k, hfree⟩
  have hfirst := Nat.find_spec hex
  have hle : Nat.find hex ≤ k := Nat.find_min' hex hfree
  have h := generateSupplierId_loop_first suppliers mul add random (Nat.find hex) hfirst fuel 0
    (Nat.zero_le _) (fun j _ hj => by
      have := Nat.find_min hex hj
      simpa using this)
  have hlt : Nat.find hex < 0 + fuel := by omega
  rw [if_pos hlt] at h
  exact ⟨_, h⟩

/-- C15: for samples that are doubles in `[0, 1)` and a product and a sum rounded to a
nearest double, whenever `generateCustomerId` returns, the id it puts in the form is `C`
followed by exactly five decimal digits, the digits of a number in `10000..99999`, and
differs from the `Customer ID` of every loaded customer; and it does return, within every
number of draws above `k`, as soon as the id of draw `k` is not taken.  Likewise
`generateSupplierId` with the letter `S` and the loaded suppliers. -/
theorem generated_id_five_digits_unused (mul add : ℚ → ℚ → ℚ) (random : Nat → ℚ)
    (hdraws : RoundedDraws mul add random) :
    (∀ (fuel : Nat) (s s2 : Customers.State),
      Customers.generateCustomerId mul add random fuel s = some s2 →
      ∃ (newId : String) (n : Int),
        s2 = { s with formData := s.formData.set "Customer ID" (.str newId) } ∧
        10000 ≤ n ∧ n ≤ 99999 ∧ newId = "C" ++ toString n ∧
        IsLettersThenDigits "C" 5 newId ∧
        ∀ c ∈ s.customers, c.get "Customer ID" ≠ .str newId) ∧
    (∀ (s : Customers.State) (k fuel : Nat), k < fuel →
      s.customers.any (fun c => (Record.get c "Customer ID").strictEq
        (.str (Customers.generateCustomerId.newId mul add (random k)))) = false →
      ∃ s2, Customers.generateCustomerId mul add random fuel s = some s2) ∧
    (∀ (fuel : Nat) (s s2 : Suppliers.State),
      Suppliers.generateSupplierId mul add random fuel s = some s2 →
      ∃ (newId : String) (n : Int),
        s2 = { s with formData := s.formData.set "Supplier ID" (.str newId) } ∧
        10000 ≤ n ∧ n ≤ 99999 ∧ newId = "S" ++ toString n ∧
        IsLettersThenDigits "S" 5 newId ∧
        ∀ c ∈ s.suppliers, c.get "Supplier ID" ≠ .str newId) ∧
    (∀ (s : Suppliers.State) (k fuel : Nat), k < fuel →
      s.suppliers.any (fun c => (Record.get c "Supplier ID").strictEq
        (.str (Suppliers.generateSupplierId.newId mul add (random k)))) = false →
      ∃ s2, Suppliers.generateSupplierId mul add random fuel s = some s2) := by
  refine ⟨?_, ?_, ?_, ?_⟩
  · intro fuel s s2 h
    unfold Customers.generateCustomerId at h
    cases hloop : Customers.generateCustomerId.loop s.customers mul add random fuel 0 with
    | none => rw [hloop] at h; cases h
    | some newId =>
      rw [hloop] at h
      simp only [Option.some.injEq] at h
      obtain ⟨j, hid, hfree⟩ :=
        generateCustomerId_loop_spec s.customers mul add random fuel 0 newId hloop
      obtain ⟨hd, h0, h1, hmul, hadd⟩ := hdraws j
      obtain ⟨hlo, hhi⟩ := rounded_range mul add (random j) hd h0 h1 hmul hadd
      refine ⟨newId, ⌊add 10000 (mul (random j) 90000)⌋, h.symm, hlo, hhi, hid, ?_,
        not_any_strictEq "Customer ID" s.customers newId hfree⟩
      rw [hid]
      exact toJsString_five_digits "C" _ hlo hhi
  · intro s k fuel hk hfree
    obtain ⟨newId, hloop⟩ :=
      generateCustomerId_loop_returns s.customers mul add random k fuel hk hfree
    exact ⟨{ s with formData := s.formData.set "Customer ID" (.str newId) }, by
      simp only [Customers.generateCustomerId, hloop]⟩
  · intro fuel s s2 h
    unfold Suppliers.generateSupplierId at h
    cases hloop : Suppliers.generateSupplierId.loop s.suppliers mul add random fuel 0 with
    | none => rw [hloop] at h; cases h
    | some newId =>
      rw [hloop] at h
      simp only [Option.some.injEq] at h
      obtain ⟨j, hid, hfree⟩ :=
        generateSupplierId_loop_spec s.suppliers mul add random fuel 0 newId hloop
      obtain ⟨hd, h0, h1, hmul, hadd⟩ := hdraws j
      obtain ⟨hlo, hhi⟩ := rounded_range mul add (random j) hd h0 h1 hmul hadd
      refine ⟨newId, ⌊add 10000 (mul (random j) 90000)⌋, h.symm, hlo, hhi, hid, ?_,
        not_any_strictEq "Supplier ID" s.suppliers newId hfree⟩
      rw [hid]
      exact toJsString_five_digits "S" _ hlo hhi
  · intro s k fuel hk hfree
    obtain ⟨newId, hloop⟩ :=
      generateSupplierId_loop_returns s.suppliers mul add random k fuel hk hfree
    exact ⟨{ s with formData := s.formData.set "Supplier ID" (.str newId) }, by
      simp only [Suppliers.generateSupplierId, hloop]⟩

theorem zeroSamples_rounded : RoundedDraws exactMul exactAdd zeroSamples := by
  intro k
  have hzero : IsDouble 0 := by simpa using isDouble_ofInt 0 (by norm_num)
  have hten : IsDouble 10000 := by simpa using isDouble_ofInt 10000 (by norm_num)
  refine ⟨hzero, le_refl _, by norm_num [zeroSamples], ?_, ?_⟩
  · simpa [zeroSamples, exactMul] using isNearestDouble_self 0 hzero
  · simpa [zeroSamples, exactMul, exactAdd] using isNearestDouble_self 10000 hten

theorem newId_zeroSamples (k : Nat) :
    Customers.generateCustomerId.newId exactMul exactAdd (zeroSamples k) = "C10000" ∧
      Suppliers.generateSupplierId.newId exactMul exactAdd (zeroSamples k) = "S10000" := by
  have hfloor : ⌊exactAdd 10000 (exactMul (zeroSamples k) 90000)⌋ = 10000 := by
    simp [zeroSamples, exactMul, exactAdd]
  simp only [Customers.generateCustomerId.newId, Suppliers.generateSupplierId.newId, hfloor]
  exact ⟨by decide, by decide⟩

theorem generateCustomerId_zeroSamples :
    Customers.generateCustomerId exactMul exactAdd zeroSamples 1 loadedCustomersState
      = some { loadedCustomersState with formData := [("Customer ID", .str "C10000")] } := by
  have hfree : loadedCustomersState.customers.any
      (fun c => (Record.get c "Customer ID").strictEq (.str "C10000")) = false := by decide
  simp only [Customers.generateCustomerId, Customers.generateCustomerId.loop,
    (newId_zeroSamples 0).1, hfree]
  rfl

theorem generateSupplierId_zeroSamples :
    Suppliers.generateSupplierId exactMul exactAdd zeroSamples 1 loadedSuppliersState
      = some { loadedSuppliersState with formData := [("Supplier ID", .str "S10000")] } := by
  have hfree : loadedSuppliersState.suppliers.any
      (fun c => (Record.get c "Supplier ID").strictEq (.str "S10000")) = false := by decide
  simp only [Suppliers.generateSupplierId, Suppliers.generateSupplierId.loop,
    (newId_zeroSamples 0).2, hfree]
  rfl

/-- Witness of C15: the sample `0` is a double and its product with 90000 and the sum with
10000 are exact.  With the customers `C1`, `C2` loaded, `generateCustomerId` returns with
the id `C10000`, and with the supplier `S1` loaded `generateSupplierId` returns with the
id `S10000`. -/
theorem generated_id_five_digits_unused_witness :
    RoundedDraws exactMul exactAdd zeroSamples ∧
    Customers.generateCustomerId exactMul exactAdd zeroSamples 1 loadedCustomersState
      = some { loadedCustomersState with formData := [("Customer ID", .str "C10000")] } ∧
    Suppliers.generateSupplierId exactMul exactAdd zeroSamples 1 loadedSuppliersState
      = some { loadedSuppliersState with formData := [("Supplier ID", .str "S10000")] } ∧
    (∃ (newId : String) (n : Int),
      ({ loadedCustomersState with formData := [("Customer ID", .str "C10000")] }
          : Customers.State)
        = { loadedCustomersState with
            formData := loadedCustomersState.formData.set "Customer ID" (.str newId) } ∧
      10000 ≤ n ∧ n ≤ 99999 ∧ newId = "C" ++ toString n ∧
      IsLettersThenDigits "C" 5 newId ∧
      ∀ c ∈ loadedCustomersState.customers, c.get "Customer ID" ≠ .str newId) ∧
    (∃ (newId : String) (n : Int),
      ({ loadedSuppliersState with formData := [("Supplier ID", .str "S10000")] }
          : Suppliers.State)
        = { loadedSuppliersState with
            formData := loadedSuppliersState.formData.set "Supplier ID" (.str newId) } ∧
      10000 ≤ n ∧ n ≤ 99999 ∧ newId = "S" ++ toString n ∧
      IsLettersThenDigits "S" 5 newId ∧
      ∀ c ∈ loadedSuppliersState.suppliers, c.get "Supplier ID" ≠ .str newId) ∧
    (∃ s2, Customers.generateCustomerId exactMul exactAdd zeroSamples 1 loadedCustomersState
      = some s2) ∧
    (∃ s2, Suppliers.generateSupplierId exactMul exactAdd zeroSamples 1 loadedSuppliersState
      = some s2) :=
  ⟨zeroSamples_rounded, generateCustomerId_zeroSamples, generateSupplierId_zeroSamples,
    (generated_id_five_digits_unused exactMul exactAdd zeroSamples zeroSamples_rounded).1 1
      loadedCustomersState _ generateCustomerId_zeroSamples,
    (generated_id_five_digits_unused exactMul exactAdd zeroSamples zeroSamples_rounded).2.2.1 1
      loadedSuppliersState _ generateSupplierId_zeroSamples,
    (generated_id_five_digits_unused exactMul exactAdd zeroSamples zeroSamples_rounded).2.1
      loadedCustomersState 0 1 (by decide) (by rw [(newId_zeroSamples 0).1]; decide),
    (generated_id_five_digits_unused exactMul exactAdd zeroSamples zeroSamples_rounded).2.2.2
      loadedSuppliersState 0 1 (by decide) (by rw [(newId_zeroSamples 0).2]; decide)⟩

theorem receipts_generateTrxId_range (r : ℚ) (h0 : 0 ≤ r) (h1 : r < 1) (s : Receipts.State) :
    ∃ n : Int, 12345 ≤ n ∧ n ≤ 102344 ∧
      (Receipts.generateTrxId r s).newReceipt.get "Trx ID" = .str ("RT" ++ toString n) := by
  refine ⟨⌊12345 + r * 90000⌋, ?_, ?_, ?_⟩
  · rw [Int.le_floor]
    push_cast
    nlinarith
  · have : ⌊12345 + r * 90000⌋ < 102345 := by
      rw [Int.floor_lt]
      push_cast
      nlinarith
    omega
  · simp [Receipts.generateTrxId, Record.get_set, JsVal.toJsString]

/-- C16 at the failing input: for the sample `0.99`, in `[0, 1)`, Receipts'
`generateTrxId` produces `RT101445`, which is `RT` followed by six digits, not five. -/
theorem receipts_generateTrxId_six_digits :
    (0 : ℚ) ≤ 99 / 100 ∧ (99 / 100 : ℚ) < 1 ∧
    (Receipts.generateTrxId (99 / 100) emptyReceiptsState).newReceipt.get "Trx ID"
      = .str "RT101445" ∧
    IsLettersThenDigits "RT" 6 "RT101445" ∧
    ¬ IsLettersThenDigits "RT" 5 "RT101445" := by
  have hfloor : ⌊(12345 : ℚ) + 99 / 100 * 90000⌋ = 101445 := by norm_num
  refine ⟨by norm_num, by norm_num, ?_, ?_, ?_⟩
  · simp only [Receipts.generateTrxId, hfloor]
    decide
  · exact ⟨['1', '0', '1', '4', '4', '5'], rfl, by decide, by decide⟩
  · rintro ⟨digits, hlen, -, heq⟩
    have hlength := congrArg String.length heq
    have h8 : "RT101445".length = 8 := by decide
    have h2 : "RT".length = 2 := by decide
    have hmk : (String.mk digits).length = digits.length := rfl
    rw [String.length_append, h8, h2, hmk, hlen] at hlength
    omega

theorem users_add_sent_bodies :
    (Users.handleSubmit 0 (.str "2025-01-01") addUserState appendWorld).2.sent.map Request.body
      = [.obj [("values", .arr [.arr [.str "U1000", .str "Grace", .str "grace@example.com",
          .str "Staff", .str "Active", .str "2025-01-01"]])], .undefined] := by
  have hfloor : ⌊(1000 : ℚ) + 0 * 9000⌋ = 1000 := by norm_num
  simp only [Users.handleSubmit, Users.handleSubmit.attempt, hfloor]
  decide

/-- C17 at the failing inputs: none of the three paths looks at the loaded collection.
With the sample `0`, Payments' `generateTrxId` produces `PT56789` while the payment
`PT56789` is loaded, Receipts' `generateTrxId` produces `RT12345` while the receipt
`RT12345` is loaded, and the add path of Users appends a row with the id `U1000` while
the user `U1000` is loaded. -/
theorem generated_id_collides :
    ((Payments.generateTrxId 0 loadedPaymentsState).newPayment.get "Trx ID" = .str "PT56789" ∧
      HasId "Trx ID" loadedPaymentsState.payments (.str "PT56789")) ∧
    ((Receipts.generateTrxId 0 loadedReceiptsState).newReceipt.get "Trx ID" = .str "RT12345" ∧
      HasId "Trx ID" loadedReceiptsState.receipts (.str "RT12345")) ∧
    ((Users.handleSubmit 0 (.str "2025-01-01") addUserState appendWorld).2.sent.map
        Request.body
      = [.obj [("values", .arr [.arr [.str "U1000", .str "Grace", .str "grace@example.com",
          .str "Staff", .str "Active", .str "2025-01-01"]])], .undefined] ∧
      HasId "UserID" addUserState.users (.str "U1000")) := by
  have hpay : ⌊(56789 : ℚ) + 0 * 10000⌋ = 56789 := by norm_num
  have hrec : ⌊(12345 : ℚ) + 0 * 90000⌋ = 12345 := by norm_num
  refine ⟨⟨?_, ⟨_, List.mem_singleton.mpr rfl, by decide⟩⟩,
    ⟨?_, ⟨_, List.mem_singleton.mpr rfl, by decide⟩⟩,
    ⟨users_add_sent_bodies, ⟨_, List.mem_singleton.mpr rfl, by decide⟩⟩⟩
  · simp only [Payments.generateTrxId, hpay]
    decide
  · simp only [Receipts.generateTrxId, hrec]
    decide

/-! ## Joined reads -/

theorem payments_fetchData_cases (s : Payments.State) (w : World) :
    (∀ paymentsData poData,
      (getRangeData Payments.PAYMENTS_RANGE w).1 = .ok paymentsData →
      (getRangeData "RANGEPO" (getRangeData Payments.PAYMENTS_RANGE w).2).1 = .ok poData →
      (Payments.fetchData s w).1
        = { s with payments := paymentsData, purchaseOrders := poData, loading := false, error := none }) ∧
    (∀ err, (getRangeData Payments.PAYMENTS_RANGE w).1 = .error err →
      (Payments.fetchData s w).1
        = { s with loading := false, error := some err.message }) ∧
    (∀ paymentsData err,
      (getRangeData Payments.PAYMENTS_RANGE w).1 = .ok paymentsData →
      (getRangeData "RANGEPO" (getRangeData Payments.PAYMENTS_RANGE w).2).1 = .error err →
      (Payments.fetchData s w).1
        = { s with loading := false, error := some err.message }) := by
  unfold Payments.fetchData
  generalize getRangeData Payments.PAYMENTS_RANGE w = r1
  obtain ⟨first, w1⟩ := r1
  simp only
  generalize getRangeData "RANGEPO" w1 = r2
  obtain ⟨second, w2⟩ := r2
  refine ⟨?_, ?_, ?_⟩
  · intro a b h1 h2
    have e1 : first = .ok a := h1
    have e2 : second = .ok b := h2
    subst e1 e2
    rfl
  · intro err h1
    have e1 : first = .error err := h1
    subst e1
    rfl
  · intro a err h1 h2
    have e1 : first = .ok a := h1
    have e2 : second = .error err := h2
    subst e1 e2
    rfl

theorem dashboard_fetch_cases {D : Type}
    (processDashboardData : List Record → List Record → List Record → List Record →
      Except JsError D)
    (s : Dashboard.State D) (w : World) :
    (∀ a b c d,
      (getRangeData "RANGESD" w).1 = .ok a →
      (getRangeData "RANGEPD" (getRangeData "RANGESD" w).2).1 = .ok b →
      (getRangeData "RANGECUSTOMERS"
        (getRangeData "RANGEPD" (getRangeData "RANGESD" w).2).2).1 = .ok c →
      (getRangeData "RANGESUPPLIERS" (getRangeData "RANGECUSTOMERS"
        (getRangeData "RANGEPD" (getRangeData "RANGESD" w).2).2).2).1 = .ok d →
      (Dashboard.fetchDashboardData processDashboardData s w).1
        = match processDashboardData a b c d with
          | .ok processedData => { s with data := some processedData, loading := false }
          | .error err => { s with error := some err.message, loading := false }) ∧
    (∀ err,
      ((getRangeData "RANGESD" w).1 = .error err ∨
        (getRangeData "RANGEPD" (getRangeData "RANGESD" w).2).1 = .error err ∨
        (getRangeData "RANGECUSTOMERS"
          (getRangeData "RANGEPD" (getRangeData "RANGESD" w).2).2).1 = .error err ∨
        (getRangeData "RANGESUPPLIERS" (getRangeData "RANGECUSTOMERS"
          (getRangeData "RANGEPD" (getRangeData "RANGESD" w).2).2).2).1 = .error err) →
      ∃ failed,
        ((getRangeData "RANGESD" w).1 = .error failed ∨
          (getRangeData "RANGEPD" (getRangeData "RANGESD" w).2).1 = .error failed ∨
          (getRangeData "RANGECUSTOMERS"
            (getRangeData "RANGEPD" (getRangeData "RANGESD" w).2).2).1 = .error failed ∨
          (getRangeData "RANGESUPPLIERS" (getRangeData "RANGECUSTOMERS"
            (getRangeData "RANGEPD" (getRangeData "RANGESD" w).2).2).2).1 = .error failed) ∧
        (Dashboard.fetchDashboardData processDashboardData s w).1
          = { s with error := some failed.message, loading := false }) := by
  unfold Dashboard.fetchDashboardData
  generalize getRangeData "RANGESD" w = r1
  obtain ⟨sales, w1⟩ := r1
  simp only
  generalize getRangeData "RANGEPD" w1 = r2
  obtain ⟨purchases, w2⟩ := r2
  simp only
  generalize getRangeData "RANGECUSTOMERS" w2 = r3
  obtain ⟨customers, w3⟩ := r3
  simp only
  generalize getRangeData "RANGESUPPLIERS" w3 = r4
  obtain ⟨suppliers, w4⟩ := r4
  simp only
  constructor
  · intro a b c d h1 h2 h3 h4
    have e1 : sales = .ok a := h1
    have e2 : purchases = .ok b := h2
    have e3 : customers = .ok c := h3
    have e4 : suppliers = .ok d := h4
    subst e1 e2 e3 e4
    simp only
    cases processDashboardData a b c d <;> rfl
  · intro err h
    cases sales with
    | error e1 => exact ⟨e1, Or.inl rfl, rfl⟩
    | ok a =>
      cases purchases with
      | error e2 => exact ⟨e2, Or.inr (Or.inl rfl), rfl⟩
      | ok b =>
        cases customers with
        | error e3 => exact ⟨e3, Or.inr (Or.inr (Or.inl rfl)), rfl⟩
        | ok c =>
          cases suppliers with
          | error e4 => exact ⟨e4, Or.inr (Or.inr (Or.inr rfl)), rfl⟩
          | ok d =>
            have h2 : (Except.ok a : Except JsError (List Record)) = .error err
                ∨ (Except.ok b : Except JsError (List Record)) = .error err
                ∨ (Except.ok c : Except JsError (List Record)) = .error err
                ∨ (Except.ok d : Except JsError (List Record)) = .error err := h
            simp at h2

/-- C18: joined reads are all-or-nothing.  In `fetchData` of `Payments` (two reads) and in
`fetchDashboardData` (four reads), when some read fails nothing is stored, neither
`payments` nor `purchaseOrders` is replaced and the dashboard `data` stays what it was,
and the message of a failed read is recorded as the error; the results are stored when
every read succeeded (for the dashboard, once they are processed). -/
theorem joined_reads_all_or_nothing :
    (∀ (s : Payments.State) (w : World),
      ((∃ err, .error err ∈ Payments.joinedReads w) →
        (Payments.fetchData s w).1.payments = s.payments ∧
        (Payments.fetchData s w).1.purchaseOrders = s.purchaseOrders ∧
        ∃ failed, .error failed ∈ Payments.joinedReads w ∧
          (Payments.fetchData s w).1.error = some failed.message) ∧
      (∀ paymentsData poData, Payments.joinedReads w = [.ok paymentsData, .ok poData] →
        (Payments.fetchData s w).1.payments = paymentsData ∧
        (Payments.fetchData s w).1.purchaseOrders = poData ∧
        (Payments.fetchData s w).1.error = none)) ∧
    (∀ (D : Type)
        (processDashboardData : List Record → List Record → List Record → List Record →
          Except JsError D)
        (s : Dashboard.State D) (w : World),
      ((∃ err, .error err ∈ Dashboard.joinedReads w) →
        (Dashboard.fetchDashboardData processDashboardData s w).1.data = s.data ∧
        ∃ failed, .error failed ∈ Dashboard.joinedReads w ∧
          (Dashboard.fetchDashboardData processDashboardData s w).1.error
            = some failed.message) ∧
      (∀ a b c d processedData, Dashboard.joinedReads w = [.ok a, .ok b, .ok c, .ok d] →
        processDashboardData a b c d = .ok processedData →
        (Dashboard.fetchDashboardData processDashboardData s w).1.data
          = some processedData)) := by
  constructor
  · intro s w
    obtain ⟨hboth, hfirst, hsecond⟩ := payments_fetchData_cases s w
    constructor
    · rintro ⟨err, herr⟩
      simp only [Payments.joinedReads, List.mem_cons, List.mem_singleton, List.not_mem_nil,
        or_false] at herr
      cases h1 : (getRangeData Payments.PAYMENTS_RANGE w).1 with
      | error e1 =>
        rw [hfirst e1 h1]
        exact ⟨rfl, rfl, e1, by simp [Payments.joinedReads, h1], rfl⟩
      | ok a =>
        rcases herr with herr | herr
        · rw [h1] at herr
          cases herr
        · rw [hsecond a err h1 herr.symm]
          exact ⟨rfl, rfl, err, by simp [Payments.joinedReads, ← herr], rfl⟩
    · intro a b hreads
      simp only [Payments.joinedReads, List.cons.injEq, and_true] at hreads
      rw [hboth a b hreads.1 hreads.2]
      exact ⟨rfl, rfl, rfl⟩
  · intro D process s w
    obtain ⟨hall, hany⟩ := dashboard_fetch_cases process s w
    constructor
    · rintro ⟨err, herr⟩
      simp only [Dashboard.joinedReads, List.mem_cons, List.mem_singleton, List.not_mem_nil,
        or_false] at herr
      obtain ⟨failed, hfailed, hstate⟩ := hany err (by
        rcases herr with h | h | h | h
        · exact Or.inl h.symm
        · exact Or.inr (Or.inl h.symm)
        · exact Or.inr (Or.inr (Or.inl h.symm))
        · exact Or.inr (Or.inr (Or.inr h.symm)))
      rw [hstate]
      refine ⟨rfl, failed, ?_, rfl⟩
      simp only [Dashboard.joinedReads, List.mem_cons, List.mem_singleton, List.not_mem_nil,
        or_false]
      rcases hfailed with h | h | h | h
      · exact Or.inl h.symm
      · exact Or.inr (Or.inl h.symm)
      · exact Or.inr (Or.inr (Or.inl h.symm))
      · exact Or.inr (Or.inr (Or.inr h.symm))
    · intro a b c d processed hreads hprocess
      simp only [Dashboard.joinedReads, List.cons.injEq, and_true] at hreads
      rw [hall a b c d hreads.1 hreads.2.1 hreads.2.2.1 hreads.2.2.2, hprocess]

/-- Witness of C18: the payments read succeeds and the purchase order read is refused;
the loaded payment `PT56789` is kept and the message of the refusal is recorded. -/
theorem joined_reads_all_or_nothing_witness :
    (∃ err, .error err ∈ Payments.joinedReads secondReadFails) ∧
    (Payments.fetchData loadedPaymentsState secondReadFails).1.payments
      = loadedPaymentsState.payments ∧
    (Payments.fetchData loadedPaymentsState secondReadFails).1.purchaseOrders
      = loadedPaymentsState.purchaseOrders ∧
    ∃ failed, .error failed ∈ Payments.joinedReads secondReadFails ∧
      (Payments.fetchData loadedPaymentsState secondReadFails).1.error = some failed.message :=
  ⟨⟨.error "Google Sheets API error: Quota exceeded", by decide⟩,
    (joined_reads_all_or_nothing.1 loadedPaymentsState secondReadFails).1
      ⟨.error "Google Sheets API error: Quota exceeded", by decide⟩⟩

/-! ## Bodies that are not a row matrix -/

theorem JsVal.index_ok (row : JsVal) (hu : row ≠ .undefined) (hn : row ≠ .null) (i : Nat) :
    ∃ cell, row.index i = .ok cell := by
  cases row with
  | undefined => exact absurd rfl hu
  | null => exact absurd rfl hn
  | bool b => exact ⟨_, rfl⟩
  | num n => exact ⟨_, rfl⟩
  | str s => exact ⟨_, rfl⟩
  | arr items => exact ⟨_, rfl⟩
  | obj fields => exact ⟨_, rfl⟩

theorem decodeRow.go_ok (row : JsVal) (hu : row ≠ .undefined) (hn : row ≠ .null) :
    ∀ (hs : List JsVal) (i : Nat) (proto : RowProto) (acc : Record),
      ∃ r, decodeRow.go row hs i proto acc = .ok r := by
  intro hs
  induction hs with
  | nil => intro i proto acc; exact ⟨acc, rfl⟩
  | cons h rest ih =>
    intro i proto acc
    obtain ⟨cell, hcell⟩ := JsVal.index_ok row hu hn i
    by_cases hset : decodeRow.callsSetter h.toJsString proto acc = true
    · obtain ⟨r, hr⟩ := ih (i + 1) (proto.assigned cell) acc
      exact ⟨r, by simp [decodeRow.go, hcell, hset, hr]⟩
    · obtain ⟨r, hr⟩ := ih (i + 1) proto (acc.set h.toJsString cell)
      exact ⟨r, by simp [decodeRow.go, hcell, hset, hr]⟩

theorem decodeRows_ok (hs : List JsVal) :
    ∀ rows : List JsVal, (∀ row ∈ rows, row ≠ .undefined ∧ row ≠ .null) →
      ∃ records, decodeRows (.arr hs) rows = .ok records ∧ records.length = rows.length := by
  intro rows
  induction rows with
  | nil => intro _; exact ⟨[], rfl, rfl⟩
  | cons row rest ih =>
    intro h
    obtain ⟨hu, hn⟩ := h row (List.mem_cons_self _ _)
    obtain ⟨r, hr⟩ := decodeRow.go_ok row hu hn hs 0 .objectPrototype []
    obtain ⟨records, hrec, hlen⟩ := ih (fun x hx => h x (List.mem_cons_of_mem _ hx))
    exact ⟨r :: records, by simp [decodeRows, decodeRow, hr, hrec], by simp [hlen]⟩

theorem decodeRows_null_row (h0 : JsVal) (hs : List JsVal) :
    ∀ rows : List JsVal, (∃ row ∈ rows, row = .undefined ∨ row = .null) →
      ∃ e, decodeRows (.arr (h0 :: hs)) rows = .error e := by
  intro rows
  induction rows with
  | nil => rintro ⟨row, hmem, -⟩; simp at hmem
  | cons row rest ih =>
    rintro ⟨bad, hmem, hbad⟩
    cases hrow : decodeRow (.arr (h0 :: hs)) row with
    | error e => exact ⟨e, by simp [decodeRows, hrow]⟩
    | ok r =>
      rcases List.mem_cons.mp hmem with rfl | hrest
      · rcases hbad with rfl | rfl <;> simp [decodeRow, decodeRow.go, JsVal.index] at hrow
      · obtain ⟨e, he⟩ := ih ⟨bad, hrest, hbad⟩
        exact ⟨e, by simp [decodeRows, hrow, he]⟩

theorem decodeRows_header_not_list (h : JsVal) (hnot : ∀ hs, h ≠ .arr hs)
    (row : JsVal) (rows : List JsVal) :
    ∃ e, decodeRows h (row :: rows) = .error e := by
  cases h with
  | arr hs => exact absurd rfl (hnot hs)
  | undefined => exact ⟨_, rfl⟩
  | null => exact ⟨_, rfl⟩
  | bool b => exact ⟨_, rfl⟩
  | num n => exact ⟨_, rfl⟩
  | str s => exact ⟨_, rfl⟩
  | obj fields => exact ⟨_, rfl⟩

theorem decodeBody_not_iterable (data values : JsVal)
    (hvalues : data.getField "values" = .ok values)
    (harr : ∀ items, values ≠ .arr items) (hstr : ∀ s, values ≠ .str s) :
    ∃ e, decodeBody data = .error e := by
  unfold decodeBody
  rw [hvalues]
  cases values with
  | arr items => exact absurd rfl (harr items)
  | str s => exact absurd rfl (hstr s)
  | undefined => exact ⟨_, rfl⟩
  | null => exact ⟨_, rfl⟩
  | bool b => exact ⟨_, rfl⟩
  | num n => exact ⟨_, rfl⟩
  | obj fields => exact ⟨_, rfl⟩

theorem decodeBody_list (data h : JsVal) (rows : List JsVal)
    (hvalues : data.getField "values" = .ok (.arr (h :: rows))) :
    decodeBody data = if rows.length = 0 then .ok [] else decodeRows h rows := by
  unfold decodeBody
  rw [hvalues]
  rfl

theorem decodeRows_empty_header :
    ∀ rows : List JsVal, decodeRows (.arr []) rows = .ok (rows.map (fun _ => [])) := by
  intro rows
  induction rows with
  | nil => rfl
  | cons row rest ih => simp [decodeRows, decodeRow, decodeRow.go, ih]

theorem decodeBody_text (data : JsVal) (text : String)
    (hvalues : data.getField "values" = .ok (.str text)) :
    (text.length ≤ 1 → decodeBody data = .ok []) ∧
    (2 ≤ text.length → ∃ e, decodeBody data = .error e) := by
  unfold decodeBody
  rw [hvalues]
  have hlen : text.length = text.toList.length := rfl
  rw [hlen]
  simp only [JsVal.destructureFirstRest]
  cases text.toList with
  | nil => exact ⟨fun _ => rfl, fun h => by simp at h⟩
  | cons c cs =>
    cases cs with
    | nil => exact ⟨fun _ => rfl, fun h => by simp at h⟩
    | cons d ds => exact ⟨fun h => by simp at h, fun _ => ⟨_, rfl⟩⟩

/-- C19 (as amended): `getRangeData` checks no shape.  On a successful response it throws
when `values` is not iterable (missing, `null`, a boolean, a number or an object), when
`values` is a text of two characters or more, when there is at least one data row and the
first element is not a list, and when the header list is not empty and some data row is
`null`; but a list of one element returns the empty collection whatever that element is,
so does a text of at most one character, under a header list any data rows other than
`null`, lists or not, decode to one record each, and under the empty header list any data
rows, `null` or not, decode to one empty record each. -/
theorem getRangeData_unchecked_shape (rangeName : String) (w : World) (response : Response)
    (rest : List (Except JsError Response)) (data : JsVal)
    (hpending : w.pending = .ok response :: rest) (hok : response.ok = true)
    (hjson : response.json = .ok data) :
    (∀ values, data.getField "values" = .ok values →
      (∀ items, values ≠ .arr items) → (∀ s, values ≠ .str s) →
      ∃ e, (getRangeData rangeName w).1 = .error e) ∧
    (∀ h row rows, data.getField "values" = .ok (.arr (h :: row :: rows)) →
      (∀ hs, h ≠ .arr hs) → ∃ e, (getRangeData rangeName w).1 = .error e) ∧
    (∀ h0 hs rows, data.getField "values" = .ok (.arr (.arr (h0 :: hs) :: rows)) →
      (∃ row ∈ rows, row = .undefined ∨ row = .null) →
      ∃ e, (getRangeData rangeName w).1 = .error e) ∧
    (∀ x, data.getField "values" = .ok (.arr [x]) → (getRangeData rangeName w).1 = .ok []) ∧
    (∀ hs rows, data.getField "values" = .ok (.arr (.arr hs :: rows)) →
      (∀ row ∈ rows, row ≠ .undefined ∧ row ≠ .null) →
      ∃ records, (getRangeData rangeName w).1 = .ok records ∧
        records.length = rows.length) ∧
    (∀ rows, data.getField "values" = .ok (.arr (.arr [] :: rows)) →
      (getRangeData rangeName w).1 = .ok (rows.map (fun _ => []))) ∧
    (∀ text, data.getField "values" = .ok (.str text) →
      (text.length ≤ 1 → (getRangeData rangeName w).1 = .ok []) ∧
      (2 ≤ text.length → ∃ e, (getRangeData rangeName w).1 = .error e)) := by
  rw [getRangeData_ok rangeName w response rest data hpending hok hjson]
  refine ⟨?_, ?_, ?_, ?_, ?_, ?_, ?_⟩
  · intro values hvalues harr hstr
    exact decodeBody_not_iterable data values hvalues harr hstr
  · intro h row rows hvalues hnot
    rw [decodeBody_list data h (row :: rows) hvalues]
    simpa using decodeRows_header_not_list h hnot row rows
  · intro h0 hs rows hvalues hbad
    rw [decodeBody_list data _ rows hvalues]
    cases rows with
    | nil =>
      obtain ⟨row, hmem, -⟩ := hbad
      simp at hmem
    | cons row more => simpa using decodeRows_null_row h0 hs (row :: more) hbad
  · intro x hvalues
    rw [decodeBody_list data x [] hvalues]
    rfl
  · intro hs rows hvalues hgood
    rw [decodeBody_list data _ rows hvalues]
    cases rows with
    | nil => exact ⟨[], rfl, rfl⟩
    | cons row more => simpa using decodeRows_ok hs (row :: more) hgood
  · intro rows hvalues
    rw [decodeBody_list data _ rows hvalues]
    cases rows with
    | nil => rfl
    | cons row more => simpa using decodeRows_empty_header (row :: more)
  · intro text hvalues
    exact decodeBody_text data text hvalues

/-- Witness of C19: a body whose `values` is `null` makes `getRangeData` throw. -/
theorem getRangeData_unchecked_shape_witness :
    ∃ e, (getRangeData "RANGECUSTOMERS" (worldAnswering (rawValuesResponse .null))).1
      = .error e :=
  (getRangeData_unchecked_shape "RANGECUSTOMERS" (worldAnswering (rawValuesResponse .null))
    (rawValuesResponse .null) [] _ rfl rfl rfl).1 .null rfl
    (fun _ h => by cases h) (fun _ h => by cases h)

/-- Counterexample to C19 as stated: the values `["oops"]`, a list whose element is not a
list, decode to the empty collection, and the values `[["Name"], "ab"]`, whose data row
is a string, decode to the record `Name: a`; neither is a row matrix and neither makes
`getRangeData` fail. -/
theorem getRangeData_non_matrix_counterexample :
    (getRangeData "RANGECUSTOMERS"
        (worldAnswering (rawValuesResponse (.arr [.str "oops"])))).1 = .ok [] ∧
    (getRangeData "RANGECUSTOMERS"
        (worldAnswering (rawValuesResponse (.arr [.arr [.str "Name"], .str "ab"])))).1
      = .ok [[("Name", .str "a")]] := by
  decide

/-! ## The rectangle written by an edit -/

theorem updateRow_body (range : String) (values : List JsVal) (w : World) :
    ∃ req, (updateRow range values w).2.sent = w.sent ++ [req] ∧
      req.method = "PUT" ∧
      req.url = "https://sheets.googleapis.com/v4/spreadsheets/" ++ w.spreadsheetId
        ++ "/values/" ++ range ++ "?valueInputOption=USER_ENTERED" ∧
      req.body = .obj [("values", .arr [.arr (values.map JsVal.toJSONItem)])] := by
  obtain ⟨req, hsent, hmethod, hurl, hbody⟩ := updateRow_sent range values w
  refine ⟨req, hsent, hmethod, hurl, ?_⟩
  rw [hbody, ← JsVal.toJSONItems_eq_map]
  rfl

theorem customers_handleSubmit_edit_request
    (refreshSharedData : World → Except JsError Unit × World)
    (hrefresh : ∀ w0, ∃ more, (refreshSharedData w0).2.sent = w0.sent ++ more)
    (s : Customers.State) (editingCustomer : Record) (w : World)
    (hid : (s.formData.get "Customer ID").truthy = true)
    (hname : (s.formData.get "Customer Name").truthy = true)
    (hstate : (s.formData.get "State").truthy = true)
    (hcity : (s.formData.get "City").truthy = true)
    (hedit : s.editingCustomer = some editingCustomer)
    (hfound : ¬ Customers.findRowIndex s.customers (editingCustomer.get "Customer ID") < 2) :
    ∃ req more, (Customers.handleSubmit refreshSharedData s w).2.sent = w.sent ++ req :: more ∧
      req.method = "PUT" ∧
      req.url = "https://sheets.googleapis.com/v4/spreadsheets/" ++ w.spreadsheetId
        ++ "/values/" ++ ("Customers!A"
          ++ toString (Customers.findRowIndex s.customers (editingCustomer.get "Customer ID"))
          ++ ":G"
          ++ toString (Customers.findRowIndex s.customers (editingCustomer.get "Customer ID")))
        ++ "?valueInputOption=USER_ENTERED" ∧
      req.body = .obj [("values", .arr [.arr ([s.formData.get "Customer ID",
        s.formData.get "Customer Name", s.formData.get "Customer Contact",
        s.formData.get "Customer Email", s.formData.get "State", s.formData.get "City",
        s.formData.get "Customer Address"].map JsVal.toJSONItem)])] := by
  generalize hR : Customers.findRowIndex s.customers (editingCustomer.get "Customer ID") = R
    at hfound
  obtain ⟨req, hsent, hmethod, hurl, hbody⟩ := updateRow_body
    (Customers.CUSTOMERS_SHEET_NAME ++ "!A" ++ (JsVal.num R).toJsString
      ++ ":G" ++ (JsVal.num R).toJsString)
    [s.formData.get "Customer ID", s.formData.get "Customer Name",
      s.formData.get "Customer Contact", s.formData.get "Customer Email",
      s.formData.get "State", s.formData.get "City", s.formData.get "Customer Address"] w
  have hname2 : Customers.CUSTOMERS_SHEET_NAME ++ "!A" = "Customers!A" := by decide
  have hurl2 : req.url = "https://sheets.googleapis.com/v4/spreadsheets/" ++ w.spreadsheetId
      ++ "/values/" ++ ("Customers!A" ++ toString R ++ ":G" ++ toString R)
      ++ "?valueInputOption=USER_ENTERED" := by
    rw [hurl, hname2]
    rfl
  simp only [Customers.handleSubmit, Customers.handleSubmit.attempt, hid, hname, hstate, hcity,
    hedit, hR, hfound, Bool.not_true, Bool.or_self, Bool.false_eq_true, if_false]
  revert hsent
  generalize updateRow _ _ w = written
  obtain ⟨res, w1⟩ := written
  intro hsent
  simp only at hsent
  cases res with
  | error e => exact ⟨req, [], by simpa [alert] using hsent, hmethod, hurl2, hbody⟩
  | ok a =>
    obtain ⟨more, hmore⟩ := customers_after_write_sent refreshSharedData hrefresh w1
    refine ⟨req, more, ?_, hmethod, hurl2, hbody⟩
    simp only
    generalize hfe : Customers.fetchCustomers _ w1 = fetched
    have hsnd := congrArg Prod.snd hfe
    rw [customers_fetchCustomers_snd] at hsnd
    obtain ⟨s2, w2⟩ := fetched
    simp only at hsnd
    rw [hsnd] at hmore
    revert hmore
    generalize refreshSharedData w2 = rf
    obtain ⟨r, w3⟩ := rf
    intro hmore
    simp only at hmore
    cases r <;> simp [alert, hmore, hsent]

theorem users_fetchUsers_sent (s : Users.State) (w : World) :
    ∃ req, (Users.fetchUsers s w).2.sent = w.sent ++ [req] := by
  obtain ⟨req, hreq⟩ := getRangeData_sent Users.USERS_RANGE w
  refine ⟨req, ?_⟩
  rw [← hreq]
  unfold Users.fetchUsers
  generalize getRangeData Users.USERS_RANGE w = rd
  obtain ⟨d, w1⟩ := rd
  cases d <;> rfl

theorem users_handleSubmit_edit_request (random : ℚ) (today : JsVal)
    (s : Users.State) (editingUser : Record) (w : World)
    (hname : (s.formData.get "Name").truthy = true)
    (hemail : (s.formData.get "Email").truthy = true)
    (hrole : (s.formData.get "Role").truthy = true)
    (hedit : s.editingUser = some editingUser)
    (hfound : ¬ Users.findRowIndex s.users (editingUser.get "UserID") < 2) :
    ∃ req more, (Users.handleSubmit random today s w).2.sent = w.sent ++ req :: more ∧
      req.method = "PUT" ∧
      req.url = "https://sheets.googleapis.com/v4/spreadsheets/" ++ w.spreadsheetId
        ++ "/values/" ++ ("Users!A"
          ++ toString (Users.findRowIndex s.users (editingUser.get "UserID")) ++ ":F"
          ++ toString (Users.findRowIndex s.users (editingUser.get "UserID")))
        ++ "?valueInputOption=USER_ENTERED" ∧
      req.body = .obj [("values", .arr [.arr ([s.formData.get "UserID",
        s.formData.get "Name", s.formData.get "Email", s.formData.get "Role",
        s.formData.get "Status", editingUser.get "Date Added"].map JsVal.toJSONItem)])] := by
  generalize hR : Users.findRowIndex s.users (editingUser.get "UserID") = R at hfound
  obtain ⟨req, hsent, hmethod, hurl, hbody⟩ := updateRow_body
    (Users.USERS_SHEET_NAME ++ "!A" ++ (JsVal.num R).toJsString
      ++ ":F" ++ (JsVal.num R).toJsString)
    [s.formData.get "UserID", s.formData.get "Name", s.formData.get "Email",
      s.formData.get "Role", s.formData.get "Status", editingUser.get "Date Added"] w
  have hname2 : Users.USERS_SHEET_NAME ++ "!A" = "Users!A" := by decide
  have hurl2 : req.url = "https://sheets.googleapis.com/v4/spreadsheets/" ++ w.spreadsheetId
      ++ "/values/" ++ ("Users!A" ++ toString R ++ ":F" ++ toString R)
      ++ "?valueInputOption=USER_ENTERED" := by
    rw [hurl, hname2]
    rfl
  simp only [Users.handleSubmit, Users.handleSubmit.attempt, hname, hemail, hrole,
    hedit, hR, hfound, Bool.not_true, Bool.or_self, Bool.false_eq_true, if_false]
  revert hsent
  generalize updateRow _ _ w = written
  obtain ⟨res, w1⟩ := written
  intro hsent
  simp only at hsent
  cases res with
  | error e => exact ⟨req, [], by simpa [alert] using hsent, hmethod, hurl2, hbody⟩
  | ok a =>
    simp only
    generalize hfe : Users.fetchUsers _ w1 = fetched
    obtain ⟨req2, hreq2⟩ := users_fetchUsers_sent _ w1
    rw [hfe] at hreq2
    obtain ⟨s2, w2⟩ := fetched
    simp only at hreq2
    exact ⟨req, [req2], by simp [hreq2, hsent], hmethod, hurl2, hbody⟩

/-- C20: editing a customer found at row index `R` sends `updateRow` the range
`Customers!A{R}:G{R}`, one row from column A to column G, with one row of exactly seven
values in the order Customer ID, Name, Contact, Email, State, City, Address, as many as
the range has columns, so that columns H to J and the other rows are not named by the
request; editing a user likewise sends `Users!A{R}:F{R}` with exactly six values, the
last being the `Date Added` of the edited user. -/
theorem edit_writes_one_row :
    (∀ (refreshSharedData : World → Except JsError Unit × World)
        (s : Customers.State) (editingCustomer : Record) (w : World),
      (∀ w0, ∃ more, (refreshSharedData w0).2.sent = w0.sent ++ more) →
      (s.formData.get "Customer ID").truthy = true →
      (s.formData.get "Customer Name").truthy = true →
      (s.formData.get "State").truthy = true →
      (s.formData.get "City").truthy = true →
      s.editingCustomer = some editingCustomer →
      ¬ Customers.findRowIndex s.customers (editingCustomer.get "Customer ID") < 2 →
      ∃ req more values,
        (Customers.handleSubmit refreshSharedData s w).2.sent = w.sent ++ req :: more ∧
        req.method = "PUT" ∧
        req.url = "https://sheets.googleapis.com/v4/spreadsheets/" ++ w.spreadsheetId
          ++ "/values/" ++ ("Customers!A"
            ++ toString (Customers.findRowIndex s.customers (editingCustomer.get "Customer ID"))
            ++ ":G"
            ++ toString (Customers.findRowIndex s.customers (editingCustomer.get "Customer ID")))
          ++ "?valueInputOption=USER_ENTERED" ∧
        req.body = .obj [("values", .arr [.arr values])] ∧
        values = [s.formData.get "Customer ID", s.formData.get "Customer Name",
          s.formData.get "Customer Contact", s.formData.get "Customer Email",
          s.formData.get "State", s.formData.get "City",
          s.formData.get "Customer Address"].map JsVal.toJSONItem ∧
        values.length = 7 ∧ values.length = columnSpan 'A' 'G') ∧
    (∀ (random : ℚ) (today : JsVal) (s : Users.State) (editingUser : Record) (w : World),
      (s.formData.get "Name").truthy = true →
      (s.formData.get "Email").truthy = true →
      (s.formData.get "Role").truthy = true →
      s.editingUser = some editingUser →
      ¬ Users.findRowIndex s.users (editingUser.get "UserID") < 2 →
      ∃ req more values,
        (Users.handleSubmit random today s w).2.sent = w.sent ++ req :: more ∧
        req.method = "PUT" ∧
        req.url = "https://sheets.googleapis.com/v4/spreadsheets/" ++ w.spreadsheetId
          ++ "/values/" ++ ("Users!A"
            ++ toString (Users.findRowIndex s.users (editingUser.get "UserID")) ++ ":F"
            ++ toString (Users.findRowIndex s.users (editingUser.get "UserID")))
          ++ "?valueInputOption=USER_ENTERED" ∧
        req.body = .obj [("values", .arr [.arr values])] ∧
        values = [s.formData.get "UserID", s.formData.get "Name", s.formData.get "Email",
          s.formData.get "Role", s.formData.get "Status",
          editingUser.get "Date Added"].map JsVal.toJSONItem ∧
        values.length = 6 ∧ values.length = columnSpan 'A' 'F') := by
  constructor
  · intro refresh s ec w hrefresh h1 h2 h3 h4 hedit hfound
    obtain ⟨req, more, hsent, hmethod, hurl, hbody⟩ :=
      customers_handleSubmit_edit_request refresh hrefresh s ec w h1 h2 h3 h4 hedit hfound
    exact ⟨req, more, _, hsent, hmethod, hurl, hbody, rfl, rfl, rfl⟩
  · intro random today s eu w h1 h2 h3 hedit hfound
    obtain ⟨req, more, hsent, hmethod, hurl, hbody⟩ :=
      users_handleSubmit_edit_request random today s eu w h1 h2 h3 hedit hfound
    exact ⟨req, more, _, hsent, hmethod, hurl, hbody, rfl, rfl, rfl⟩

/-- Witness of C20: editing the user `U1001`, loaded at row index 2. -/
theorem edit_writes_one_row_witness :
    Users.findRowIndex editUserState.users (.str "U1001") = 2 ∧
    ∃ req more values,
      (Users.handleSubmit 0 (.str "2025-01-01") editUserState appendWorld).2.sent
        = appendWorld.sent ++ req :: more ∧
      req.method = "PUT" ∧
      req.url = "https://sheets.googleapis.com/v4/spreadsheets/" ++ appendWorld.spreadsheetId
        ++ "/values/" ++ ("Users!A"
          ++ toString (Users.findRowIndex editUserState.users
            (Record.get [("UserID", .str "U1001"), ("Name", .str "Ada"),
              ("Date Added", .str "2024-05-01")] "UserID")) ++ ":F"
          ++ toString (Users.findRowIndex editUserState.users
            (Record.get [("UserID", .str "U1001"), ("Name", .str "Ada"),
              ("Date Added", .str "2024-05-01")] "UserID")))
        ++ "?valueInputOption=USER_ENTERED" ∧
      req.body = .obj [("values", .arr [.arr values])] ∧
      values = [editUserState.formData.get "UserID", editUserState.formData.get "Name",
        editUserState.formData.get "Email", editUserState.formData.get "Role",
        editUserState.formData.get "Status",
        Record.get [("UserID", .str "U1001"), ("Name", .str "Ada"),
          ("Date Added", .str "2024-05-01")] "Date Added"].map JsVal.toJSONItem ∧
      values.length = 6 ∧ values.length = columnSpan 'A' 'F' :=
  ⟨by decide,
    edit_writes_one_row.2 0 (.str "2025-01-01") editUserState
      [("UserID", .str "U1001"), ("Name", .str "Ada"), ("Date Added", .str "2024-05-01")]
      appendWorld (by decide) (by decide) (by decide) rfl (by decide)⟩

/-! ## Company settings -/

theorem getCompanySettings_ok (w : World) (response : Response)
    (rest : List (Except JsError Response)) (data : JsVal)
    (hpending : w.pending = .ok response :: rest) (hok : response.ok = true)
    (hjson : response.json = .ok data) :
    (getCompanySettings w).1 = getCompanySettings.decode data := by
  simp [getCompanySettings, fetch, hpending, hok, hjson]

/-- C21: for a successful settings response, `getCompanySettings` returns the four fields
`companyName`, `companyAddress`, `companyContact`, `companyLogoUrl` all empty when the
body has no `values` property or an empty `values` list, and otherwise cells 0 to 3 of
the first returned row, in that order (`undefined` for a cell the row does not have). -/
theorem getCompanySettings_fields (w : World) (response : Response)
    (rest : List (Except JsError Response)) (data : JsVal)
    (hpending : w.pending = .ok response :: rest) (hok : response.ok = true)
    (hjson : response.json = .ok data) :
    (data.getField "values" = .ok .undefined ∨ data.getField "values" = .ok (.arr []) →
      (getCompanySettings w).1 = .ok [("companyName", .str ""), ("companyAddress", .str ""),
        ("companyContact", .str ""), ("companyLogoUrl", .str "")]) ∧
    (∀ cells more, data.getField "values" = .ok (.arr (.arr cells :: more)) →
      (getCompanySettings w).1 = .ok [("companyName", cells.getD 0 .undefined),
        ("companyAddress", cells.getD 1 .undefined),
        ("companyContact", cells.getD 2 .undefined),
        ("companyLogoUrl", cells.getD 3 .undefined)]) := by
  rw [getCompanySettings_ok w response rest data hpending hok hjson]
  constructor
  · rintro (h | h) <;> simp [getCompanySettings.decode, h, JsVal.truthy, JsVal.lengthOf,
      JsVal.strictEq]
  · intro cells more h
    simp [getCompanySettings.decode, h, JsVal.truthy, JsVal.lengthOf, JsVal.strictEq,
      JsVal.index, JsVal.iterate]
    omega

/-- Witness of C21: a body without `values`, and a row of four cells. -/
theorem getCompanySettings_fields_witness :
    (getCompanySettings (worldAnswering emptyRangeResponse)).1
        = .ok [("companyName", .str ""), ("companyAddress", .str ""),
          ("companyContact", .str ""), ("companyLogoUrl", .str "")] ∧
    (getCompanySettings (worldAnswering (Grid.response
        [[.str "Acme Ltd", .str "1 Main St", .str "555-0100", .str "logo.png"]]))).1
      = .ok [("companyName", .str "Acme Ltd"), ("companyAddress", .str "1 Main St"),
          ("companyContact", .str "555-0100"), ("companyLogoUrl", .str "logo.png")] :=
  ⟨(getCompanySettings_fields (worldAnswering emptyRangeResponse) emptyRangeResponse [] _
      rfl rfl rfl).1 (Or.inl rfl),
    (getCompanySettings_fields (worldAnswering (Grid.response
        [[.str "Acme Ltd", .str "1 Main St", .str "555-0100", .str "logo.png"]])) _ [] _
      rfl rfl rfl).2 [.str "Acme Ltd", .str "1 Main St", .str "555-0100", .str "logo.png"] []
      rfl⟩

/-! ## Deleting customers and suppliers -/

theorem find_none {α : Type} (p : α → Bool) :
    ∀ (xs : List α), (∀ x ∈ xs, p x = false) → find p xs = none := by
  intro xs
  induction xs with
  | nil => intro _; rfl
  | cons a rest ih =>
    intro h
    have ha : p a = false := h a (List.mem_cons_self _ _)
    simp only [find, ha, Bool.false_eq_true, if_false]
    exact ih (fun x hx => h x (List.mem_cons_of_mem _ hx))

theorem all_false_of_not_hasId (field : String) (data : List Record) (id : JsVal)
    (h : ¬ HasId field data id) :
    ∀ r ∈ data, (fun c => (Record.get c field).strictEq id) r = false := by
  intro r hr
  show (Record.get r field).strictEq id = false
  cases hp : (Record.get r field).strictEq id with
  | false => rfl
  | true => exact absurd ⟨r, hr, hp⟩ h

/-- C22 (as amended): for an id that no loaded customer has, `handleDelete` of the
customers page throws a type error at the read of `Balance Receivable`, before its `try`
block and whatever the confirmation answer: the error is not caught, nothing is recorded
in the state, no alert is shown and no request is sent.  Whenever the condition
`rowIndex < 2` of the guard `Could not find customer to delete.` holds the handler has
thrown that type error, so the guard itself is never reached.  The same holds for the
suppliers page, `Balance Payable` and `Could not find supplier to delete.`. -/
theorem handleDelete_unknown_id_throws
    (refreshSharedData : World → Except JsError Unit × World)
    (parseFloat : String → JsNumber) (confirm : Bool) (id : JsVal) (w : World) :
    (∀ s : Customers.State, ¬ HasId "Customer ID" s.customers id →
      Customers.handleDelete refreshSharedData parseFloat confirm s id w = .error
        (.typeError "Cannot read properties of undefined (reading Balance Receivable)")) ∧
    (∀ s : Customers.State, Customers.findRowIndex s.customers id < 2 →
      Customers.handleDelete refreshSharedData parseFloat confirm s id w = .error
        (.typeError "Cannot read properties of undefined (reading Balance Receivable)")) ∧
    (∀ s : Suppliers.State, ¬ HasId "Supplier ID" s.suppliers id →
      Suppliers.handleDelete refreshSharedData parseFloat confirm s id w = .error
        (.typeError "Cannot read properties of undefined (reading Balance Payable)")) ∧
    (∀ s : Suppliers.State, Suppliers.findRowIndex s.suppliers id < 2 →
      Suppliers.handleDelete refreshSharedData parseFloat confirm s id w = .error
        (.typeError "Cannot read properties of undefined (reading Balance Payable)")) := by
  have hc : ∀ s : Customers.State, ¬ HasId "Customer ID" s.customers id →
      Customers.handleDelete refreshSharedData parseFloat confirm s id w = .error
        (.typeError "Cannot read properties of undefined (reading Balance Receivable)") := by
    intro s h
    have hfind := find_none _ s.customers (all_false_of_not_hasId "Customer ID" _ id h)
    simp only [Customers.handleDelete]
    rw [hfind]
  have hs : ∀ s : Suppliers.State, ¬ HasId "Supplier ID" s.suppliers id →
      Suppliers.handleDelete refreshSharedData parseFloat confirm s id w = .error
        (.typeError "Cannot read properties of undefined (reading Balance Payable)") := by
    intro s h
    have hfind := find_none _ s.suppliers (all_false_of_not_hasId "Supplier ID" _ id h)
    simp only [Suppliers.handleDelete]
    rw [hfind]
  exact ⟨hc, fun s hlt => hc s ((findRowIndex_lt_two_iff "Customer ID" _ _).mp hlt),
    hs, fun s hlt => hs s ((findRowIndex_lt_two_iff "Supplier ID" _ _).mp hlt)⟩

/-- Witness of C22: with the customers `C1`, `C2` loaded, no customer has the id `C9`, and
deleting `C9` throws the type error, whatever the confirmation answer. -/
theorem handleDelete_unknown_id_throws_witness :
    ¬ HasId "Customer ID" loadedCustomersState.customers (.str "C9") ∧
      Customers.handleDelete noRefresh digitsParse false loadedCustomersState (.str "C9")
          deleteWorld
        = .error
          (.typeError "Cannot read properties of undefined (reading Balance Receivable)") :=
  ⟨(findRowIndex_lt_two_iff "Customer ID" _ _).mp (by decide),
    (handleDelete_unknown_id_throws noRefresh digitsParse false (.str "C9") deleteWorld).1
      loadedCustomersState ((findRowIndex_lt_two_iff "Customer ID" _ _).mp (by decide))⟩

/-- C22, counterexample: deleting the customer `C9` while `C1`, `C2` are loaded, and the
supplier `S9` while `S1` is loaded, with the confirmation answered yes, does not end in
the handling of `Could not find ... to delete.`: the handler throws a type error that its
`catch` block never sees. -/
theorem handleDelete_unknown_id_uncaught :
    ¬ HasId "Customer ID" loadedCustomersState.customers (.str "C9") ∧
    Customers.handleDelete noRefresh digitsParse true loadedCustomersState (.str "C9")
        deleteWorld
      = .error (.typeError "Cannot read properties of undefined (reading Balance Receivable)") ∧
    ¬ HasId "Supplier ID" loadedSuppliersState.suppliers (.str "S9") ∧
    Suppliers.handleDelete noRefresh digitsParse true loadedSuppliersState (.str "S9")
        deleteWorld
      = .error (.typeError "Cannot read properties of undefined (reading Balance Payable)") :=
  ⟨(findRowIndex_lt_two_iff "Customer ID" _ _).mp (by decide), rfl,
    (findRowIndex_lt_two_iff "Supplier ID" _ _).mp (by decide), rfl⟩

theorem customers_handleDelete_owing
    (refreshSharedData : World → Except JsError Unit × World)
    (parseFloat : String → JsNumber) (confirm : Bool)
    (s : Customers.State) (id : JsVal) (i : Nat) (r : Record) (w : World)
    (hfirst : IsFirstWithId "Customer ID" s.customers id i)
    (hr : s.customers[i]? = some r)
    (hbalance : (parseFloat ((r.get "Balance Receivable").or (.num 0)).toJsString).gt
      (.finite 0) = true) :
    Customers.handleDelete refreshSharedData parseFloat confirm s id w
      = .ok (s, alert "Cannot delete customer with an outstanding balance." w) := by
  obtain ⟨⟨r2, hr2, hp⟩, hbefore⟩ := hfirst
  rw [hr] at hr2
  cases hr2
  have hfind := find_first (fun c => (Record.get c "Customer ID").strictEq id)
    s.customers i r hr hp hbefore
  simp only [Customers.handleDelete, hfind, hbalance, if_true]

theorem suppliers_handleDelete_owing
    (refreshSharedData : World → Except JsError Unit × World)
    (parseFloat : String → JsNumber) (confirm : Bool)
    (s : Suppliers.State) (id : JsVal) (i : Nat) (r : Record) (w : World)
    (hfirst : IsFirstWithId "Supplier ID" s.suppliers id i)
    (hr : s.suppliers[i]? = some r)
    (hbalance : (parseFloat ((r.get "Balance Payable").or (.num 0)).toJsString).gt
      (.finite 0) = true) :
    Suppliers.handleDelete refreshSharedData parseFloat confirm s id w
      = .ok (s, alert "Cannot delete supplier with an outstanding balance." w) := by
  obtain ⟨⟨r2, hr2, hp⟩, hbefore⟩ := hfirst
  rw [hr] at hr2
  cases hr2
  have hfind := find_first (fun c => (Record.get c "Supplier ID").strictEq id)
    s.suppliers i r hr hp hbefore
  simp only [Suppliers.handleDelete, hfind, hbalance, if_true]

/-- C23 (as amended): when the first loaded customer with the given id has a
`Balance Receivable` that parses to a number greater than 0, `handleDelete` shows the
outstanding-balance alert and returns, whatever the confirmation answer: the state is
unchanged and no request is sent, so `deleteRow` is not called.  Likewise for suppliers
and `Balance Payable`. -/
theorem owing_record_not_deleted
    (refreshSharedData : World → Except JsError Unit × World)
    (parseFloat : String → JsNumber) (confirm : Bool) (id : JsVal) (i : Nat) (r : Record)
    (w : World) :
    (∀ s : Customers.State, IsFirstWithId "Customer ID" s.customers id i →
      s.customers[i]? = some r →
      (parseFloat ((r.get "Balance Receivable").or (.num 0)).toJsString).gt (.finite 0)
        = true →
      Customers.handleDelete refreshSharedData parseFloat confirm s id w
        = .ok (s, alert "Cannot delete customer with an outstanding balance." w) ∧
      (alert "Cannot delete customer with an outstanding balance." w).sent = w.sent) ∧
    (∀ s : Suppliers.State, IsFirstWithId "Supplier ID" s.suppliers id i →
      s.suppliers[i]? = some r →
      (parseFloat ((r.get "Balance Payable").or (.num 0)).toJsString).gt (.finite 0)
        = true →
      Suppliers.handleDelete refreshSharedData parseFloat confirm s id w
        = .ok (s, alert "Cannot delete supplier with an outstanding balance." w) ∧
      (alert "Cannot delete supplier with an outstanding balance." w).sent = w.sent) :=
  ⟨fun s hfirst hr hbalance =>
      ⟨customers_handleDelete_owing refreshSharedData parseFloat confirm s id i r w hfirst hr
        hbalance, rfl⟩,
    fun s hfirst hr hbalance =>
      ⟨suppliers_handleDelete_owing refreshSharedData parseFloat confirm s id i r w hfirst hr
        hbalance, rfl⟩⟩

theorem owingCustomer_first : IsFirstWithId "Customer ID" owingCustomerState.customers
    (.str "C7") 0 :=
  ⟨⟨_, rfl, by decide⟩, fun j _ hj _ => absurd hj (Nat.not_lt_zero j)⟩

/-- Witness of C23: the customer `C7` owes 50; the confirmed delete is refused and sends
nothing. -/
theorem owing_record_not_deleted_witness :
    (digitsParse "50").gt (.finite 0) = true ∧
    Customers.handleDelete noRefresh digitsParse true owingCustomerState (.str "C7") deleteWorld
      = .ok (owingCustomerState,
          alert "Cannot delete customer with an outstanding balance." deleteWorld) ∧
    (alert "Cannot delete customer with an outstanding balance." deleteWorld).sent
      = deleteWorld.sent :=
  ⟨by decide,
    (owing_record_not_deleted noRefresh digitsParse true (.str "C7") 0
      [("Customer ID", .str "C7"), ("Balance Receivable", .str "50")] deleteWorld).1
      owingCustomerState owingCustomer_first rfl (by decide)⟩

/-- Counterexample to C23 as stated: two loaded customers carry the id `C1`, the second
with an outstanding balance of 50; the confirmed `handleDelete` of that id checks the
balance of the first, which is 0, and goes on to call `deleteRow`: the metadata request
and the batch update are sent. -/
theorem owing_record_counterexample :
    (∃ r ∈ repeatedIdCustomersState.customers,
      (Record.get r "Customer ID").strictEq (.str "C1") = true ∧
      (digitsParse ((r.get "Balance Receivable").or (.num 0)).toJsString).gt (.finite 0)
        = true) ∧
    (Customers.handleDelete noRefresh digitsParse true repeatedIdCustomersState (.str "C1")
        deleteWorld).map (fun result => result.2.sent.map Request.method)
      = .ok ["GET", "POST", "GET"] :=
  ⟨⟨[("Customer ID", .str "C1"), ("Balance Receivable", .str "50")], by decide, by decide,
    by decide⟩, by decide⟩

/-! ## Saving a payment -/

theorem payments_fetchData_snd (s : Payments.State) (w : World) :
    (Payments.fetchData s w).2
      = (getRangeData "RANGEPO" (getRangeData Payments.PAYMENTS_RANGE w).2).2 := by
  unfold Payments.fetchData
  generalize getRangeData Payments.PAYMENTS_RANGE w = first
  obtain ⟨r1, w1⟩ := first
  simp only
  generalize getRangeData "RANGEPO" w1 = second
  obtain ⟨r2, w2⟩ := second
  cases r1 <;> cases r2 <;> rfl

theorem payments_fetchData_sent (s : Payments.State) (w : World) :
    ∃ more, (Payments.fetchData s w).2.sent = w.sent ++ more := by
  rw [payments_fetchData_snd]
  obtain ⟨req1, h1⟩ := getRangeData_sent Payments.PAYMENTS_RANGE w
  obtain ⟨req2, h2⟩ := getRangeData_sent "RANGEPO" (getRangeData Payments.PAYMENTS_RANGE w).2
  exact ⟨[req1, req2], by rw [h2, h1]; simp⟩

theorem appendRow_request (rangeName : String) (values : List JsVal) (w : World) :
    (appendRow rangeName values w).2.sent = w.sent ++ [
      { method := "POST"
        url := "https://sheets.googleapis.com/v4/spreadsheets/" ++ w.spreadsheetId
          ++ "/values/" ++ rangeName ++ ":append?valueInputOption=USER_ENTERED"
        authorization := "Bearer " ++ (getAccessToken w).toJsString
        contentType := some "application/json"
        body := JsVal.toJSON (.obj [("values", .arr [.arr values])]) }] := by
  simp only [appendRow, fetch]
  cases hp : w.pending with
  | nil => rfl
  | cons answer rest =>
    cases answer with
    | error e => rfl
    | ok response =>
      simp only
      cases hok : response.ok with
      | false => rfl
      | true =>
        cases hjson : response.json <;> simp

theorem payments_handleSave_invalid (formatDateForSheet : JsVal → Except JsError JsVal)
    (parseFloat : String → JsNumber) (numberValue : JsNumber → JsVal)
    (refreshData : World → Except JsError Unit × World)
    (s : Payments.State) (w : World)
    (h : (s.newPayment.get "Trx ID").truthy = false ∨
      (s.newPayment.get "PO ID").truthy = false ∨
      (parseFloat (s.newPayment.get "Amount Paid").toJsString).gt (.finite 0) = false ∨
      (parseFloat (s.newPayment.get "Amount Paid").toJsString).gt
        (parseFloat (s.newPayment.get "PO Balance").toJsString) = true) :
    ∃ message,
      Payments.handleSave formatDateForSheet parseFloat numberValue refreshData s w
        = (s, alert message w) := by
  unfold Payments.handleSave
  simp only
  split
  · exact ⟨_, rfl⟩
  · rename_i hfirst
    split
    · exact ⟨_, rfl⟩
    · rename_i hsecond
      exfalso
      rcases h with h | h | h | h
      · exact hfirst (by simp [h])
      · exact hfirst (by simp [h])
      · exact hfirst (by simp [h])
      · exact hsecond h

theorem payments_handleSave_date_error (formatDateForSheet : JsVal → Except JsError JsVal)
    (parseFloat : String → JsNumber) (numberValue : JsNumber → JsVal)
    (refreshData : World → Except JsError Unit × World)
    (s : Payments.State) (w : World) (err : JsError)
    (hdate : formatDateForSheet (s.newPayment.get "Trx Date") = .error err) :
    (Payments.handleSave formatDateForSheet parseFloat numberValue refreshData s w).2.sent
      = w.sent := by
  unfold Payments.handleSave
  simp only
  split
  · rfl
  · split
    · rfl
    · simp only [Payments.handleSave.attempt, hdate]
      rfl

theorem payments_handleSave_valid (formatDateForSheet : JsVal → Except JsError JsVal)
    (parseFloat : String → JsNumber) (numberValue : JsNumber → JsVal)
    (refreshData : World → Except JsError Unit × World)
    (hrefresh : ∀ w0, ∃ more, (refreshData w0).2.sent = w0.sent ++ more)
    (s : Payments.State) (w : World) (trxDate : JsVal)
    (htrx : (s.newPayment.get "Trx ID").truthy = true)
    (hpo : (s.newPayment.get "PO ID").truthy = true)
    (hpositive : (parseFloat (s.newPayment.get "Amount Paid").toJsString).gt (.finite 0)
      = true)
    (hbalance : (parseFloat (s.newPayment.get "Amount Paid").toJsString).gt
        (parseFloat (s.newPayment.get "PO Balance").toJsString) = false)
    (hdate : formatDateForSheet (s.newPayment.get "Trx Date") = .ok trxDate) :
    ∃ more,
      (Payments.handleSave formatDateForSheet parseFloat numberValue refreshData s w).2.sent
        = w.sent ++
          { method := "POST"
            url := "https://sheets.googleapis.com/v4/spreadsheets/" ++ w.spreadsheetId
              ++ "/values/" ++ "RANGEPAYMENTS" ++ ":append?valueInputOption=USER_ENTERED"
            authorization := "Bearer " ++ (getAccessToken w).toJsString
            contentType := some "application/json"
            body := JsVal.toJSON (.obj [("values", .arr [.arr [trxDate,
              s.newPayment.get "Trx ID", s.newPayment.get "Supplier ID",
              s.newPayment.get "Supplier Name", s.newPayment.get "State",
              s.newPayment.get "City", s.newPayment.get "PO ID",
              s.newPayment.get "Bill Num", s.newPayment.get "PMT Mode",
              numberValue (parseFloat (s.newPayment.get "Amount Paid").toJsString)]])]) }
          :: more := by
  simp only [Payments.handleSave, htrx, hpo, hpositive, hbalance, Bool.not_true, Bool.or_self,
    Bool.false_eq_true, if_false, Payments.handleSave.attempt, hdate,
    Payments.handleSave.rowData]
  have hap := appendRow_request Payments.PAYMENTS_RANGE [trxDate,
              s.newPayment.get "Trx ID", s.newPayment.get "Supplier ID",
              s.newPayment.get "Supplier Name", s.newPayment.get "State",
              s.newPayment.get "City", s.newPayment.get "PO ID",
              s.newPayment.get "Bill Num", s.newPayment.get "PMT Mode",
              numberValue (parseFloat (s.newPayment.get "Amount Paid").toJsString)] w
  revert hap
  generalize appendRow Payments.PAYMENTS_RANGE _ w = appended
  obtain ⟨res, w1⟩ := appended
  intro hap
  simp only at hap
  cases res with
  | error e => exact ⟨[], by simp [alert, hap, Payments.PAYMENTS_RANGE]⟩
  | ok a =>
    simp only
    obtain ⟨more1, hmore1⟩ := payments_fetchData_sent { s with loading := true }
      (alert "Payment saved successfully! All related balances will now be recalculated." w1)
    revert hmore1
    generalize Payments.fetchData _ _ = fetched
    obtain ⟨s2, w2⟩ := fetched
    intro hmore1
    simp only at hmore1
    obtain ⟨more2, hmore2⟩ := hrefresh w2
    revert hmore2
    generalize refreshData w2 = rf
    obtain ⟨r2, w3⟩ := rf
    intro hmore2
    simp only at hmore2
    cases r2 with
    | error e =>
      exact ⟨more1 ++ more2, by simp [alert, hap, hmore1, hmore2, Payments.PAYMENTS_RANGE]⟩
    | ok u =>
      exact ⟨more1 ++ more2, by simp [alert, hap, hmore1, hmore2, Payments.PAYMENTS_RANGE]⟩

/-- C24: `handleSave` of the payments page never saves an invalid payment.  If the Trx ID
or the PO ID is empty, or the parsed Amount Paid is not greater than 0, or it is greater
than the parsed PO Balance, the handler only shows an alert: the state is unchanged and no
request is sent.  If `formatDateForSheet` throws, no request is sent either.  In the
remaining case the first request sent is the `appendRow` call on `RANGEPAYMENTS`, whose
row has exactly the ten values Trx Date (formatted), Trx ID, Supplier ID, Supplier Name,
State, City, PO ID, Bill Num, PMT Mode and the amount, in this order. -/
theorem payments_handleSave_never_invalid
    (formatDateForSheet : JsVal → Except JsError JsVal)
    (parseFloat : String → JsNumber) (numberValue : JsNumber → JsVal)
    (refreshData : World → Except JsError Unit × World)
    (hrefresh : ∀ w0, ∃ more, (refreshData w0).2.sent = w0.sent ++ more)
    (s : Payments.State) (w : World) :
    ((s.newPayment.get "Trx ID").truthy = false ∨
      (s.newPayment.get "PO ID").truthy = false ∨
      (parseFloat (s.newPayment.get "Amount Paid").toJsString).gt (.finite 0) = false ∨
      (parseFloat (s.newPayment.get "Amount Paid").toJsString).gt
        (parseFloat (s.newPayment.get "PO Balance").toJsString) = true →
      ∃ message,
        Payments.handleSave formatDateForSheet parseFloat numberValue refreshData s w
          = (s, alert message w) ∧ (alert message w).sent = w.sent) ∧
    (∀ err, formatDateForSheet (s.newPayment.get "Trx Date") = .error err →
      (Payments.handleSave formatDateForSheet parseFloat numberValue refreshData s w).2.sent
        = w.sent) ∧
    (∀ trxDate, (s.newPayment.get "Trx ID").truthy = true →
      (s.newPayment.get "PO ID").truthy = true →
      (parseFloat (s.newPayment.get "Amount Paid").toJsString).gt (.finite 0) = true →
      (parseFloat (s.newPayment.get "Amount Paid").toJsString).gt
        (parseFloat (s.newPayment.get "PO Balance").toJsString) = false →
      formatDateForSheet (s.newPayment.get "Trx Date") = .ok trxDate →
      ∃ more,
        (Payments.handleSave formatDateForSheet parseFloat numberValue refreshData s w).2.sent
          = w.sent ++
            { method := "POST"
              url := "https://sheets.googleapis.com/v4/spreadsheets/" ++ w.spreadsheetId
                ++ "/values/" ++ "RANGEPAYMENTS" ++ ":append?valueInputOption=USER_ENTERED"
              authorization := "Bearer " ++ (getAccessToken w).toJsString
              contentType := some "application/json"
              body := JsVal.toJSON (.obj [("values", .arr [.arr [trxDate,
                s.newPayment.get "Trx ID", s.newPayment.get "Supplier ID",
                s.newPayment.get "Supplier Name", s.newPayment.get "State",
                s.newPayment.get "City", s.newPayment.get "PO ID",
                s.newPayment.get "Bill Num", s.newPayment.get "PMT Mode",
                numberValue (parseFloat (s.newPayment.get "Amount Paid").toJsString)]])]) }
            :: more) :=
  ⟨fun h =>
      (payments_handleSave_invalid formatDateForSheet parseFloat numberValue refreshData s w
        h).imp (fun _ hm => ⟨hm, rfl⟩),
    fun err hdate =>
      payments_handleSave_date_error formatDateForSheet parseFloat numberValue refreshData s w
        err hdate,
    fun trxDate htrx hpo hpositive hbalance hdate =>
      payments_handleSave_valid formatDateForSheet parseFloat numberValue refreshData hrefresh
        s w trxDate htrx hpo hpositive hbalance hdate⟩

/-- Witness of C24: a payment of 400 against a balance of 100 is refused with nothing sent,
and a payment of 40 is appended as a row of ten values. -/
theorem payments_handleSave_never_invalid_witness :
    (∃ message,
      Payments.handleSave keepDate digitsParse wholeNumberValue noRefresh overpaidState
          appendWorld = (overpaidState, alert message appendWorld) ∧
        (alert message appendWorld).sent = appendWorld.sent) ∧
    (∃ more,
      (Payments.handleSave keepDate digitsParse wholeNumberValue noRefresh newPaymentState
          appendWorld).2.sent
        = appendWorld.sent ++
          { method := "POST"
            url := "https://sheets.googleapis.com/v4/spreadsheets/"
              ++ appendWorld.spreadsheetId
              ++ "/values/" ++ "RANGEPAYMENTS" ++ ":append?valueInputOption=USER_ENTERED"
            authorization := "Bearer " ++ (getAccessToken appendWorld).toJsString
            contentType := some "application/json"
            body := JsVal.toJSON (.obj [("values", .arr [.arr [.str "2024-01-05",
              .str "PT60001", .str "S1", .str "Acme", .str "Goa", .str "Panaji", .str "PO7",
              .str "B9", .str "Cash", .num 40]])]) }
          :: more) :=
  ⟨(payments_handleSave_never_invalid keepDate digitsParse wholeNumberValue noRefresh
      (fun w0 => ⟨[], (List.append_nil _).symm⟩) overpaidState appendWorld).1
      (Or.inr (Or.inr (Or.inr (by decide)))),
    (payments_handleSave_never_invalid keepDate digitsParse wholeNumberValue noRefresh
      (fun w0 => ⟨[], (List.append_nil _).symm⟩) newPaymentState appendWorld).2.2
      (.str "2024-01-05") (by decide) (by decide) (by decide) (by decide) rfl⟩

/-! ## Repeated header names -/

theorem Record.keys_set (r : Record) (k : String) (v : JsVal) :
    (r.set k v).keys = if k ∈ r.keys then r.keys else r.keys ++ [k] := by
  induction r with
  | nil => simp [Record.set, Record.keys]
  | cons p rest ih =>
    obtain ⟨k1, v1⟩ := p
    simp only [Record.keys] at ih ⊢
    by_cases h1 : k1 = k
    · subst h1
      simp [Record.set]
    · have h2 : ¬ k = k1 := fun h => h1 h.symm
      simp only [Record.set, h1, if_false, List.map_cons, List.mem_cons, h2, false_or, ih]
      split <;> simp

theorem Record.keys_set_nodup (r : Record) (k : String) (v : JsVal) (h : r.keys.Nodup) :
    (r.set k v).keys.Nodup := by
  rw [Record.keys_set]
  split
  · exact h
  · rename_i hk
    exact List.Nodup.append h (List.nodup_singleton k) (by simpa using hk)

theorem Record.mem_keys_set (r : Record) (k k2 : String) (v : JsVal) :
    k2 ∈ (r.set k v).keys ↔ k2 ∈ r.keys ∨ k2 = k := by
  rw [Record.keys_set]
  split
  · rename_i hk
    constructor
    · intro h; exact Or.inl h
    · rintro (h | rfl)
      · exact h
      · exact hk
  · simp

theorem callsSetter_unchanged (proto : RowProto) (cell : JsVal)
    (h : cell.isObjectOrNull = false) : proto.assigned cell = proto := by
  cases cell <;> first | rfl | simp [JsVal.isObjectOrNull] at h

theorem callsSetter_objectPrototype (acc : Record) (h : "__proto__" ∉ acc.keys) :
    decodeRow.callsSetter "__proto__" .objectPrototype acc = true := by
  have hany : acc.any (fun f => f.1 == "__proto__") = false := by
    rw [List.any_eq_false]
    intro f hf hk
    exact h (List.mem_map.mpr ⟨f, hf, by simpa using hk⟩)
  simp [decodeRow.callsSetter, hany, RowProto.hasSetter]

theorem decodeRow.go_keys (cells : List JsVal) :
    ∀ (hs : List JsVal) (i : Nat) (proto : RowProto) (acc : Record) (r : Record),
      decodeRow.go (.arr cells) hs i proto acc = .ok r →
      (acc.keys.Nodup → r.keys.Nodup) ∧
      (∀ k, k ∈ r.keys → k ∈ acc.keys ∨ k ∈ hs.map JsVal.toJsString) ∧
      (∀ k, k ∈ acc.keys → k ∈ r.keys) ∧
      (∀ k, k ∈ hs.map JsVal.toJsString → k ≠ "__proto__" → k ∈ r.keys) := by
  intro hs
  induction hs with
  | nil =>
    intro i proto acc r h
    simp only [decodeRow.go, Except.ok.injEq] at h
    subst h
    exact ⟨id, fun k hk => Or.inl hk, fun k hk => hk, by simp⟩
  | cons h0 rest ih =>
    intro i proto acc r h
    by_cases hset : decodeRow.callsSetter h0.toJsString proto acc = true
    · simp only [decodeRow.go, JsVal.index, hset, if_true] at h
      obtain ⟨hnodup, hsub, hacc, hnames⟩ := ih (i + 1) _ acc r h
      have hkey := callsSetter_key _ _ _ hset
      refine ⟨hnodup, ?_, hacc, ?_⟩
      · intro k hk
        rcases hsub k hk with h1 | h1
        · exact Or.inl h1
        · exact Or.inr (List.mem_cons_of_mem _ h1)
      · intro k hk hproto
        simp only [List.map_cons, List.mem_cons] at hk
        rcases hk with h1 | h1
        · exact absurd (h1.trans hkey) hproto
        · exact hnames k h1 hproto
    · simp only [decodeRow.go, JsVal.index, hset, Bool.false_eq_true, if_false] at h
      obtain ⟨hnodup, hsub, hacc, hnames⟩ := ih (i + 1) _ _ r h
      refine ⟨fun hn => hnodup (Record.keys_set_nodup _ _ _ hn), ?_, ?_, ?_⟩
      · intro k hk
        rcases hsub k hk with h1 | h1
        · rcases (Record.mem_keys_set _ _ _ _).mp h1 with h2 | h2
          · exact Or.inl h2
          · exact Or.inr (by simp [h2])
        · exact Or.inr (List.mem_cons_of_mem _ h1)
      · intro k hk
        exact hacc k ((Record.mem_keys_set _ _ _ _).mpr (Or.inl hk))
      · intro k hk hproto
        simp only [List.map_cons, List.mem_cons] at hk
        rcases hk with h1 | h1
        · exact hacc k ((Record.mem_keys_set _ _ _ _).mpr (Or.inr h1))
        · exact hnames k h1 hproto

theorem decodeRow.go_no_proto (cells : List JsVal) :
    ∀ (hs : List JsVal) (i : Nat) (acc : Record) (r : Record),
      decodeRow.go (.arr cells) hs i .objectPrototype acc = .ok r →
      "__proto__" ∉ acc.keys →
      (∀ (j : Nat) h, hs[j]? = some h → h.toJsString = "__proto__" →
        (cells.getD (i + j) .undefined).isObjectOrNull = false) →
      "__proto__" ∉ r.keys := by
  intro hs
  induction hs with
  | nil =>
    intro i acc r h hacc _
    simp only [decodeRow.go, Except.ok.injEq] at h
    subst h
    exact hacc
  | cons h0 rest ih =>
    intro i acc r h hacc hcells
    by_cases hkey : h0.toJsString = "__proto__"
    · have hset : decodeRow.callsSetter h0.toJsString .objectPrototype acc = true := by
        rw [hkey]
        exact callsSetter_objectPrototype acc hacc
      have hcell := hcells 0 h0 (by simp) hkey
      simp only [Nat.add_zero] at hcell
      simp only [decodeRow.go, JsVal.index, hset, if_true,
        callsSetter_unchanged _ _ hcell] at h
      refine ih (i + 1) acc r h hacc ?_
      intro j h1 hj hk
      have := hcells (j + 1) h1 (by simpa using hj) hk
      rw [show i + 1 + j = i + (j + 1) by omega]
      exact this
    · have hset : ¬ decodeRow.callsSetter h0.toJsString .objectPrototype acc = true :=
        fun hc => hkey (callsSetter_key _ _ _ hc)
      simp only [decodeRow.go, JsVal.index, hset, Bool.false_eq_true, if_false] at h
      refine ih (i + 1) _ r h ?_ ?_
      · intro hmem
        rcases (Record.mem_keys_set _ _ _ _).mp hmem with h1 | h1
        · exact hacc h1
        · exact hkey h1.symm
      · intro j h1 hj hk
        have := hcells (j + 1) h1 (by simpa using hj) hk
        rw [show i + 1 + j = i + (j + 1) by omega]
        exact this

theorem decodeRow.go_take (cells : List JsVal) :
    ∀ (hs : List JsVal) (i : Nat) (proto : RowProto) (acc : Record),
      decodeRow.go (.arr (cells.take (i + hs.length))) hs i proto acc
        = decodeRow.go (.arr cells) hs i proto acc := by
  intro hs
  induction hs with
  | nil => intro i proto acc; rfl
  | cons h0 rest ih =>
    intro i proto acc
    have hidx : (cells.take (i + (h0 :: rest).length)).getD i .undefined
        = cells.getD i .undefined := by
      simp only [List.getD_eq_getElem?_getD, List.length_cons]
      rw [List.getElem?_take_of_lt (by omega)]
    have hlen : i + (h0 :: rest).length = (i + 1) + rest.length := by
      simp only [List.length_cons]; omega
    simp only [decodeRow.go, JsVal.index, hidx]
    rw [hlen]
    split
    · exact ih (i + 1) _ _
    · exact ih (i + 1) _ _

theorem rowRecord_take (H cells : List JsVal) :
    rowRecord H (cells.take H.length) = rowRecord H cells := by
  have h := decodeRow.go_take cells H 0 .objectPrototype []
  simp only [Nat.zero_add] at h
  simp only [rowRecord, decodeRow, h]

theorem rowRecord_keys (H cells : List JsVal) :
    (rowRecord H cells).keys.Nodup ∧
    (∀ k, k ∈ (rowRecord H cells).keys → k ∈ H.map JsVal.toJsString) ∧
    (∀ k, k ∈ H.map JsVal.toJsString → k ≠ "__proto__" → k ∈ (rowRecord H cells).keys) ∧
    ((∀ (j : Nat) h, H[j]? = some h → h.toJsString = "__proto__" →
        (cells.getD j .undefined).isObjectOrNull = false) →
      "__proto__" ∉ (rowRecord H cells).keys ∧
      (rowRecord H cells).keys.length
        = ((H.map JsVal.toJsString).filter (fun k => decide (k ≠ "__proto__"))).dedup.length)
    := by
  have hdec := decodeRow_rowRecord H cells
  simp only [decodeRow] at hdec
  obtain ⟨hnodup, hsub, -, hnames⟩ := decodeRow.go_keys cells H 0 _ [] _ hdec
  have hn : (rowRecord H cells).keys.Nodup := hnodup (by simp [Record.keys])
  have hs : ∀ k, k ∈ (rowRecord H cells).keys → k ∈ H.map JsVal.toJsString := by
    intro k hk
    rcases hsub k hk with h1 | h1
    · simp [Record.keys] at h1
    · exact h1
  refine ⟨hn, hs, hnames, ?_⟩
  intro hcells
  have hno := decodeRow.go_no_proto cells H 0 [] _ hdec (by simp [Record.keys])
    (fun j h hj hk => by simpa using hcells j h hj hk)
  refine ⟨hno, ?_⟩
  apply List.Perm.length_eq
  rw [List.perm_ext_iff_of_nodup hn (List.nodup_dedup _)]
  intro k
  rw [List.mem_dedup, List.mem_filter]
  constructor
  · intro hk
    refine ⟨hs k hk, ?_⟩
    simp only [decide_eq_true_eq]
    intro hp
    exact hno (hp ▸ hk)
  · rintro ⟨hk, hp⟩
    simp only [decide_eq_true_eq] at hp
    exact hnames k hk hp

/-- C29 (as amended): when the header row repeats a name, every record decoded by
`getRangeData` has a single entry for each name other than `__proto__`: the names of a
record are pairwise distinct header names and include every header name other than
`__proto__`; the entry of such a name holds the cell of the last column with that name; and
the cells beyond the length of the header are dropped, the record being that of the row
cut to that length.  When the cells under the columns named `__proto__`, if any, are
neither `null` nor arrays nor objects, `__proto__` is no name of the record, which then has
as many names as there are distinct header names other than `__proto__`. -/
theorem getRangeData_repeated_header (rangeName : String) (w : World) (response : Response)
    (rest : List (Except JsError Response)) (data : JsVal)
    (H : List JsVal) (rows : List (List JsVal))
    (hpending : w.pending = .ok response :: rest) (hok : response.ok = true)
    (hjson : response.json = .ok data)
    (hvalues : data.getField "values" = .ok (.arr (.arr H :: rows.map .arr))) :
    ∃ records, (getRangeData rangeName w).1 = .ok records ∧
      records.length = rows.length ∧
      ∀ (i : Nat) r cells, records[i]? = some r → rows[i]? = some cells →
        r.keys.Nodup ∧
        (∀ k, k ∈ r.keys → k ∈ H.map JsVal.toJsString) ∧
        (∀ k, k ∈ H.map JsVal.toJsString → k ≠ "__proto__" → k ∈ r.keys) ∧
        ((∀ (j : Nat) h, H[j]? = some h → h.toJsString = "__proto__" →
            (cells.getD j .undefined).isObjectOrNull = false) →
          "__proto__" ∉ r.keys ∧
          r.keys.length = ((H.map JsVal.toJsString).filter
            (fun k => decide (k ≠ "__proto__"))).dedup.length) ∧
        (∀ (j : Nat) h, H[j]? = some h → h.toJsString ≠ "__proto__" →
          (∀ (j2 : Nat) h2, j < j2 → H[j2]? = some h2 → h2.toJsString ≠ h.toJsString) →
          r.get h.toJsString = cells.getD j .undefined) ∧
        decodeRow (.arr H) (.arr (cells.take H.length)) = .ok r := by
  refine ⟨rows.map (rowRecord H), ?_, by simp, ?_⟩
  · rw [getRangeData_ok rangeName w response rest data hpending hok hjson,
      decodeBody_rows data H rows hvalues, decodeRows_map]
  · intro i r cells hr hcells
    rw [List.getElem?_map, hcells] at hr
    simp only [Option.map_some', Option.some.injEq] at hr
    subst hr
    obtain ⟨hn, hs, hm, hl⟩ := rowRecord_keys H cells
    refine ⟨hn, hs, hm, hl,
      fun j h hj hproto hlast => rowRecord_get H cells j h hj hproto hlast, ?_⟩
    rw [decodeRow_rowRecord, rowRecord_take]

/-- Witness of C29: under the header `ID, Name, Name` the row `C1, Acme, Globex, extra`
becomes the record with `ID` = `C1` and `Name` = `Globex`, which has two names. -/
theorem getRangeData_repeated_header_witness :
    (getRangeData "RANGECUSTOMERS" (worldAnswering (Grid.response repeatedNameRange))).1
      = .ok [[("ID", .str "C1"), ("Name", .str "Globex")]] ∧
    ∃ records,
      (getRangeData "RANGECUSTOMERS" (worldAnswering (Grid.response repeatedNameRange))).1
        = .ok records ∧
      ∀ (i : Nat) r, records[i]? = some r →
        r.keys.Nodup ∧ r.keys.length = 2 ∧ r.get "Name" = .str "Globex" := by
  refine ⟨by decide, ?_⟩
  obtain ⟨records, hok, hlen, hall⟩ := getRangeData_repeated_header "RANGECUSTOMERS"
    (worldAnswering (Grid.response repeatedNameRange)) (Grid.response repeatedNameRange) []
    (.obj [("values", .arr (repeatedNameRange.map JsVal.arr))])
    [.str "ID", .str "Name", .str "Name"]
    [[.str "C1", .str "Acme", .str "Globex", .str "extra"]] rfl rfl rfl rfl
  refine ⟨records, hok, ?_⟩
  intro i r hr
  have hi : i < 1 := by
    have := (List.getElem?_eq_some.mp hr).1
    rw [hlen] at this
    simpa using this
  obtain rfl : i = 0 := by omega
  obtain ⟨hn, -, -, hcount, hget, -⟩ := hall 0 r
    [.str "C1", .str "Acme", .str "Globex", .str "extra"] hr rfl
  refine ⟨hn, ?_, ?_⟩
  · rw [(hcount (fun j h hj hk => by
      rcases j with _ | _ | _ | j
      · simp at hj; subst hj; exact absurd hk (by decide)
      · simp at hj; subst hj; exact absurd hk (by decide)
      · simp at hj; subst hj; exact absurd hk (by decide)
      · simp at hj)).2]
    decide
  · exact hget 2 (.str "Name") rfl (by decide) (fun j2 h2 hlt hj2 => by
      rcases j2 with _ | _ | _ | j2
      · omega
      · omega
      · omega
      · simp at hj2)

/-- Counterexample to C29 as stated: under the header `__proto__, Name, Name`, which has
two distinct names, the row `x, Acme, Globex` becomes a record with the single name
`Name`: the assignment to `__proto__` writes no property of the record. -/
theorem getRangeData_repeated_header_counterexample :
    (getRangeData "RANGECUSTOMERS" (worldAnswering (Grid.response protoHeaderRange))).1
      = .ok [[("Name", .str "Globex")]] ∧
    ([JsVal.str "__proto__", .str "Name", .str "Name"].map JsVal.toJsString).dedup.length
      = 2 ∧
    Record.keys [("Name", .str "Globex")] = ["Name"] := by
  decide

/-! ## Termination of the id generator -/

theorem generateCustomerId_loop_none (customers : List Record) (mul add : ℚ → ℚ → ℚ)
    (random : Nat → ℚ)
    (hused : ∀ j, customers.any (fun c => (Record.get c "Customer ID").strictEq
      (.str (Customers.generateCustomerId.newId mul add (random j)))) = true) :
    ∀ (fuel k0 : Nat),
      Customers.generateCustomerId.loop customers mul add random fuel k0 = none := by
  intro fuel
  induction fuel with
  | zero => intro k0; rfl
  | succ fuel ih =>
    intro k0
    simp only [Customers.generateCustomerId.loop, hused k0, if_true]
    exact ih (k0 + 1)

theorem allIdsCustomers_full (z : Int) (h1 : 10000 ≤ z) (h2 : z ≤ 99999) :
    allIdsCustomers.any (fun c => (Record.get c "Customer ID").strictEq
      (.str ("C" ++ (JsVal.num z).toJsString))) = true := by
  rw [List.any_eq_true]
  refine ⟨[("Customer ID", .str ("C" ++ (JsVal.num z).toJsString))], ?_, ?_⟩
  · obtain ⟨n, hn⟩ : ∃ n : Nat, z - 10000 = (n : Int) :=
      Int.eq_ofNat_of_zero_le (by omega)
    have hz : z = (n : Int) + 10000 := by omega
    subst hz
    have hn2 : n < 90000 := by omega
    rw [allIdsCustomers, List.mem_map]
    refine ⟨n, ?_, rfl⟩
    rw [List.mem_range]
    exact hn2
  · have hget : Record.get [("Customer ID", JsVal.str ("C" ++ (JsVal.num z).toJsString))]
        "Customer ID" = .str ("C" ++ (JsVal.num z).toJsString) := by
      simp only [Record.get, JsVal.lookupField, if_true]
    rw [hget]
    simp only [JsVal.strictEq, beq_self_eq_true]

/-- C30: the retry loop of `generateCustomerId` ends exactly when it draws an unused id.
If draw `k` is the first whose id is not taken by a loaded customer, the loop returns that
id as soon as it is allowed more than `k` draws, and returns nothing within `k` draws or
fewer.  If every draw gives a taken id the loop returns within no number of draws; this is
so in particular when every id from `C10000` to `C99999` is taken, the samples are doubles
in `[0, 1)` and the product and the sum are rounded to a nearest double. -/
theorem generateCustomerId_loop_terminates (customers : List Record) (mul add : ℚ → ℚ → ℚ)
    (random : Nat → ℚ) :
    (∀ k,
      (∀ j, j < k → customers.any (fun c => (Record.get c "Customer ID").strictEq
        (.str (Customers.generateCustomerId.newId mul add (random j)))) = true) →
      customers.any (fun c => (Record.get c "Customer ID").strictEq
        (.str (Customers.generateCustomerId.newId mul add (random k)))) = false →
      ∀ fuel, Customers.generateCustomerId.loop customers mul add random fuel 0
        = if k < fuel then some (Customers.generateCustomerId.newId mul add (random k))
          else none) ∧
    ((∀ j, customers.any (fun c => (Record.get c "Customer ID").strictEq
        (.str (Customers.generateCustomerId.newId mul add (random j)))) = true) →
      ∀ fuel, Customers.generateCustomerId.loop customers mul add random fuel 0 = none) ∧
    ((∀ z : Int, 10000 ≤ z → z ≤ 99999 →
        customers.any (fun c => (Record.get c "Customer ID").strictEq
          (.str ("C" ++ (JsVal.num z).toJsString))) = true) →
      RoundedDraws mul add random →
      ∀ fuel, Customers.generateCustomerId.loop customers mul add random fuel 0 = none) := by
  refine ⟨?_, ?_, ?_⟩
  · intro k hused hfree fuel
    have h := generateCustomerId_loop_first customers mul add random k hfree fuel 0
      (Nat.zero_le _) (fun j _ hjk => hused j hjk)
    simpa using h
  · intro hused fuel
    exact generateCustomerId_loop_none customers mul add random hused fuel 0
  · intro hfull hdraws fuel
    refine generateCustomerId_loop_none customers mul add random ?_ fuel 0
    intro j
    obtain ⟨hd, h0, h1, hmul, hadd⟩ := hdraws j
    obtain ⟨hlo, hhi⟩ := rounded_range mul add (random j) hd h0 h1 hmul hadd
    exact hfull _ hlo hhi

/-- Witness of C30: with `C10000` taken and the draws 0, 0, 1/2, ..., whose products and
sums are exact, the loop returns `C55000` at the third draw and nothing within two draws;
with every id taken it returns nothing within a thousand draws of 0. -/
theorem generateCustomerId_loop_terminates_witness :
    Customers.generateCustomerId.loop firstIdCustomers exactMul exactAdd laterHalfSamples 3 0
      = some "C55000" ∧
    Customers.generateCustomerId.loop firstIdCustomers exactMul exactAdd laterHalfSamples 2 0
      = none ∧
    RoundedDraws exactMul exactAdd zeroSamples ∧
    Customers.generateCustomerId.loop allIdsCustomers exactMul exactAdd zeroSamples 1000 0
      = none := by
  have hfloor0 : ⌊exactAdd 10000 (exactMul 0 90000)⌋ = 10000 := by
    simp [exactMul, exactAdd]
  have hfloor2 : ⌊exactAdd 10000 (exactMul (1 / 2) 90000)⌋ = 55000 := by
    norm_num [exactMul, exactAdd]
  have hused : ∀ j, j < 2 → firstIdCustomers.any (fun c =>
      (Record.get c "Customer ID").strictEq
        (.str (Customers.generateCustomerId.newId exactMul exactAdd (laterHalfSamples j))))
      = true := by
    intro j hj
    simp only [Customers.generateCustomerId.newId, laterHalfSamples, hj, if_true, hfloor0]
    decide
  have hfree : firstIdCustomers.any (fun c =>
      (Record.get c "Customer ID").strictEq
        (.str (Customers.generateCustomerId.newId exactMul exactAdd (laterHalfSamples 2))))
      = false := by
    simp only [Customers.generateCustomerId.newId, laterHalfSamples, Nat.lt_irrefl, if_false,
      hfloor2]
    decide
  have hid : Customers.generateCustomerId.newId exactMul exactAdd (laterHalfSamples 2)
      = "C55000" := by
    simp only [Customers.generateCustomerId.newId, laterHalfSamples, Nat.lt_irrefl, if_false,
      hfloor2]
    decide
  have hthree := (generateCustomerId_loop_terminates firstIdCustomers exactMul exactAdd
    laterHalfSamples).1 2 hused hfree 3
  have htwo := (generateCustomerId_loop_terminates firstIdCustomers exactMul exactAdd
    laterHalfSamples).1 2 hused hfree 2
  have hall := (generateCustomerId_loop_terminates allIdsCustomers exactMul exactAdd
    zeroSamples).2.2 allIdsCustomers_full zeroSamples_rounded 1000
  rw [hid] at hthree
  exact ⟨by simpa using hthree, by simpa using htwo, zeroSamples_rounded, hall⟩

/-! ## Filtered lists -/

theorem filteredRecords_sublist (toLowerCase : String → String) (records : List Record)
    (searchTerm filterColumn : String) :
    (filteredRecords toLowerCase records searchTerm filterColumn).Sublist records := by
  unfold filteredRecords
  split
  · exact List.Sublist.refl _
  · exact List.filter_sublist _

theorem filteredRecords_all (toLowerCase : String → String) (records : List Record)
    (searchTerm : String) (hterm : searchTerm ≠ "") :
    filteredRecords toLowerCase records searchTerm "All"
      = records.filter (fun record => decide ((toLowerCase searchTerm).toList <:+:
          (toLowerCase (JsVal.join " " record.values)).toList)) := by
  simp only [filteredRecords, hterm, if_false, if_true, String.includes]

theorem filteredRecords_column (toLowerCase : String → String) (records : List Record)
    (searchTerm filterColumn : String) (hterm : searchTerm ≠ "")
    (hcolumn : filterColumn ≠ "All") :
    filteredRecords toLowerCase records searchTerm filterColumn
      = records.filter (fun record => decide ((toLowerCase searchTerm).toList <:+:
          (toLowerCase ((record.get filterColumn).or (.str "")).toJsString).toList)) := by
  simp only [filteredRecords, hterm, hcolumn, if_false, String.includes]

/-- C28: the filtered list of a page is an order-preserving sublist of the loaded
collection; it is the loaded collection when the search term is empty; otherwise it keeps
exactly the records for which the lower-cased search term occurs in the lower-cased text
searched: for the column `All` the values of the record joined by single spaces, for any
other column the text of that column, a missing or falsy cell counting as empty.  The
filtered lists of the customers, suppliers, payments and receipts pages are all this
list. -/
theorem filtered_list_characterised (toLowerCase : String → String) (records : List Record)
    (searchTerm filterColumn : String) :
    (filteredRecords toLowerCase records searchTerm filterColumn).Sublist records ∧
    (searchTerm = "" → filteredRecords toLowerCase records searchTerm filterColumn = records) ∧
    (searchTerm ≠ "" → filterColumn = "All" →
      filteredRecords toLowerCase records searchTerm filterColumn
        = records.filter (fun record => decide ((toLowerCase searchTerm).toList <:+:
            (toLowerCase (JsVal.join " " record.values)).toList))) ∧
    (searchTerm ≠ "" → filterColumn ≠ "All" →
      filteredRecords toLowerCase records searchTerm filterColumn
        = records.filter (fun record => decide ((toLowerCase searchTerm).toList <:+:
            (toLowerCase ((record.get filterColumn).or (.str "")).toJsString).toList))) ∧
    (∀ s : Customers.State, Customers.filteredCustomers toLowerCase s
      = filteredRecords toLowerCase s.customers s.searchTerm s.filterColumn) ∧
    (∀ s : Suppliers.State, Suppliers.filteredSuppliers toLowerCase s
      = filteredRecords toLowerCase s.suppliers s.searchTerm s.filterColumn) ∧
    (∀ s : Payments.State, Payments.filteredPayments toLowerCase s
      = filteredRecords toLowerCase s.payments s.searchTerm s.filterColumn) ∧
    (∀ s : Receipts.State, Receipts.filteredReceipts toLowerCase s
      = filteredRecords toLowerCase s.receipts s.searchTerm s.filterColumn) :=
  ⟨filteredRecords_sublist toLowerCase records searchTerm filterColumn,
    fun h => by simp only [filteredRecords, h, if_true],
    fun hterm hcolumn => by
      subst hcolumn
      exact filteredRecords_all toLowerCase records searchTerm hterm,
    fun hterm hcolumn =>
      filteredRecords_column toLowerCase records searchTerm filterColumn hterm hcolumn,
    fun _ => rfl, fun _ => rfl, fun _ => rfl, fun _ => rfl⟩

/-- Witness of C28: among three customers the term `me c` on `All` keeps the first two
(the second because its value under the column `2024` comes first in the joined text),
the term `AC` on `Customer Name` keeps the first and the third, and the empty term keeps
all three. -/
theorem filtered_list_characterised_witness :
    filteredRecords asciiLowerCase searchableCustomers "me c" "All"
      = searchableCustomers.take 2 ∧
    filteredRecords asciiLowerCase searchableCustomers "AC" "Customer Name"
      = searchableCustomers.eraseIdx 1 ∧
    filteredRecords asciiLowerCase searchableCustomers "" "City" = searchableCustomers := by
  have hall := (filtered_list_characterised asciiLowerCase searchableCustomers "me c"
    "All").2.2.1 (by decide) rfl
  have hcolumn := (filtered_list_characterised asciiLowerCase searchableCustomers "AC"
    "Customer Name").2.2.2.1 (by decide) (by decide)
  have hempty := (filtered_list_characterised asciiLowerCase searchableCustomers ""
    "City").2.1 rfl
  refine ⟨?_, ?_, hempty⟩
  · rw [hall]; decide
  · rw [hcolumn]; decide

/-! ## Objects of numbers and texts -/

theorem ownProperty_setOwn {α : Type} (fields : List (String × α)) (k k2 : String) (v : α) :
    Dashboard.ownProperty (Dashboard.setOwn fields k v) k2
      = if k = k2 then some v else Dashboard.ownProperty fields k2 := by
  induction fields with
  | nil => simp [Dashboard.setOwn, Dashboard.ownProperty]
  | cons p rest ih =>
    obtain ⟨k1, v1⟩ := p
    by_cases h1 : k1 = k
    · subst h1
      by_cases h2 : k1 = k2 <;> simp [Dashboard.setOwn, Dashboard.ownProperty, h2]
    · by_cases h2 : k1 = k2
      · subst h2
        have h3 : ¬ k = k1 := fun h => h1 h.symm
        simp [Dashboard.setOwn, Dashboard.ownProperty, h1, h3]
      · simp [Dashboard.setOwn, Dashboard.ownProperty, h1, h2, ih]

theorem setOwn_keys {α : Type} (fields : List (String × α)) (k : String) (v : α) :
    (Dashboard.setOwn fields k v).map Prod.fst
      = if k ∈ fields.map Prod.fst then fields.map Prod.fst
        else fields.map Prod.fst ++ [k] := by
  induction fields with
  | nil => simp [Dashboard.setOwn]
  | cons p rest ih =>
    obtain ⟨k1, v1⟩ := p
    by_cases h1 : k1 = k
    · subst h1
      simp [Dashboard.setOwn]
    · have h2 : ¬ k = k1 := fun h => h1 h.symm
      simp only [Dashboard.setOwn, h1, if_false, List.map_cons, List.mem_cons, h2, false_or, ih]
      split <;> simp

theorem setOwn_keys_nodup {α : Type} (fields : List (String × α)) (k : String) (v : α)
    (h : (fields.map Prod.fst).Nodup) : ((Dashboard.setOwn fields k v).map Prod.fst).Nodup := by
  rw [setOwn_keys]
  split
  · exact h
  · rename_i hk
    exact List.Nodup.append h (List.nodup_singleton k) (by simpa using hk)

theorem mem_setOwn_keys {α : Type} (fields : List (String × α)) (k k2 : String) (v : α) :
    k2 ∈ (Dashboard.setOwn fields k v).map Prod.fst ↔ k2 ∈ fields.map Prod.fst ∨ k2 = k := by
  rw [setOwn_keys]
  split
  · rename_i hk
    constructor
    · intro h; exact Or.inl h
    · rintro (h | rfl)
      · exact h
      · exact hk
  · simp

theorem ownProperty_isSome {α : Type} (fields : List (String × α)) (k : String) :
    (Dashboard.ownProperty fields k).isSome = true ↔ k ∈ fields.map Prod.fst := by
  induction fields with
  | nil => simp [Dashboard.ownProperty]
  | cons p rest ih =>
    obtain ⟨k1, v1⟩ := p
    by_cases h1 : k1 = k
    · simp [Dashboard.ownProperty, h1]
    · have h2 : ¬ k = k1 := fun h => h1 h.symm
      simp [Dashboard.ownProperty, h1, h2, ih]

theorem ownProperty_of_mem {α : Type} (fields : List (String × α))
    (hnodup : (fields.map Prod.fst).Nodup) (k : String) (v : α) (h : (k, v) ∈ fields) :
    Dashboard.ownProperty fields k = some v := by
  induction fields with
  | nil => simp at h
  | cons p rest ih =>
    obtain ⟨k1, v1⟩ := p
    simp only [List.map_cons, List.nodup_cons] at hnodup
    rcases List.mem_cons.mp h with heq | hrest
    · cases heq
      simp [Dashboard.ownProperty]
    · have h1 : ¬ k1 = k := by
        intro hk
        subst hk
        exact hnodup.1 (List.mem_map.mpr ⟨(k1, v), hrest, rfl⟩)
      simp [Dashboard.ownProperty, h1, ih hnodup.2 hrest]

theorem mem_of_ownProperty {α : Type} (fields : List (String × α)) (k : String) (v : α)
    (h : Dashboard.ownProperty fields k = some v) : (k, v) ∈ fields := by
  induction fields with
  | nil => simp [Dashboard.ownProperty] at h
  | cons p rest ih =>
    obtain ⟨k1, v1⟩ := p
    by_cases h1 : k1 = k
    · subst h1
      simp only [Dashboard.ownProperty, if_true, Option.some.injEq] at h
      subst h
      exact List.mem_cons_self _ _
    · simp only [Dashboard.ownProperty, h1, if_false] at h
      exact List.mem_cons_of_mem _ (ih h)

theorem mem_setOwn {α : Type} (fields : List (String × α)) (k : String) (v : α)
    (e : String × α) (h : e ∈ Dashboard.setOwn fields k v) : e ∈ fields ∨ e = (k, v) := by
  induction fields with
  | nil =>
    simp only [Dashboard.setOwn, List.mem_singleton] at h
    exact Or.inr h
  | cons p rest ih =>
    obtain ⟨k1, v1⟩ := p
    by_cases h1 : k1 = k
    · subst h1
      simp only [Dashboard.setOwn, if_true, List.mem_cons] at h
      rcases h with h | h
      · exact Or.inr h
      · exact Or.inl (List.mem_cons_of_mem _ h)
    · simp only [Dashboard.setOwn, h1, if_false, List.mem_cons] at h
      rcases h with h | h
      · exact Or.inl (by rw [h]; exact List.mem_cons_self _ _)
      · rcases ih h with h2 | h2
        · exact Or.inl (List.mem_cons_of_mem _ h2)
        · exact Or.inr h2

theorem proto_inherited : "__proto__" ∈ Dashboard.objectPrototypeNames := by decide

theorem property_eq_own (m : Dashboard.ValueMap) (k : String)
    (h : k ∉ Dashboard.objectPrototypeNames) :
    Dashboard.property m k = Dashboard.ownProperty m k := by
  unfold Dashboard.property
  cases Dashboard.ownProperty m k with
  | some v => rfl
  | none => simp [h]

theorem assign_eq_setOwn (m : Dashboard.ValueMap) (k : String) (v : Dashboard.Value)
    (h : k ≠ "__proto__") : Dashboard.assign m k v = Dashboard.setOwn m k v := by
  simp [Dashboard.assign, h]

theorem orZero_finite (o : Option Dashboard.Value)
    (h : ∀ v, o = some v → ∃ q, v = .number (.finite q)) :
    Dashboard.orZero o = .number (.finite ((o.map Dashboard.Value.toRat).getD 0)) := by
  cases o with
  | none => rfl
  | some v =>
    obtain ⟨q, rfl⟩ := h v rfl
    by_cases hq : q = 0
    · subst hq
      simp [Dashboard.orZero, Dashboard.Value.truthy, JsNumber.truthy, Dashboard.Value.toRat,
        JsNumber.toRat]
    · simp [Dashboard.orZero, Dashboard.Value.truthy, JsNumber.truthy, Dashboard.Value.toRat,
        JsNumber.toRat, hq]

theorem isFinite_iff (n : JsNumber) : n.isFinite = true ↔ n = .finite n.toRat := by
  cases n <;> simp [JsNumber.isFinite, JsNumber.toRat]

theorem valuesSum_setOwn (m : Dashboard.ValueMap) (k : String) (v : Dashboard.Value) :
    valuesSum (Dashboard.setOwn m k v)
      = valuesSum m - ((Dashboard.ownProperty m k).map Dashboard.Value.toRat).getD 0
        + v.toRat := by
  induction m with
  | nil => simp [Dashboard.setOwn, Dashboard.ownProperty, valuesSum]
  | cons p rest ih =>
    obtain ⟨k1, v1⟩ := p
    by_cases h1 : k1 = k
    · subst h1
      simp [Dashboard.setOwn, Dashboard.ownProperty, valuesSum]
      ring
    · simp only [valuesSum] at ih
      simp [Dashboard.setOwn, Dashboard.ownProperty, valuesSum, h1, ih]
      ring

theorem finite_of_isFinite (n : JsNumber) (h : n.isFinite = true) : ∃ q, n = .finite q := by
  cases n with
  | finite q => exact ⟨q, rfl⟩
  | nan => simp [JsNumber.isFinite] at h
  | posInfinity => simp [JsNumber.isFinite] at h
  | negInfinity => simp [JsNumber.isFinite] at h

theorem add_finite (a b : ℚ) : (JsNumber.finite a).add (.finite b) = .finite (a + b) := rfl

theorem total_fold (Number : JsVal → JsNumber) (field : String) :
    ∀ (rows : List Record) (q : ℚ), AllFinite Number field rows →
      rows.foldl (fun (sum : JsNumber) r => sum.add (Number ((r.get field).or (.num 0))))
          (JsNumber.finite q)
        = JsNumber.finite (q + sumWhere Number field (fun _ => true) rows) := by
  intro rows
  induction rows with
  | nil => intro q _; simp [sumWhere]
  | cons r rest ih =>
    intro q h
    obtain ⟨p, hp⟩ := finite_of_isFinite _ (h r (List.mem_cons_self _ _))
    have hrest : AllFinite Number field rest := fun x hx => h x (List.mem_cons_of_mem _ hx)
    simp only [priceOf] at hp
    simp only [List.foldl_cons]
    rw [hp, add_finite, ih _ hrest]
    simp only [sumWhere, priceOf, List.filter_cons, if_true, List.map_cons, List.sum_cons, hp,
      JsNumber.toRat]
    congr 1
    ring

theorem total_finite (Number : JsVal → JsNumber) (field : String) (rows : List Record)
    (h : AllFinite Number field rows) :
    Dashboard.processDashboardData.total Number field rows
      = .finite (sumWhere Number field (fun _ => true) rows) := by
  unfold Dashboard.processDashboardData.total
  rw [total_fold Number field rows 0 h]
  simp

/-- One step of the grouping, for a row whose group name is no name of `Object.prototype`
and whose price is finite, into an object of finite numbers: the sum so far of the group,
plus the price, is written under the group name. -/
theorem groupedStep_finite (Number : JsVal → JsNumber) (numberText : JsNumber → String)
    (inheritedText : String → String) (keyField valueField : String)
    (acc : Dashboard.ValueMap) (r : Record) (hacc : MapFinite acc)
    (hname : groupKey keyField r ∉ Dashboard.objectPrototypeNames)
    (hprice : (priceOf Number valueField r).isFinite = true) :
    Dashboard.processDashboardData.groupedStep Number numberText inheritedText keyField
        valueField acc r
      = Dashboard.setOwn acc (groupKey keyField r)
        (.number (.finite (((Dashboard.ownProperty acc (groupKey keyField r)).map
          Dashboard.Value.toRat).getD 0 + (priceOf Number valueField r).toRat))) := by
  have hne : groupKey keyField r ≠ "__proto__" := fun hk => hname (hk ▸ proto_inherited)
  have hold : ∀ v, Dashboard.ownProperty acc (groupKey keyField r) = some v →
      ∃ q, v = .number (.finite q) := fun v hv => hacc _ (mem_of_ownProperty _ _ _ hv)
  rw [isFinite_iff] at hprice
  show Dashboard.assign acc (groupKey keyField r)
    ((Dashboard.orZero (Dashboard.property acc (groupKey keyField r))).plus numberText
      inheritedText (priceOf Number valueField r)) = _
  rw [assign_eq_setOwn _ _ _ hne, property_eq_own _ _ hname, orZero_finite _ hold, hprice]
  rfl

theorem grouped_fold (Number : JsVal → JsNumber) (numberText : JsNumber → String)
    (inheritedText : String → String) (keyField valueField : String) :
    ∀ (rows : List Record) (acc : Dashboard.ValueMap),
      MapFinite acc → NoInheritedName keyField rows → AllFinite Number valueField rows →
      MapFinite (rows.foldl (Dashboard.processDashboardData.groupedStep Number numberText
        inheritedText keyField valueField) acc) ∧
      (∀ k, ((Dashboard.ownProperty (rows.foldl
          (Dashboard.processDashboardData.groupedStep Number numberText inheritedText keyField
            valueField) acc) k).map Dashboard.Value.toRat).getD 0
        = ((Dashboard.ownProperty acc k).map Dashboard.Value.toRat).getD 0
          + sumWhere Number valueField (fun r => decide (groupKey keyField r = k)) rows) ∧
      valuesSum (rows.foldl (Dashboard.processDashboardData.groupedStep Number numberText
          inheritedText keyField valueField) acc)
        = valuesSum acc + sumWhere Number valueField (fun _ => true) rows := by
  intro rows
  induction rows with
  | nil =>
    intro acc hacc _ _
    exact ⟨hacc, by simp [sumWhere], by simp [sumWhere]⟩
  | cons r rest ih =>
    intro acc hacc hnames hrows
    have hstep := groupedStep_finite Number numberText inheritedText keyField valueField acc r
      hacc (hnames r (List.mem_cons_self _ _)) (hrows r (List.mem_cons_self _ _))
    have hacc1 : MapFinite (Dashboard.processDashboardData.groupedStep Number numberText
        inheritedText keyField valueField acc r) := by
      rw [hstep]
      intro e he
      rcases mem_setOwn _ _ _ e he with h1 | h1
      · exact hacc e h1
      · exact ⟨_, by rw [h1]⟩
    obtain ⟨hfin, hval, hsum⟩ := ih _ hacc1
      (fun x hx => hnames x (List.mem_cons_of_mem _ hx))
      (fun x hx => hrows x (List.mem_cons_of_mem _ hx))
    simp only [List.foldl_cons]
    refine ⟨hfin, ?_, ?_⟩
    · intro k
      rw [hval k, hstep, ownProperty_setOwn]
      simp only [sumWhere, List.filter_cons]
      by_cases hk : groupKey keyField r = k
      · subst hk
        simp [Dashboard.Value.toRat, JsNumber.toRat]
        ring
      · simp [hk]
    · rw [hsum, hstep, valuesSum_setOwn]
      simp only [sumWhere, List.filter_cons, if_true, List.map_cons, List.sum_cons,
        Dashboard.Value.toRat, JsNumber.toRat]
      ring

theorem groupedStep_keys (Number : JsVal → JsNumber) (numberText : JsNumber → String)
    (inheritedText : String → String) (keyField valueField : String)
    (acc : Dashboard.ValueMap) (r : Record) :
    ((acc.map Prod.fst).Nodup →
      ((Dashboard.processDashboardData.groupedStep Number numberText inheritedText keyField
        valueField acc r).map Prod.fst).Nodup) ∧
    (∀ k, k ∈ (Dashboard.processDashboardData.groupedStep Number numberText inheritedText
        keyField valueField acc r).map Prod.fst
      ↔ k ∈ acc.map Prod.fst ∨ (k ≠ "__proto__" ∧ groupKey keyField r = k)) := by
  show ((acc.map Prod.fst).Nodup → ((Dashboard.assign acc (groupKey keyField r)
      ((Dashboard.orZero (Dashboard.property acc (groupKey keyField r))).plus numberText
        inheritedText (priceOf Number valueField r))).map Prod.fst).Nodup) ∧
    (∀ k, k ∈ (Dashboard.assign acc (groupKey keyField r)
      ((Dashboard.orZero (Dashboard.property acc (groupKey keyField r))).plus numberText
        inheritedText (priceOf Number valueField r))).map Prod.fst
      ↔ k ∈ acc.map Prod.fst ∨ (k ≠ "__proto__" ∧ groupKey keyField r = k))
  by_cases hk : groupKey keyField r = "__proto__"
  · simp only [Dashboard.assign, hk, if_true]
    refine ⟨id, fun k => ⟨Or.inl, ?_⟩⟩
    rintro (h | ⟨h1, h2⟩)
    · exact h
    · exact absurd h2.symm h1
  · rw [assign_eq_setOwn _ _ _ hk]
    refine ⟨setOwn_keys_nodup _ _ _, fun k => ?_⟩
    rw [mem_setOwn_keys]
    constructor
    · rintro (h | h)
      · exact Or.inl h
      · exact Or.inr ⟨by rw [h]; exact hk, h.symm⟩
    · rintro (h | ⟨-, h⟩)
      · exact Or.inl h
      · exact Or.inr h.symm

theorem grouped_keys (Number : JsVal → JsNumber) (numberText : JsNumber → String)
    (inheritedText : String → String) (keyField valueField : String) :
    ∀ (rows : List Record) (acc : Dashboard.ValueMap),
      ((acc.map Prod.fst).Nodup → ((rows.foldl
        (Dashboard.processDashboardData.groupedStep Number numberText inheritedText keyField
          valueField) acc).map Prod.fst).Nodup) ∧
      (∀ k, k ∈ (rows.foldl (Dashboard.processDashboardData.groupedStep Number numberText
          inheritedText keyField valueField) acc).map Prod.fst
        ↔ k ∈ acc.map Prod.fst ∨ (k ≠ "__proto__" ∧ ∃ r ∈ rows, groupKey keyField r = k)) := by
  intro rows
  induction rows with
  | nil => intro acc; exact ⟨id, by simp⟩
  | cons r rest ih =>
    intro acc
    obtain ⟨hnodup, hmem⟩ := ih (Dashboard.processDashboardData.groupedStep Number numberText
      inheritedText keyField valueField acc r)
    obtain ⟨hstepnd, hstepmem⟩ := groupedStep_keys Number numberText inheritedText keyField
      valueField acc r
    simp only [List.foldl_cons]
    refine ⟨fun h => hnodup (hstepnd h), ?_⟩
    intro k
    rw [hmem, hstepmem]
    simp only [List.mem_cons, exists_eq_or_imp]
    constructor
    · rintro ((h | ⟨h1, h2⟩) | ⟨h1, h2⟩)
      · exact Or.inl h
      · exact Or.inr ⟨h1, Or.inl h2⟩
      · exact Or.inr ⟨h1, Or.inr h2⟩
    · rintro (h | ⟨h1, h2 | h2⟩)
      · exact Or.inl (Or.inl h)
      · exact Or.inl (Or.inr ⟨h1, h2⟩)
      · exact Or.inr ⟨h1, h2⟩

/-- The object built by grouping: its names are distinct and are the group names of the
rows other than `__proto__`. -/
theorem grouped_names (Number : JsVal → JsNumber) (numberText : JsNumber → String)
    (inheritedText : String → String) (keyField valueField : String) (rows : List Record) :
    ((Dashboard.processDashboardData.grouped Number numberText inheritedText keyField
      valueField rows).map Prod.fst).Nodup ∧
    ∀ k, k ∈ (Dashboard.processDashboardData.grouped Number numberText inheritedText keyField
        valueField rows).map Prod.fst
      ↔ k ≠ "__proto__" ∧ ∃ r ∈ rows, groupKey keyField r = k := by
  obtain ⟨hnodup, hmem⟩ := grouped_keys Number numberText inheritedText keyField valueField
    rows []
  refine ⟨hnodup List.nodup_nil, ?_⟩
  intro k
  have := hmem k
  simpa [Dashboard.processDashboardData.grouped] using this

/-- The object built by grouping rows whose group names are no names of `Object.prototype`
and whose numbers are finite: every value is a finite number, the number of a name is the
exact sum over the rows of that group, and the numbers add up to the sum over all rows. -/
theorem grouped_sums (Number : JsVal → JsNumber) (numberText : JsNumber → String)
    (inheritedText : String → String) (keyField valueField : String) (rows : List Record)
    (hnames : NoInheritedName keyField rows) (hrows : AllFinite Number valueField rows) :
    MapFinite (Dashboard.processDashboardData.grouped Number numberText inheritedText keyField
      valueField rows) ∧
    (∀ k v, (k, v) ∈ Dashboard.processDashboardData.grouped Number numberText inheritedText
        keyField valueField rows →
      v = .number (.finite (sumWhere Number valueField
        (fun r => decide (groupKey keyField r = k)) rows))) ∧
    valuesSum (Dashboard.processDashboardData.grouped Number numberText inheritedText keyField
        valueField rows)
      = sumWhere Number valueField (fun _ => true) rows := by
  obtain ⟨hfin, hval, hsum⟩ := grouped_fold Number numberText inheritedText keyField
    valueField rows [] (fun e he => by simp at he) hnames hrows
  obtain ⟨hnodup, -⟩ := grouped_names Number numberText inheritedText keyField valueField rows
  refine ⟨hfin, ?_, ?_⟩
  · intro k v hkv
    obtain ⟨q, hq⟩ := hfin (k, v) hkv
    have hprop := ownProperty_of_mem _ hnodup k v hkv
    have := hval k
    simp only [Dashboard.processDashboardData.grouped] at hprop
    rw [hprop] at this
    simp only at hq
    subst hq
    simp only [Option.map_some', Option.getD_some, Dashboard.ownProperty, Option.map_none',
      Option.getD_none, zero_add, Dashboard.Value.toRat, JsNumber.toRat] at this
    rw [this]
  · have := hsum
    simpa [valuesSum, Dashboard.processDashboardData.grouped] using this

theorem ownEntries_perm {α : Type} (fields : List (String × α)) :
    List.Perm (ownEntries fields) fields := by
  have hmap : (fields.filterMap (fun p => (arrayIndex p.1).map (fun n => (n, p)))).map Prod.snd
      = fields.filter (fun p => (arrayIndex p.1).isSome) := by
    induction fields with
    | nil => rfl
    | cons p rest ih =>
      cases h : arrayIndex p.1 with
      | none => simp [List.filterMap_cons, List.filter_cons, h, ih]
      | some n => simp [List.filterMap_cons, List.filter_cons, h, ih]
  have hnamed : fields.filter (fun p => (arrayIndex p.1).isNone)
      = fields.filter (fun p => !(arrayIndex p.1).isSome) := by
    congr 1
    funext p
    cases arrayIndex p.1 <;> rfl
  unfold ownEntries
  simp only
  rw [hnamed]
  refine List.Perm.trans (List.Perm.append_right _ ?_) (List.filter_append_perm _ fields)
  rw [← hmap]
  exact List.Perm.map _ (List.perm_insertionSort _ _)

theorem ownEntries_keys_nodup {α : Type} (fields : List (String × α))
    (h : (fields.map Prod.fst).Nodup) : ((ownEntries fields).map Prod.fst).Nodup :=
  ((ownEntries_perm fields).map Prod.fst).nodup_iff.mpr h

theorem mem_ownEntries {α : Type} (fields : List (String × α)) (e : String × α) :
    e ∈ ownEntries fields ↔ e ∈ fields :=
  (ownEntries_perm fields).mem_iff

theorem sortDescending_perm (Number : JsVal → JsNumber) (inheritedText : String → String)
    (entries : List (String × Dashboard.Value)) :
    List.Perm (Dashboard.sortDescending Number inheritedText entries) entries :=
  List.perm_insertionSort _ _

theorem sortDescending_sorted (Number : JsVal → JsNumber) (inheritedText : String → String)
    (entries : List (String × Dashboard.Value))
    (h : ∀ e ∈ entries, ∃ q, e.2 = .number (.finite q)) :
    (Dashboard.sortDescending Number inheritedText entries).Pairwise
      (fun a b => b.2.toRat ≤ a.2.toRat) := by
  have hmap := List.map_insertionSort
    (fun a b : String × Dashboard.Value =>
      ((b.2.toNumber Number inheritedText).sub (a.2.toNumber Number inheritedText)).gt
        (.finite 0) = false)
    (fun a b : String × ℚ => b.2 ≤ a.2)
    (fun e : String × Dashboard.Value => (e.1, e.2.toRat)) entries (by
      intro a ha b hb
      obtain ⟨p, hp⟩ := h a ha
      obtain ⟨q, hq⟩ := h b hb
      simp only [hp, hq, Dashboard.Value.toNumber, Dashboard.Value.toRat, JsNumber.sub,
        JsNumber.neg, add_finite, JsNumber.gt, JsNumber.toRat, decide_eq_false_iff_not, not_lt]
      constructor <;> intro hpq <;> linarith)
  have hsorted : ((entries.map (fun e : String × Dashboard.Value =>
      (e.1, e.2.toRat))).insertionSort
      (fun a b : String × ℚ => b.2 ≤ a.2)).Sorted (fun a b : String × ℚ => b.2 ≤ a.2) := by
    haveI : IsTotal (String × ℚ) (fun a b => b.2 ≤ a.2) := ⟨fun a b => le_total b.2 a.2⟩
    haveI : IsTrans (String × ℚ) (fun a b => b.2 ≤ a.2) :=
      ⟨fun a b c hab hbc => le_trans hbc hab⟩
    exact List.sorted_insertionSort _ _
  rw [← hmap] at hsorted
  exact (List.pairwise_map.mp hsorted)

/-! ## Purchases by category and year -/

theorem seriesData_ok (purCatByYear : List (String × Dashboard.ValueMap)) (cat : JsVal) :
    ∀ years : List String, (∀ y ∈ years, y ∈ purCatByYear.map Prod.fst) →
      ∃ data, Dashboard.processDashboardData.seriesData purCatByYear cat years = .ok data ∧
        data.length = years.length := by
  intro years
  induction years with
  | nil => intro _; exact ⟨[], rfl, rfl⟩
  | cons y rest ih =>
    intro h
    have hy := (ownProperty_isSome purCatByYear y).mpr (h y (List.mem_cons_self _ _))
    obtain ⟨inner, hinner⟩ := Option.isSome_iff_exists.mp hy
    obtain ⟨more, hmore, hlen⟩ := ih (fun x hx => h x (List.mem_cons_of_mem _ hx))
    exact ⟨Dashboard.orZero (Dashboard.property inner cat.toJsString) :: more,
      by simp only [Dashboard.processDashboardData.seriesData, hinner, hmore],
      by simp [hlen]⟩

theorem purchaseByCategorySeries_ok (purCatByYear : List (String × Dashboard.ValueMap))
    (years : List String) (hyears : ∀ y ∈ years, y ∈ purCatByYear.map Prod.fst) :
    ∀ cats : List JsVal,
      ∃ series,
        Dashboard.processDashboardData.purchaseByCategorySeries purCatByYear years cats
          = .ok series ∧
        series.map Dashboard.Series.name = cats ∧
        ∀ one ∈ series, one.data.length = years.length := by
  intro cats
  induction cats with
  | nil => exact ⟨[], rfl, rfl, by simp⟩
  | cons cat rest ih =>
    obtain ⟨data, hdata, hlen⟩ := seriesData_ok purCatByYear cat years hyears
    obtain ⟨more, hmore, hnames, hall⟩ := ih
    refine ⟨{ name := cat, data := data } :: more,
      by simp only [Dashboard.processDashboardData.purchaseByCategorySeries, hdata, hmore],
      by simp [hnames], ?_⟩
    intro one hone
    rcases List.mem_cons.mp hone with h | h
    · rw [h]; exact hlen
    · exact hall one h

theorem sortStrings_perm (keys : List String) : List.Perm (sortStrings keys) keys :=
  List.perm_insertionSort _ _

theorem sortStrings_sorted (keys : List String) :
    (sortStrings keys).Pairwise (fun a b => a ≤ b) :=
  List.sorted_insertionSort (fun a b : String => a ≤ b) keys

theorem allYears_mem (purCatByYear : List (String × Dashboard.ValueMap)) (y : String) :
    y ∈ Dashboard.processDashboardData.allYears purCatByYear ↔ y ∈ purCatByYear.map Prod.fst :=
  ((sortStrings_perm _).trans ((ownEntries_perm purCatByYear).map Prod.fst)).mem_iff

theorem processDashboardData_ok (Number : JsVal → JsNumber) (numberText : JsNumber → String)
    (inheritedText : String → String) (yearOf : JsVal → Option Int)
    (formatCurrency : JsNumber → String) (sales purchases customers suppliers : List Record) :
    ∃ data,
      Dashboard.processDashboardData Number numberText inheritedText yearOf formatCurrency
        sales purchases customers suppliers = .ok data ∧
      data.kpis.totalSales
        = formatCurrency (Dashboard.processDashboardData.total Number "Total Sales Price" sales) ∧
      data.kpis.netProfitRaw
        = (Dashboard.processDashboardData.total Number "Total Sales Price" sales).sub
          (Dashboard.processDashboardData.total Number "Total Purchase Price" purchases) ∧
      data.charts.topCustomersData
        = (Dashboard.processDashboardData.topCustArr Number inheritedText
            (Dashboard.processDashboardData.grouped Number numberText inheritedText
              "Customer Name" "Total Sales Price" sales)).map Prod.snd ∧
      data.charts.topCustomersCategories
        = (Dashboard.processDashboardData.topCustArr Number inheritedText
            (Dashboard.processDashboardData.grouped Number numberText inheritedText
              "Customer Name" "Total Sales Price" sales)).map Prod.fst ∧
      data.charts.salesByCityData
        = (ownEntries (Dashboard.processDashboardData.grouped Number numberText inheritedText
            "City" "Total Sales Price" sales)).map
            (fun entry => { x := entry.1, y := entry.2 }) := by
  obtain ⟨series, hseries, -, -⟩ := purchaseByCategorySeries_ok
    (Dashboard.processDashboardData.purCatByYear Number numberText inheritedText yearOf
      purchases)
    (Dashboard.processDashboardData.allYears
      (Dashboard.processDashboardData.purCatByYear Number numberText inheritedText yearOf
        purchases))
    (fun y hy => (allYears_mem _ y).mp hy)
    (Dashboard.processDashboardData.allCategories purchases)
  simp only [Dashboard.processDashboardData, hseries]
  exact ⟨_, rfl, rfl, rfl, rfl, rfl, rfl⟩

/-! ## Dashboard charts -/

theorem salesByCityData_sum (Number : JsVal → JsNumber) (numberText : JsNumber → String)
    (inheritedText : String → String) (sales : List Record)
    (hnames : NoInheritedName "City" sales)
    (hsales : AllFinite Number "Total Sales Price" sales) :
    (((ownEntries (Dashboard.processDashboardData.grouped Number numberText inheritedText
        "City" "Total Sales Price" sales)).map
        (fun entry => ({ x := entry.1, y := entry.2 } : Dashboard.Point))).map
        (fun point => point.y.toRat)).sum
      = sumWhere Number "Total Sales Price" (fun _ => true) sales := by
  obtain ⟨-, -, hsum⟩ := grouped_sums Number numberText inheritedText "City"
    "Total Sales Price" sales hnames hsales
  rw [← hsum, List.map_map]
  exact ((ownEntries_perm _).map _).sum_eq

/-- C26 (as amended): the treemap of sales by city has exactly one point for each distinct
city of the sales rows other than `__proto__`, a missing city counting as `Unknown`, and
no point for `__proto__`.  When no city is a name of `Object.prototype` and the price of
every sales row is a finite number, over exact arithmetic the y value of a city is the sum
of the prices of its rows, the y values add up to the total of the prices over all sales
rows, which is the number formatted as the `totalSales` figure; and when the purchase
prices are finite as well, `netProfitRaw` is that sales total minus the purchases
total. -/
theorem salesByCity_partition (Number : JsVal → JsNumber) (numberText : JsNumber → String)
    (inheritedText : String → String) (yearOf : JsVal → Option Int)
    (formatCurrency : JsNumber → String) (sales purchases customers suppliers : List Record) :
    ∃ data,
      Dashboard.processDashboardData Number numberText inheritedText yearOf formatCurrency
        sales purchases customers suppliers = .ok data ∧
      (data.charts.salesByCityData.map Dashboard.Point.x).Nodup ∧
      (∀ city, city ∈ data.charts.salesByCityData.map Dashboard.Point.x
        ↔ city ≠ "__proto__" ∧ ∃ r ∈ sales, groupKey "City" r = city) ∧
      data.kpis.totalSales
        = formatCurrency (Dashboard.processDashboardData.total Number "Total Sales Price" sales) ∧
      (NoInheritedName "City" sales → AllFinite Number "Total Sales Price" sales →
        (∀ point ∈ data.charts.salesByCityData,
          point.y = .number (.finite (sumWhere Number "Total Sales Price"
            (fun r => decide (groupKey "City" r = point.x)) sales))) ∧
        Dashboard.processDashboardData.total Number "Total Sales Price" sales
          = .finite (sumWhere Number "Total Sales Price" (fun _ => true) sales) ∧
        (data.charts.salesByCityData.map (fun point => point.y.toRat)).sum
          = sumWhere Number "Total Sales Price" (fun _ => true) sales ∧
        (AllFinite Number "Total Purchase Price" purchases →
          data.kpis.netProfitRaw
            = .finite (sumWhere Number "Total Sales Price" (fun _ => true) sales
              - sumWhere Number "Total Purchase Price" (fun _ => true) purchases))) := by
  obtain ⟨data, hok, htotal, hnet, -, -, hcity⟩ := processDashboardData_ok Number numberText
    inheritedText yearOf formatCurrency sales purchases customers suppliers
  obtain ⟨hnodup, hmem⟩ := grouped_names Number numberText inheritedText "City"
    "Total Sales Price" sales
  have hx : data.charts.salesByCityData.map Dashboard.Point.x
      = (ownEntries (Dashboard.processDashboardData.grouped Number numberText inheritedText
          "City" "Total Sales Price" sales)).map Prod.fst := by
    rw [hcity, List.map_map]
    rfl
  refine ⟨data, hok, ?_, ?_, htotal, ?_⟩
  · rw [hx]
    exact ownEntries_keys_nodup _ hnodup
  · intro city
    rw [hx, ((ownEntries_perm _).map Prod.fst).mem_iff]
    exact hmem city
  · intro hnames hsales
    obtain ⟨-, hval, -⟩ := grouped_sums Number numberText inheritedText "City"
      "Total Sales Price" sales hnames hsales
    refine ⟨?_, total_finite Number _ sales hsales, ?_, ?_⟩
    · intro point hpoint
      rw [hcity] at hpoint
      obtain ⟨e, he, rfl⟩ := List.mem_map.mp hpoint
      exact hval e.1 e.2 ((mem_ownEntries _ e).mp he)
    · rw [hcity]
      exact salesByCityData_sum Number numberText inheritedText sales hnames hsales
    · intro hpurchases
      rw [hnet, total_finite Number _ sales hsales, total_finite Number _ purchases hpurchases]
      simp only [JsNumber.sub, JsNumber.neg, add_finite]
      congr 1
      ring

/-- Witness of C26: the three example sales, whose cities are `Pune` and `Goa`, give the
points `Pune` = 25 and `Goa` = 10, which add up to the total 35; with the example purchases
of 16 the net profit is 19. -/
theorem salesByCity_partition_witness :
    NoInheritedName "City" exampleSales ∧
    AllFinite digitsNumber "Total Sales Price" exampleSales ∧
    ∃ data,
      Dashboard.processDashboardData digitsNumber plainNumberText nativeText leadingYear
        plainCurrency exampleSales examplePurchases [] [] = .ok data ∧
      data.charts.salesByCityData.map (fun point => (point.x, point.y))
        = [("Pune", .number (.finite 25)), ("Goa", .number (.finite 10))] ∧
      (data.charts.salesByCityData.map (fun point => point.y.toRat)).sum = 35 ∧
      data.kpis.totalSales = "$35" ∧
      data.kpis.netProfitRaw = .finite 19 := by
  have hnames : NoInheritedName "City" exampleSales := by
    intro r hr
    simp only [exampleSales, List.mem_cons, List.mem_singleton, List.not_mem_nil, or_false]
      at hr
    rcases hr with rfl | rfl | rfl <;> decide
  have hfin : AllFinite digitsNumber "Total Sales Price" exampleSales := by
    intro r hr
    simp only [exampleSales, List.mem_cons, List.mem_singleton, List.not_mem_nil, or_false]
      at hr
    rcases hr with rfl | rfl | rfl <;> decide
  obtain ⟨data, hok, -, -, htotal, hfinite⟩ := salesByCity_partition digitsNumber
    plainNumberText nativeText leadingYear plainCurrency exampleSales examplePurchases [] []
  obtain ⟨-, hsum, hfold, hnet⟩ := hfinite hnames hfin
  have hprofit := hnet (by
    intro r hr
    simp only [examplePurchases, List.mem_cons, List.mem_singleton, List.not_mem_nil, or_false]
      at hr
    rcases hr with rfl | rfl | rfl | rfl <;> decide)
  have hdata : (Dashboard.processDashboardData digitsNumber plainNumberText nativeText
      leadingYear plainCurrency exampleSales examplePurchases [] []).map
        (fun d => d.charts.salesByCityData.map (fun point => (point.x, point.y)))
      = .ok [("Pune", .number (.finite 25)), ("Goa", .number (.finite 10))] := by
    with_unfolding_all decide
  rw [hok] at hdata
  have hvalue : Dashboard.processDashboardData.total digitsNumber "Total Sales Price"
      exampleSales = .finite 35 := by with_unfolding_all decide
  have hall : sumWhere digitsNumber "Total Sales Price" (fun _ => true) exampleSales = 35 := by
    have := hsum
    rw [hvalue] at this
    exact (JsNumber.finite.inj this).symm
  refine ⟨hnames, hfin, data, hok, ?_, ?_, ?_, ?_⟩
  · simpa [Except.map] using hdata
  · rw [hfold, hall]
  · rw [htotal, hvalue]
    decide
  · rw [hprofit]
    with_unfolding_all decide

/-- Counterexample to C26 as stated: of two sales in `Pune` the first has the price `abc`,
which is no number, and the second the price `5`.  The total of the prices is `NaN`, shown
as the `totalSales` figure, while the only treemap point is `Pune` with `y = 5`.  And of
three sales with the prices 20, 7 and 5, the first and the last in a city named
`__proto__` and the second in `Pune`, the only point is `Pune` with `y = 7`, while the
total is 32: the city `__proto__` has no point. -/
theorem salesByCity_partition_counterexample :
    (Dashboard.processDashboardData digitsNumber plainNumberText nativeText leadingYear
        plainCurrency unreadableSales [] [] []).map (fun data =>
          (data.charts.salesByCityData.map (fun point => (point.x, point.y)),
            data.kpis.totalSales))
      = .ok ([("Pune", .number (.finite 5))], "$NaN") ∧
    Dashboard.processDashboardData.total digitsNumber "Total Sales Price" unreadableSales
      = .nan ∧
    (Dashboard.processDashboardData digitsNumber plainNumberText nativeText leadingYear
        plainCurrency inheritedNameSales [] [] []).map (fun data =>
          data.charts.salesByCityData.map (fun point => (point.x, point.y)))
      = .ok [("Pune", .number (.finite 7))] ∧
    inheritedNameSales.map (groupKey "City") = ["__proto__", "Pune", "__proto__"] ∧
    Dashboard.processDashboardData.total digitsNumber "Total Sales Price" inheritedNameSales
      = .finite 32 := by
  refine ⟨by with_unfolding_all decide, by with_unfolding_all decide,
    by with_unfolding_all decide, by decide, by with_unfolding_all decide⟩

theorem topCustArr_spec (Number : JsVal → JsNumber) (inheritedText : String → String)
    (custMap : Dashboard.ValueMap) (hnodup : (custMap.map Prod.fst).Nodup) :
    (Dashboard.processDashboardData.topCustArr Number inheritedText custMap).length ≤ 10 ∧
    (∀ e ∈ Dashboard.processDashboardData.topCustArr Number inheritedText custMap,
      e ∈ custMap) ∧
    ((Dashboard.processDashboardData.topCustArr Number inheritedText custMap).map
      Prod.fst).Nodup ∧
    (MapFinite custMap →
      (Dashboard.processDashboardData.topCustArr Number inheritedText custMap).Pairwise
        (fun a b => b.2.toRat ≤ a.2.toRat) ∧
      ∀ e ∈ custMap,
        e.1 ∉ (Dashboard.processDashboardData.topCustArr Number inheritedText custMap).map
          Prod.fst →
        (Dashboard.processDashboardData.topCustArr Number inheritedText custMap).length = 10 ∧
        ∀ a ∈ Dashboard.processDashboardData.topCustArr Number inheritedText custMap,
          e.2.toRat ≤ a.2.toRat) := by
  have hperm : List.Perm (Dashboard.sortDescending Number inheritedText (ownEntries custMap))
      custMap := (sortDescending_perm _ _ _).trans (ownEntries_perm custMap)
  unfold Dashboard.processDashboardData.topCustArr
  refine ⟨List.length_take_le _ _, ?_, ?_, ?_⟩
  · intro e he
    exact hperm.mem_iff.mp (List.mem_of_mem_take he)
  · exact List.Nodup.sublist ((List.take_sublist _ _).map Prod.fst)
      ((hperm.map Prod.fst).nodup_iff.mpr hnodup)
  · intro hfinite
    have hsorted := sortDescending_sorted Number inheritedText (ownEntries custMap)
      (fun e he => hfinite e ((mem_ownEntries _ e).mp he))
    refine ⟨hsorted.sublist (List.take_sublist _ _), ?_⟩
    intro e he hnot
    have hmem : e ∈ Dashboard.sortDescending Number inheritedText (ownEntries custMap) :=
      hperm.mem_iff.mpr he
    rw [← List.take_append_drop 10
      (Dashboard.sortDescending Number inheritedText (ownEntries custMap))] at hmem
    rcases List.mem_append.mp hmem with h | h
    · exact absurd (List.mem_map_of_mem Prod.fst h) hnot
    · refine ⟨?_, fun a ha => List.Sorted.rel_of_mem_take_of_mem_drop hsorted ha h⟩
      have hlen : 10 < (Dashboard.sortDescending Number inheritedText
          (ownEntries custMap)).length := by
        by_contra hle
        rw [List.drop_of_length_le (by omega)] at h
        simp at h
      rw [List.length_take]
      omega

/-- C25 (as amended): the chart of the top customers has at most 10 entries, as many
categories as values, and its categories are distinct customer names of the sales rows, a
missing name counting as `Unknown`; the name `__proto__` is never listed.  When no
customer name is a name of `Object.prototype` and the price of every sales row is a finite
number, the value at each position is the exact sum of the prices of the customer named
at that position, the values are in non-increasing order, and a customer that is not
listed has a sum no greater than any listed value, the chart then having 10 entries. -/
theorem topCustomers_chart (Number : JsVal → JsNumber) (numberText : JsNumber → String)
    (inheritedText : String → String) (yearOf : JsVal → Option Int)
    (formatCurrency : JsNumber → String) (sales purchases customers suppliers : List Record) :
    ∃ data,
      Dashboard.processDashboardData Number numberText inheritedText yearOf formatCurrency
        sales purchases customers suppliers = .ok data ∧
      data.charts.topCustomersData.length ≤ 10 ∧
      data.charts.topCustomersCategories.length = data.charts.topCustomersData.length ∧
      data.charts.topCustomersCategories.Nodup ∧
      (∀ name ∈ data.charts.topCustomersCategories,
        name ≠ "__proto__" ∧ ∃ r ∈ sales, groupKey "Customer Name" r = name) ∧
      (NoInheritedName "Customer Name" sales → AllFinite Number "Total Sales Price" sales →
        (∀ (i : Nat) name value, data.charts.topCustomersCategories[i]? = some name →
          data.charts.topCustomersData[i]? = some value →
          value = .number (.finite (sumWhere Number "Total Sales Price"
            (fun r => decide (groupKey "Customer Name" r = name)) sales))) ∧
        data.charts.topCustomersData.Pairwise (fun a b => b.toRat ≤ a.toRat) ∧
        (∀ r ∈ sales, groupKey "Customer Name" r ∉ data.charts.topCustomersCategories →
          data.charts.topCustomersData.length = 10 ∧
          ∀ value ∈ data.charts.topCustomersData,
            sumWhere Number "Total Sales Price"
              (fun x => decide (groupKey "Customer Name" x = groupKey "Customer Name" r))
              sales ≤ value.toRat)) := by
  obtain ⟨data, hok, -, -, hdata, hcats, -⟩ := processDashboardData_ok Number numberText
    inheritedText yearOf formatCurrency sales purchases customers suppliers
  obtain ⟨hnodup, hmem⟩ := grouped_names Number numberText inheritedText "Customer Name"
    "Total Sales Price" sales
  obtain ⟨hlen, hsub, htopnodup, hfinite⟩ := topCustArr_spec Number inheritedText _ hnodup
  refine ⟨data, hok, ?_, ?_, ?_, ?_, ?_⟩
  · rw [hdata, List.length_map]
    exact hlen
  · rw [hdata, hcats, List.length_map, List.length_map]
  · rw [hcats]
    exact htopnodup
  · intro name hname
    rw [hcats] at hname
    obtain ⟨e, he, rfl⟩ := List.mem_map.mp hname
    exact (hmem e.1).mp (List.mem_map_of_mem Prod.fst (hsub e he))
  · intro hnames hsales
    obtain ⟨hfin, hval, -⟩ := grouped_sums Number numberText inheritedText "Customer Name"
      "Total Sales Price" sales hnames hsales
    obtain ⟨hpair, hrest⟩ := hfinite hfin
    refine ⟨?_, ?_, ?_⟩
    · intro i name value hn hv
      rw [hcats, List.getElem?_map] at hn
      rw [hdata, List.getElem?_map] at hv
      cases he : (Dashboard.processDashboardData.topCustArr Number inheritedText
          (Dashboard.processDashboardData.grouped Number numberText inheritedText
            "Customer Name" "Total Sales Price" sales))[i]? with
      | none => rw [he] at hn; simp at hn
      | some e =>
        rw [he] at hn hv
        simp only [Option.map_some', Option.some.injEq] at hn hv
        subst hn
        subst hv
        exact hval e.1 e.2 (hsub e (List.getElem?_mem he))
    · rw [hdata, List.pairwise_map]
      exact hpair
    · intro r hr hnot
      have hne : groupKey "Customer Name" r ≠ "__proto__" :=
        fun hk => hnames r hr (hk ▸ proto_inherited)
      obtain ⟨v, hv⟩ : ∃ v, (groupKey "Customer Name" r, v) ∈
          Dashboard.processDashboardData.grouped Number numberText inheritedText
            "Customer Name" "Total Sales Price" sales := by
        have hk := (hmem (groupKey "Customer Name" r)).mpr ⟨hne, r, hr, rfl⟩
        obtain ⟨e, he, hfst⟩ := List.mem_map.mp hk
        exact ⟨e.2, by rw [← hfst]; exact he⟩
      have hvalue := hval _ v hv
      rw [hcats] at hnot
      obtain ⟨hten, hle⟩ := hrest _ hv hnot
      refine ⟨by rw [hdata, List.length_map]; exact hten, ?_⟩
      intro value hvalue2
      rw [hdata] at hvalue2
      obtain ⟨a, ha, rfl⟩ := List.mem_map.mp hvalue2
      have := hle a ha
      rw [hvalue] at this
      simpa [Dashboard.Value.toRat, JsNumber.toRat] using this

/-- Witness of C25: of the eleven customers `K0` to `K10`, customer `Kn` buying for `n`,
the chart lists `K10` down to `K1` with the values 10 down to 1; `K0`, which is not listed,
has the sum 0. -/
theorem topCustomers_chart_witness :
    NoInheritedName "Customer Name" elevenSales ∧
    AllFinite digitsNumber "Total Sales Price" elevenSales ∧
    ∃ data,
      Dashboard.processDashboardData digitsNumber plainNumberText nativeText leadingYear
        plainCurrency elevenSales [] [] [] = .ok data ∧
      data.charts.topCustomersCategories
        = ["K10", "K9", "K8", "K7", "K6", "K5", "K4", "K3", "K2", "K1"] ∧
      data.charts.topCustomersData.Pairwise (fun a b => b.toRat ≤ a.toRat) ∧
      data.charts.topCustomersData.length = 10 ∧
      ∀ value ∈ data.charts.topCustomersData,
        sumWhere digitsNumber "Total Sales Price"
          (fun x => decide (groupKey "Customer Name" x = groupKey "Customer Name"
            [("Customer Name", .str "K0"), ("Total Sales Price", .num 0)])) elevenSales
          ≤ value.toRat := by
  have hnames : NoInheritedName "Customer Name" elevenSales := by
    intro r hr
    simp only [elevenSales, List.mem_map, List.mem_range] at hr
    obtain ⟨n, hn, rfl⟩ := hr
    interval_cases n <;> decide
  have hall : AllFinite digitsNumber "Total Sales Price" elevenSales := by
    intro r hr
    obtain ⟨n, -, rfl⟩ := List.mem_map.mp hr
    cases n <;> rfl
  obtain ⟨data, hok, -, -, -, -, hfinite⟩ := topCustomers_chart digitsNumber plainNumberText
    nativeText leadingYear plainCurrency elevenSales [] [] []
  obtain ⟨-, hpair, hrest⟩ := hfinite hnames hall
  have hcats : (Dashboard.processDashboardData digitsNumber plainNumberText nativeText
      leadingYear plainCurrency elevenSales [] [] []).map
        (fun d => d.charts.topCustomersCategories)
      = .ok ["K10", "K9", "K8", "K7", "K6", "K5", "K4", "K3", "K2", "K1"] := by
    with_unfolding_all decide
  rw [hok] at hcats
  have hc : data.charts.topCustomersCategories
      = ["K10", "K9", "K8", "K7", "K6", "K5", "K4", "K3", "K2", "K1"] := by
    simpa [Except.map] using hcats
  have hzero := hrest [("Customer Name", .str "K0"), ("Total Sales Price", .num 0)]
    (by decide) (by rw [hc]; decide)
  exact ⟨hnames, hall, data, hok, hc, hpair, hzero.1, hzero.2⟩

/-- Counterexample to C25 as stated: of two sales the one to `Acme` has the price `abc`,
which is no number, and the one to `Globex` the price `5`.  The chart lists `Acme` with the
value `NaN` before `Globex` with the value 5, and `NaN >= 5` does not hold.  And of three
sales with the prices 20, 7 and 5, the first and the last to a customer named `constructor`
and the second to `Acme`, the chart lists `constructor` first with a value that is no
number: the text of the inherited function followed by `20` and `5`. -/
theorem topCustomers_chart_counterexample :
    (Dashboard.processDashboardData digitsNumber plainNumberText nativeText leadingYear
        plainCurrency unreadableSales [] [] []).map (fun data =>
          (data.charts.topCustomersCategories, data.charts.topCustomersData))
      = .ok (["Acme", "Globex"], [.number .nan, .number (.finite 5)]) ∧
    JsNumber.ge .nan (.finite 5) = false ∧
    (Dashboard.processDashboardData digitsNumber plainNumberText nativeText leadingYear
        plainCurrency inheritedNameSales [] [] []).map (fun data =>
          (data.charts.topCustomersCategories, data.charts.topCustomersData))
      = .ok (["constructor", "Acme"],
          [.text "function Object() \x7b [native code] \x7d205", .number (.finite 7)]) := by
  refine ⟨by with_unfolding_all decide, rfl, by with_unfolding_all decide⟩

/-- C27 at the failing input: purchases dated in the years 2024 and 999 give the x-axis
years `2024`, `999`, which are not in ascending order: `Object.keys(...).sort()` compares
the years as texts.  Besides, a single purchase of `Tools` in 2024 whose price `abc` is no
number gives the point 0 for `Tools` in 2024, although there is a purchase of that category
in that year. -/
theorem purchaseByCategory_years_not_ascending :
    (Dashboard.processDashboardData digitsNumber plainNumberText nativeText leadingYear
        plainCurrency [] earlyYearPurchases [] []).map
        (fun data => data.charts.purchaseByCategoryCategories)
      = .ok ["2024", "999"] ∧
    earlyYearPurchases.map (fun r => leadingYear (r.get "Date")) = [some 2024, some 999] ∧
    (Dashboard.processDashboardData digitsNumber plainNumberText nativeText leadingYear
        plainCurrency [] unreadablePurchases [] []).map (fun data =>
          (data.charts.purchaseByCategoryCategories,
            data.charts.purchaseByCategorySeries.map (fun series => (series.name, series.data))))
      = .ok (["2024"], [(.str "Tools", [.number (.finite 0)])]) ∧
    unreadablePurchases.map (fun r => priceOf digitsNumber "Total Purchase Price" r)
      = [.nan] := by
  refine ⟨by with_unfolding_all decide, by decide, by with_unfolding_all decide, by decide⟩
